import Mathlib

/-!
# Vehicle store and query service

A shallow embedding of the in-memory vehicle store
(`internal/repository/vehicle_map.go`), the service above it
(`internal/service/vehicle_default.go`), the error values of
`internal/vehicle_repository.go` and `internal/vehicle_service.go`, and the
handlers `Create`, `CreateMultiple`, `Update` and `ListByDimensions` of
`internal/handler/vehicle.go`.

Modelling conventions.

* Go `int` is `Int`. The code compares and copies identities and years and
  counts records, so no overflow can occur.
* Go `float64` is `F64`: NaN, the two infinities, or a finite value given by the
  rational number it denotes. Order and equality follow IEEE 754 (every
  comparison with NaN is false, negative zero equals zero). The type also admits
  rational numbers that no `float64` denotes, so a statement about all values
  covers every value the program can meet.
* Go `map[int]Vehicle` is an association list with pairwise distinct keys
  (`AList`). The order of the entries is the order in which `range` visits
  them; since Go leaves that order unspecified, a statement about all stores
  is a statement about all traversal orders.
* A method with receiver `r *VehicleMap` takes the store state and returns the
  state after the call next to the Go results.
* Floating point addition, division and the conversion from `int` give the exact
  result rounded to the nearest `float64`, ties to even, with overflow to an
  infinity (`F64.round`). The sign of a zero is not represented.
* A handler takes what the library calls `request.JSON`, `strconv.Atoi` and
  `strconv.ParseFloat` produce as arguments, and returns the status it writes; a
  runtime panic is the result `none`.
-/

namespace VehicleStore

/-! ## Floating point values -/

/-- A `float64` value. A finite value is represented by the rational number it
denotes; a finite `float64` has magnitude at most `maxFloat64`. -/
inductive F64 where
  | nan
  | negInf
  | fin (q : ℚ)
  | posInf
deriving DecidableEq

/-- The constant `math.MaxFloat64`, `(2^53 - 1) * 2^971`, written out in decimal
(see `maxFloat64_eq`). -/
def maxFloat64 : ℚ :=
  179769313486231570814527423731704356798070567525844996598917476803157260780028538760589558632766878171540458953514382464234321326889464182768467546703537516986049910576551282076245490090389328944075868508455133942304583236903222948165808559332123348274797826204144723168738177180919299881250404026184124858368

namespace F64

/-- The constant `math.MaxFloat64` as a `float64`. -/
def MaxFloat64 : F64 := fin maxFloat64

/-- The literal `0` as a `float64`. -/
def zero : F64 := fin 0

/-- Go `x <= y` on `float64`. -/
def le : F64 → F64 → Bool
  | nan, _ => false
  | _, nan => false
  | negInf, _ => true
  | _, posInf => true
  | fin a, fin b => decide (a ≤ b)
  | fin _, negInf => false
  | posInf, _ => false

/-- Go `x >= y` on `float64`. -/
def ge (x y : F64) : Bool := le y x

/-- Go `x == y` on `float64`. -/
def eq : F64 → F64 → Bool
  | negInf, negInf => true
  | posInf, posInf => true
  | fin a, fin b => decide (a = b)
  | _, _ => false

/-- A finite `float64`: neither NaN nor an infinity, of magnitude at most
`math.MaxFloat64`. -/
def isFinite : F64 → Bool
  | fin q => decide (-maxFloat64 ≤ q) && decide (q ≤ maxFloat64)
  | _ => false

/-- The number of times `n` can be halved before it drops below 2, that is
`⌊log₂ n⌋` for `n > 0`; `fuel` bounds the number of halvings. -/
def log2Floor : Nat → Nat → Nat
  | 0, _ => 0
  | fuel + 1, n => if n < 2 then 0 else log2Floor fuel (n / 2) + 1

/-- The exponent of the binade of `n / d`, that is `⌊log₂ (n / d)⌋`, for positive `n`
and `d`. -/
def binadeExponent (n d : Nat) : Int :=
  let a : Int := (log2Floor n n : Int) - (log2Floor d d : Int)
  if d * 2 ^ a.toNat ≤ n * 2 ^ (-a).toNat then a else a - 1

/-- The `float64` nearest to the positive rational `n / d`, ties to the even
significand: the value is rounded to a multiple of `2 ^ p`, where `p` leaves 53
significant bits and is at least `-1074`, the exponent of the smallest subnormal; a
result of `2 ^ 1024` or more overflows to `+Inf`. -/
def roundPos (n d : Nat) : F64 :=
  let p : Int := max (binadeExponent n d - 52) (-1074)
  let num : Nat := n * 2 ^ (-p).toNat
  let den : Nat := d * 2 ^ p.toNat
  let f : Nat := num / den
  let rem : Nat := num % den
  let k : Nat := if 2 * rem < den then f else if den < 2 * rem then f + 1 else f + f % 2
  if 2 ^ 1024 * 2 ^ (-p).toNat ≤ k * 2 ^ p.toNat then posInf
  else fin (mkRat (k * 2 ^ p.toNat : Nat) (2 ^ (-p).toNat))

/-- The `float64` nearest to a rational number, ties to even, with overflow to an
infinity: the rounding that Go applies to the exact result of an arithmetic operation
or a conversion. -/
def round (q : ℚ) : F64 :=
  if q = 0 then fin 0
  else if 0 < q then roundPos q.num.natAbs q.den
  else
    match roundPos q.num.natAbs q.den with
    | fin x => fin (-x)
    | _ => negInf

/-- Go `x + y` on `float64`: the exact sum of two finite values, rounded. -/
def add : F64 → F64 → F64
  | nan, _ => nan
  | _, nan => nan
  | posInf, negInf => nan
  | negInf, posInf => nan
  | posInf, _ => posInf
  | _, posInf => posInf
  | negInf, _ => negInf
  | _, negInf => negInf
  | fin a, fin b => round (a + b)

/-- Go `x / y` on `float64`: the exact quotient of two finite values, rounded. The
sign of a zero is not represented, so a zero divisor is taken to be positive zero;
the program divides by a positive count only. -/
def div : F64 → F64 → F64
  | nan, _ => nan
  | _, nan => nan
  | fin a, fin b =>
    if b = 0 then (if a = 0 then nan else if 0 < a then posInf else negInf)
    else round (a / b)
  | fin _, _ => fin 0
  | posInf, fin b => if 0 ≤ b then posInf else negInf
  | negInf, fin b => if 0 ≤ b then negInf else posInf
  | _, _ => nan

/-- The conversion `float64(n)` of an `int`: the nearest `float64`. -/
def ofInt (n : Int) : F64 := round n

/-- Go `x < y` on `float64`. -/
def lt : F64 → F64 → Bool
  | nan, _ => false
  | _, nan => false
  | posInf, _ => false
  | _, negInf => false
  | negInf, _ => true
  | _, posInf => true
  | fin a, fin b => decide (a < b)

/-- Go `x > y` on `float64`. -/
def gt (x y : F64) : Bool := lt y x

end F64

/-! ## Data model -/

/-- Modelled from the spec: the declaration of `internal.Dimensions` is not among
the sources; the fields are those the handlers read and write (height, length,
width, floating point). -/
structure Dimensions where
  Height : F64
  Length : F64
  Width : F64
deriving DecidableEq

/-- Modelled from the spec: the declaration of `internal.VehicleAttributes` is not
among the sources; the fields are those the store, the service and the handlers
use, with `Dimensions` embedded. -/
structure VehicleAttributes extends Dimensions where
  Brand : String
  Model : String
  Registration : String
  Color : String
  FabricationYear : Int
  Capacity : Int
  MaxSpeed : F64
  FuelType : String
  Transmission : String
  Weight : F64
deriving DecidableEq

/-- Modelled from the spec: the declaration of `internal.Vehicle` is not among the
sources; it is the integer identity `Id` with `VehicleAttributes` embedded. -/
structure Vehicle extends VehicleAttributes where
  Id : Int
deriving DecidableEq

/-- Go `map[int]internal.Vehicle`. -/
abbrev VMap := AList (fun _ : Int => Vehicle)

/-! ## Errors -/

/-- The package-level error values created with `errors.New` in
`vehicle_repository.go` and `vehicle_service.go`. Each is a distinct pointer, so
two of them are equal only when they are the same variable. -/
inductive Sentinel where
  | ErrVehicleAlreadyExistsRepo
  | ErrNoVehiclesByColorYearRepo
  | ErrNoVehiclesByBrandYearsRepo
  | ErrNoVehiclesByBrandRepo
  | ErrNoVehiclesByWeightRangeRepo
  | ErrNoVehiclesByDimensionsRepo
  | ErrVehicleNotFoundRepo
  | ErrVehicleAlreadyExistsService
  | ErrVehiclesNotFoundByCriteria
  | ErrVehicleNotFoundService
  | ErrNoVehiclesByBrandService
deriving DecidableEq

/-- A Go `error` value as built in this program. -/
inductive GoError where
  /-- One of the package-level `errors.New` values. -/
  | sentinel (s : Sentinel)
  /-- The value of `fmt.Errorf("%w key: %d", e, key)`. -/
  | errorfKey (e : GoError) (key : Int)
  /-- The value of `fmt.Errorf("%w: %w", a, b)`. -/
  | errorfWrap (a b : GoError)
deriving DecidableEq

/-- The call `errors.Is(err, target)` for a package-level `target`: `err` is the
target, or an error it wraps is. -/
def GoError.Is : GoError → Sentinel → Bool
  | .sentinel s, t => decide (s = t)
  | .errorfKey e _, t => e.Is t
  | .errorfWrap a b, t => a.Is t || b.Is t

/-! ## The map store (`repository.VehicleMap`) -/

/-- The struct `repository.VehicleMap`. -/
structure VehicleMap where
  db : VMap

/-- The function `NewVehicleMap`: a nil argument gives an empty store, any other
map is adopted as it is. -/
def NewVehicleMap (db : Option VMap) : VehicleMap :=
  match db with
  | some m => ⟨m⟩
  | none => ⟨∅⟩

namespace VehicleMap

/-- The method `VehicleMap.FindAll`: copies every entry of `r.db` into a fresh
map. -/
def FindAll (r : VehicleMap) : VehicleMap × Option VMap × Option GoError :=
  let v := r.db.entries.foldl (fun (acc : VMap) e => acc.insert e.1 e.2) ∅
  (r, some v, none)

/-- The method `VehicleMap.Create`. -/
def Create (r : VehicleMap) (v : Vehicle) : VehicleMap × Option GoError :=
  if (r.db.lookup v.Id).isSome then
    (r, some (.sentinel .ErrVehicleAlreadyExistsRepo))
  else
    (⟨r.db.insert v.Id v⟩, none)

/-- The method `VehicleMap.GetByColorAndYear`. -/
def GetByColorAndYear (r : VehicleMap) (color : String) (year : Int) :
    VehicleMap × Option VMap × Option GoError :=
  let v := r.db.entries.foldl
    (fun (acc : VMap) e =>
      if e.2.Color = color ∧ e.2.FabricationYear = year then acc.insert e.1 e.2 else acc) ∅
  if v.entries.length = 0 then
    (r, none, some (.sentinel .ErrNoVehiclesByColorYearRepo))
  else
    (r, some v, none)

/-- The method `VehicleMap.GetByBrandBetweenYears`. -/
def GetByBrandBetweenYears (r : VehicleMap) (brand : String) (yearStart yearEnd : Int) :
    VehicleMap × Option VMap × Option GoError :=
  let v := r.db.entries.foldl
    (fun (acc : VMap) e =>
      if e.2.Brand = brand ∧ e.2.FabricationYear ≥ yearStart ∧ e.2.FabricationYear ≤ yearEnd
      then acc.insert e.1 e.2 else acc) ∅
  if v.entries.length = 0 then
    (r, none, some (.sentinel .ErrNoVehiclesByBrandYearsRepo))
  else
    (r, some v, none)

/-- The method `VehicleMap.GetSpeedAvgByBrand`. -/
def GetSpeedAvgByBrand (r : VehicleMap) (brand : String) :
    VehicleMap × F64 × Option GoError :=
  let acc := r.db.entries.foldl
    (fun (acc : F64 × Int) e =>
      if e.2.Brand = brand then (acc.1.add e.2.MaxSpeed, acc.2 + 1) else acc) (F64.zero, 0)
  if acc.2 = 0 then
    (r, F64.zero, some (.sentinel .ErrNoVehiclesByBrandRepo))
  else
    (r, acc.1.div (F64.ofInt acc.2), none)

/-- The loop of `VehicleMap.CreateMultiple` over the entries of the batch that are
still to be visited. -/
def createMultipleLoop :
    List (Sigma fun _ : Int => Vehicle) → VehicleMap → VehicleMap × Option GoError
  | [], r => (r, none)
  | e :: rest, r =>
    if (r.db.lookup e.1).isSome then
      (r, some (.errorfKey (.sentinel .ErrVehicleAlreadyExistsRepo) e.1))
    else
      createMultipleLoop rest ⟨r.db.insert e.1 e.2⟩

/-- The method `VehicleMap.CreateMultiple`. -/
def CreateMultiple (r : VehicleMap) (v : VMap) : VehicleMap × Option GoError :=
  createMultipleLoop v.entries r

/-- The method `VehicleMap.ListByWeightRange`. -/
def ListByWeightRange (r : VehicleMap) (weightMin weightMax : F64) :
    VehicleMap × Option VMap × Option GoError :=
  let weightMax := if weightMax.eq F64.zero then F64.MaxFloat64 else weightMax
  let v := r.db.entries.foldl
    (fun (acc : VMap) e =>
      if e.2.Weight.ge weightMin && e.2.Weight.le weightMax then acc.insert e.1 e.2 else acc) ∅
  if v.entries.length = 0 then
    (r, none, some (.sentinel .ErrNoVehiclesByWeightRangeRepo))
  else
    (r, some v, none)

/-- The method `VehicleMap.ListByDimensions`. -/
def ListByDimensions (r : VehicleMap) (minLength maxLength minWidth maxWidth : F64) :
    VehicleMap × Option VMap × Option GoError :=
  let v := r.db.entries.foldl
    (fun (acc : VMap) e =>
      if e.2.Length.ge minLength && e.2.Length.le maxLength
          && e.2.Width.ge minWidth && e.2.Width.le maxWidth
      then acc.insert e.1 e.2 else acc) ∅
  if v.entries.length = 0 then
    (r, none, some (.sentinel .ErrNoVehiclesByDimensionsRepo))
  else
    (r, some v, none)

/-- The method `VehicleMap.Update`; the argument is the vehicle the pointer refers
to. -/
def Update (r : VehicleMap) (v : Vehicle) : VehicleMap × Option GoError :=
  if ¬ (r.db.lookup v.Id).isSome then
    (r, some (.sentinel .ErrVehicleNotFoundRepo))
  else
    (⟨r.db.insert v.Id v⟩, none)

/-- The method `VehicleMap.Delete`. -/
def Delete (r : VehicleMap) (id : Int) : VehicleMap × Option GoError :=
  if ¬ (r.db.lookup id).isSome then
    (r, some (.sentinel .ErrVehicleNotFoundRepo))
  else
    (⟨r.db.erase id⟩, none)

/-- The method `VehicleMap.GetAverageCapacityByBrand`. -/
def GetAverageCapacityByBrand (r : VehicleMap) (brand : String) :
    VehicleMap × F64 × Option GoError :=
  let acc := r.db.entries.foldl
    (fun (acc : F64 × Int) e =>
      if e.2.Brand = brand then (acc.1.add (F64.ofInt e.2.Capacity), acc.2 + 1) else acc)
    (F64.zero, 0)
  if acc.2 = 0 then
    (r, F64.zero, some (.sentinel .ErrNoVehiclesByBrandRepo))
  else
    (r, acc.1.div (F64.ofInt acc.2), none)

end VehicleMap

/-! ## Maps as references -/

/-- The maps on the Go heap: the map values allocated so far, each at its address,
which is its position in the list. A map variable holds an address. -/
structure MapHeap where
  maps : List VMap

namespace MapHeap

/-- The map stored at an address, `none` when nothing is allocated there. -/
def get (h : MapHeap) (a : Nat) : Option VMap :=
  h.maps[a]?

/-- The heap after the map at an address has been replaced. -/
def set (h : MapHeap) (a : Nat) (m : VMap) : MapHeap :=
  ⟨h.maps.set a m⟩

/-- The call `make(map[int]internal.Vehicle)`: a new empty map at a fresh address. -/
def make (h : MapHeap) : MapHeap × Nat :=
  (⟨h.maps ++ [∅]⟩, h.maps.length)

/-- The statement `v[key] = value` for the map variable holding the address `a`. A
write through a nil map panics in Go; the heap is then left as it is. -/
def write (h : MapHeap) (a : Nat) (key : Int) (value : Vehicle) : MapHeap :=
  match h.get a with
  | some m => h.set a (m.insert key value)
  | none => h

end MapHeap

/-- The struct `repository.VehicleMap` with its field `db` as the reference it is:
the address of the backing map. -/
structure VehicleMapRef where
  db : Nat

/-- The method `VehicleMap.FindAll` on references: `v` is made, every entry of the
map at `r.db` is written to the map at `v`, and the address `v` is returned. -/
def VehicleMapRef.FindAll (r : VehicleMapRef) (h : MapHeap) :
    MapHeap × Option Nat × Option GoError :=
  let made := h.make
  let v := made.2
  let entries := match made.1.get r.db with
    | some m => m.entries
    | none => []
  let h2 := entries.foldl (fun (heap : MapHeap) e => heap.write v e.1 e.2) made.1
  (h2, some v, none)

/-! ## The repository interface and the service (`service.VehicleDefault`) -/

/-- The interface `internal.VehicleRepository`, for an implementation whose state
has type `σ`: every method takes the state before the call and returns the state
after it next to the Go results. -/
structure VehicleRepository (σ : Type) where
  FindAll : σ → σ × Option VMap × Option GoError
  Create : σ → Vehicle → σ × Option GoError
  GetByColorAndYear : σ → String → Int → σ × Option VMap × Option GoError
  GetByBrandBetweenYears : σ → String → Int → Int → σ × Option VMap × Option GoError
  GetSpeedAvgByBrand : σ → String → σ × F64 × Option GoError
  CreateMultiple : σ → VMap → σ × Option GoError
  ListByWeightRange : σ → F64 → F64 → σ × Option VMap × Option GoError
  ListByDimensions : σ → F64 → F64 → F64 → F64 → σ × Option VMap × Option GoError
  Update : σ → Vehicle → σ × Option GoError
  Delete : σ → Int → σ × Option GoError
  GetAverageCapacityByBrand : σ → String → σ × F64 × Option GoError

/-- The map store as an implementation of `internal.VehicleRepository`. -/
def vehicleMapRepository : VehicleRepository VehicleMap where
  FindAll := VehicleMap.FindAll
  Create := VehicleMap.Create
  GetByColorAndYear := VehicleMap.GetByColorAndYear
  GetByBrandBetweenYears := VehicleMap.GetByBrandBetweenYears
  GetSpeedAvgByBrand := VehicleMap.GetSpeedAvgByBrand
  CreateMultiple := VehicleMap.CreateMultiple
  ListByWeightRange := VehicleMap.ListByWeightRange
  ListByDimensions := VehicleMap.ListByDimensions
  Update := VehicleMap.Update
  Delete := VehicleMap.Delete
  GetAverageCapacityByBrand := VehicleMap.GetAverageCapacityByBrand

/-- The struct `service.VehicleDefault`: the service and the repository it uses. -/
structure VehicleDefault (σ : Type) where
  rp : VehicleRepository σ

/-- The function `NewVehicleDefault`. -/
def NewVehicleDefault {σ : Type} (rp : VehicleRepository σ) : VehicleDefault σ := ⟨rp⟩

/-- Go `map[string]float64`, the argument of the service method `ListByDimensions`. -/
abbrev DimensionMap := AList (fun _ : String => F64)

namespace VehicleDefault

variable {σ : Type}

/-- The service method `FindAll`. -/
def FindAll (s : VehicleDefault σ) (st : σ) : σ × Option VMap × Option GoError :=
  s.rp.FindAll st

/-- The service method `Create`. -/
def Create (s : VehicleDefault σ) (st : σ) (v : Vehicle) : σ × Option GoError :=
  match s.rp.Create st v with
  | (st1, some err) =>
    if err.Is .ErrVehicleAlreadyExistsRepo then
      (st1, some (.errorfWrap (.sentinel .ErrVehicleAlreadyExistsService) err))
    else
      (st1, none)
  | (st1, none) => (st1, none)

/-- The service method `GetByColorAndYear`. -/
def GetByColorAndYear (s : VehicleDefault σ) (st : σ) (color : String) (year : Int) :
    σ × Option VMap × Option GoError :=
  match s.rp.GetByColorAndYear st color year with
  | (st1, v, some err) =>
    if err.Is .ErrNoVehiclesByColorYearRepo then
      (st1, none, some (.errorfWrap (.sentinel .ErrVehiclesNotFoundByCriteria) err))
    else
      (st1, v, none)
  | (st1, v, none) => (st1, v, none)

/-- The service method `GetByBrandBetweenYears`. -/
def GetByBrandBetweenYears (s : VehicleDefault σ) (st : σ) (brand : String)
    (yearStart yearEnd : Int) : σ × Option VMap × Option GoError :=
  match s.rp.GetByBrandBetweenYears st brand yearStart yearEnd with
  | (st1, v, some err) =>
    if err.Is .ErrNoVehiclesByBrandYearsRepo then
      (st1, none, some (.errorfWrap (.sentinel .ErrVehiclesNotFoundByCriteria) err))
    else
      (st1, v, none)
  | (st1, v, none) => (st1, v, none)

/-- The service method `GetSpeedAvgByBrand`. -/
def GetSpeedAvgByBrand (s : VehicleDefault σ) (st : σ) (brand : String) :
    σ × F64 × Option GoError :=
  match s.rp.GetSpeedAvgByBrand st brand with
  | (st1, speedAvg, some err) =>
    if err.Is .ErrNoVehiclesByBrandRepo then
      (st1, F64.zero, some (.errorfWrap (.sentinel .ErrVehiclesNotFoundByCriteria) err))
    else
      (st1, speedAvg, none)
  | (st1, speedAvg, none) => (st1, speedAvg, none)

/-- The service method `CreateMultiple`. -/
def CreateMultiple (s : VehicleDefault σ) (st : σ) (v : VMap) : σ × Option GoError :=
  match s.rp.CreateMultiple st v with
  | (st1, some err) =>
    if err.Is .ErrVehicleAlreadyExistsRepo then
      (st1, some (.errorfWrap (.sentinel .ErrVehicleAlreadyExistsService) err))
    else
      (st1, none)
  | (st1, none) => (st1, none)

/-- The service method `ListByWeightRange`. -/
def ListByWeightRange (s : VehicleDefault σ) (st : σ) (weightMin weightMax : F64) :
    σ × Option VMap × Option GoError :=
  match s.rp.ListByWeightRange st weightMin weightMax with
  | (st1, v, some err) =>
    if err.Is .ErrNoVehiclesByWeightRangeRepo then
      (st1, none, some (.errorfWrap (.sentinel .ErrVehiclesNotFoundByCriteria) err))
    else
      (st1, v, none)
  | (st1, v, none) => (st1, v, none)

/-- The service method `ListByDimensions`. -/
def ListByDimensions (s : VehicleDefault σ) (st : σ) (d : DimensionMap) :
    σ × Option VMap × Option GoError :=
  let minLength := match d.lookup "min_length" with
    | some x => x
    | none => F64.zero
  let maxLength := match d.lookup "max_length" with
    | some x => x
    | none => F64.MaxFloat64
  let minWidth := match d.lookup "min_width" with
    | some x => x
    | none => F64.zero
  let maxWidth := match d.lookup "max_width" with
    | some x => x
    | none => F64.MaxFloat64
  match s.rp.ListByDimensions st minLength maxLength minWidth maxWidth with
  | (st1, v, some err) =>
    if err.Is .ErrNoVehiclesByDimensionsRepo then
      (st1, none, some (.errorfWrap (.sentinel .ErrVehiclesNotFoundByCriteria) err))
    else
      (st1, v, none)
  | (st1, v, none) => (st1, v, none)

/-- The service method `Update`; the argument is the vehicle the pointer refers
to. -/
def Update (s : VehicleDefault σ) (st : σ) (v : Vehicle) : σ × Option GoError :=
  match s.rp.Update st v with
  | (st1, some err) =>
    if err.Is .ErrVehicleNotFoundRepo then
      (st1, some (.errorfWrap (.sentinel .ErrVehicleNotFoundService) err))
    else
      (st1, none)
  | (st1, none) => (st1, none)

/-- The service method `Delete`. -/
def Delete (s : VehicleDefault σ) (st : σ) (id : Int) : σ × Option GoError :=
  match s.rp.Delete st id with
  | (st1, some err) =>
    if err.Is .ErrVehicleNotFoundRepo then
      (st1, some (.errorfWrap (.sentinel .ErrVehicleNotFoundService) err))
    else
      (st1, none)
  | (st1, none) => (st1, none)

/-- The service method `GetAverageCapacityByBrand`. -/
def GetAverageCapacityByBrand (s : VehicleDefault σ) (st : σ) (brand : String) :
    σ × F64 × Option GoError :=
  match s.rp.GetAverageCapacityByBrand st brand with
  | (st1, capacityAvg, some err) =>
    if err.Is .ErrNoVehiclesByBrandRepo then
      (st1, F64.zero, some (.errorfWrap (.sentinel .ErrVehiclesNotFoundByCriteria) err))
    else
      (st1, capacityAvg, none)
  | (st1, capacityAvg, none) => (st1, capacityAvg, none)

end VehicleDefault

/-- The service running over the map store. -/
def mapService : VehicleDefault VehicleMap := NewVehicleDefault vehicleMapRepository

/-! ## The service interface and the batch handler (`handler.VehicleDefault`) -/

/-- The interface `internal.VehicleService`, for an implementation whose state has
type `σ`. -/
structure VehicleService (σ : Type) where
  FindAll : σ → σ × Option VMap × Option GoError
  Create : σ → Vehicle → σ × Option GoError
  GetByColorAndYear : σ → String → Int → σ × Option VMap × Option GoError
  GetByBrandBetweenYears : σ → String → Int → Int → σ × Option VMap × Option GoError
  GetSpeedAvgByBrand : σ → String → σ × F64 × Option GoError
  CreateMultiple : σ → VMap → σ × Option GoError
  ListByWeightRange : σ → F64 → F64 → σ × Option VMap × Option GoError
  ListByDimensions : σ → DimensionMap → σ × Option VMap × Option GoError
  Update : σ → Vehicle → σ × Option GoError
  Delete : σ → Int → σ × Option GoError
  GetAverageCapacityByBrand : σ → String → σ × F64 × Option GoError

/-- The service `service.VehicleDefault` as an implementation of
`internal.VehicleService`. -/
def VehicleDefault.toService {σ : Type} (s : VehicleDefault σ) : VehicleService σ where
  FindAll := s.FindAll
  Create := s.Create
  GetByColorAndYear := s.GetByColorAndYear
  GetByBrandBetweenYears := s.GetByBrandBetweenYears
  GetSpeedAvgByBrand := s.GetSpeedAvgByBrand
  CreateMultiple := s.CreateMultiple
  ListByWeightRange := s.ListByWeightRange
  ListByDimensions := s.ListByDimensions
  Update := s.Update
  Delete := s.Delete
  GetAverageCapacityByBrand := s.GetAverageCapacityByBrand

/-- The struct `handler.VehicleJSON`. -/
structure VehicleJSON where
  ID : Int
  Brand : String
  Model : String
  Registration : String
  Color : String
  FabricationYear : Int
  Capacity : Int
  MaxSpeed : F64
  FuelType : String
  Transmission : String
  Weight : F64
  Height : F64
  Length : F64
  Width : F64
deriving DecidableEq

/-- The struct `handler.VehicleJSONBatch`. -/
structure VehicleJSONBatch where
  Vehicles : List VehicleJSON

/-- The constant `http.StatusCreated`. -/
def StatusCreated : Nat := 201

/-- The constant `http.StatusBadRequest`. -/
def StatusBadRequest : Nat := 400

/-- The constant `http.StatusConflict`. -/
def StatusConflict : Nat := 409

namespace Handler

/-- The struct `handler.VehicleDefault`: the handlers and the service they use. -/
structure VehicleDefault (σ : Type) where
  sv : VehicleService σ

/-- The `internal.Vehicle` literal a handler builds from a decoded payload. -/
def vehicleOf (value : VehicleJSON) : Vehicle :=
  { Id := value.ID
    Brand := value.Brand
    Model := value.Model
    Registration := value.Registration
    Color := value.Color
    FabricationYear := value.FabricationYear
    Capacity := value.Capacity
    MaxSpeed := value.MaxSpeed
    FuelType := value.FuelType
    Transmission := value.Transmission
    Weight := value.Weight
    Height := value.Height
    Length := value.Length
    Width := value.Width }

/-- The loop of the handler `CreateMultiple` that files every vehicle of the payload
in the map `vehicles` under its identity. -/
def batchVehicles (body : VehicleJSONBatch) : VMap :=
  body.Vehicles.foldl
    (fun (vehicles : VMap) value => vehicles.insert (vehicleOf value).Id (vehicleOf value)) ∅

/-- The handler `CreateMultiple`. The argument `body` is the result of
`request.JSON`, `none` when decoding failed. The result is the state after the call
and the status of the response, `none` when the handler returns without writing
one. -/
def CreateMultiple {σ : Type} (h : VehicleDefault σ) (st : σ) (body : Option VehicleJSONBatch) :
    σ × Option Nat :=
  match body with
  | none => (st, some StatusBadRequest)
  | some body =>
    let vehicles := batchVehicles body
    match h.sv.CreateMultiple st vehicles with
    | (st1, some err) =>
      if err.Is .ErrVehicleAlreadyExistsService then (st1, some StatusConflict) else (st1, none)
    | (st1, none) => (st1, some StatusCreated)

end Handler

/-- The handlers over the service running over the map store. -/
def mapHandler : Handler.VehicleDefault VehicleMap := ⟨mapService.toService⟩

/-! ## The handlers `Create`, `Update` and `ListByDimensions` -/

/-- The constant `http.StatusOK`. -/
def StatusOK : Nat := 200

/-- The constant `http.StatusNotFound`. -/
def StatusNotFound : Nat := 404

/-- The type of the `data` map of a listing response, `map[int]VehicleJSON`. -/
abbrev JSONMap := AList (fun _ : Int => VehicleJSON)

/-- The response a listing handler writes: its status and, on success, its `data`
map. -/
structure Response where
  status : Nat
  data : Option JSONMap

/-- The call `strings.Split(s, "-")` on the characters of `s`. -/
def splitHyphenChars : List Char → List (List Char)
  | [] => [[]]
  | c :: cs =>
    if c = '-' then [] :: splitHyphenChars cs
    else
      match splitHyphenChars cs with
      | [] => [[c]]
      | part :: parts => (c :: part) :: parts

/-- The call `strings.Split(s, "-")`. -/
def splitHyphen (s : String) : List String :=
  (splitHyphenChars s.data).map String.mk

namespace Handler

/-- The constant `maxSpeed` of the handler package. -/
def maxSpeed : F64 := .fin 400

/-- The constant `minSpeed` of the handler package. -/
def minSpeed : F64 := .fin 0

/-- The `VehicleJSON` literal a handler builds from a vehicle for its response. -/
def jsonOf (value : Vehicle) : VehicleJSON :=
  { ID := value.Id
    Brand := value.Brand
    Model := value.Model
    Registration := value.Registration
    Color := value.Color
    FabricationYear := value.FabricationYear
    Capacity := value.Capacity
    MaxSpeed := value.MaxSpeed
    FuelType := value.FuelType
    Transmission := value.Transmission
    Weight := value.Weight
    Height := value.Height
    Length := value.Length
    Width := value.Width }

/-- The handler `Create`. The argument `body` is the result of `request.JSON`,
`none` when decoding failed. The result is the state after the call and the status
of the response, `none` when the handler returns without writing one. -/
def Create {σ : Type} (h : VehicleDefault σ) (st : σ) (body : Option VehicleJSON) :
    σ × Option Nat :=
  match body with
  | none => (st, some StatusBadRequest)
  | some body =>
    let vehicle := vehicleOf body
    match h.sv.Create st vehicle with
    | (st1, some err) =>
      if err.Is .ErrVehicleAlreadyExistsService then (st1, some StatusConflict) else (st1, none)
    | (st1, none) => (st1, some StatusCreated)

/-- The handler `Update`. The argument `idStr` is the URL parameter `id`, `id` is
the result of `strconv.Atoi(idStr)`, `none` when it failed, and `body` is the result
of `request.JSON`, `none` when decoding failed. The vehicle passed to the service
has the identity of the URL and the other fields of the payload. -/
def Update {σ : Type} (h : VehicleDefault σ) (st : σ) (idStr : String) (id : Option Int)
    (body : Option VehicleJSON) : σ × Option Nat :=
  if idStr = "" then (st, some StatusBadRequest)
  else
    match id with
    | none => (st, some StatusBadRequest)
    | some id =>
      match body with
      | none => (st, some StatusBadRequest)
      | some body =>
        if body.MaxSpeed.le minSpeed || body.MaxSpeed.gt maxSpeed then
          (st, some StatusBadRequest)
        else
          let vehicle := { vehicleOf body with Id := id }
          match h.sv.Update st vehicle with
          | (st1, some err) =>
            if err.Is .ErrVehicleNotFoundService then (st1, some StatusNotFound)
            else (st1, none)
          | (st1, none) => (st1, some StatusOK)

/-- The two statements `strings.Split(s, "-")[0]` and `strings.Split(s, "-")[1]`
that the handler `ListByDimensions` runs when the parameter `s` is not empty; when
it is empty both parts stay empty. The result is `none` when an index is out of
range, which makes the handler panic. -/
def lowHigh (s : String) : Option (String × String) :=
  if s ≠ "" then
    match (splitHyphen s)[0]?, (splitHyphen s)[1]? with
    | some low, some high => some (low, high)
    | _, _ => none
  else
    some ("", "")

/-- One parsing block of the handler `ListByDimensions`: an empty string leaves the
bound at 0, any other string is given to `strconv.ParseFloat`, here the argument
`parseFloat`, whose failure is `none`. -/
def parseBound (parseFloat : String → Option F64) (str : String) : Option F64 :=
  if str ≠ "" then parseFloat str else some F64.zero

/-- The map `dimensions` that the handler `ListByDimensions` fills from the four
bounds. -/
def dimensionsOf (minLength maxLength minWidth maxWidth : F64) : DimensionMap :=
  AList.insert "max_width" maxWidth
    (AList.insert "min_width" minWidth
      (AList.insert "max_length" maxLength
        (AList.insert "min_length" minLength ∅)))

/-- The part of the handler `ListByDimensions` before the call of the service, for
the query parameters `length` and `width`. The result is `none` when the handler
panics, `some none` when it answers Bad Request, and otherwise the map it passes to
the service. -/
def dimensionsOfRequest (parseFloat : String → Option F64) (lengthStr widthStr : String) :
    Option (Option DimensionMap) :=
  match lowHigh lengthStr with
  | none => none
  | some (minLengthStr, maxLengthStr) =>
    match lowHigh widthStr with
    | none => none
    | some (minWidthStr, maxWidthStr) =>
      match parseBound parseFloat minLengthStr with
      | none => some none
      | some minLength =>
        match parseBound parseFloat maxLengthStr with
        | none => some none
        | some maxLength =>
          match parseBound parseFloat minWidthStr with
          | none => some none
          | some minWidth =>
            match parseBound parseFloat maxWidthStr with
            | none => some none
            | some maxWidth => some (some (dimensionsOf minLength maxLength minWidth maxWidth))

/-- The loop of a listing handler that fills the `data` map of the response from the
vehicles the service returned; a nil map gives no entries. -/
def dataOf (vehicles : Option VMap) : JSONMap :=
  match vehicles with
  | none => ∅
  | some m => m.entries.foldl (fun (data : JSONMap) e => data.insert e.1 (jsonOf e.2)) ∅

/-- The handler `ListByDimensions`, for the query parameters `length` and `width`.
The result is `none` when the handler panics; otherwise it is the state after the
call and the response, `none` when the handler returns without writing one. -/
def ListByDimensions {σ : Type} (parseFloat : String → Option F64) (h : VehicleDefault σ)
    (st : σ) (lengthStr widthStr : String) : Option (σ × Option Response) :=
  match dimensionsOfRequest parseFloat lengthStr widthStr with
  | none => none
  | some none => some (st, some ⟨StatusBadRequest, none⟩)
  | some (some dimensions) =>
    match h.sv.ListByDimensions st dimensions with
    | (st1, _, some err) =>
      if err.Is .ErrVehiclesNotFoundByCriteria then some (st1, some ⟨StatusNotFound, none⟩)
      else some (st1, none)
    | (st1, vehicles, none) => some (st1, some ⟨StatusOK, some (dataOf vehicles)⟩)

end Handler

/-! ## Predicates used in the statements -/

/-- The Go condition `err != nil && errors.Is(err, target)` on a returned error. -/
def FailsWith (err : Option GoError) (target : Sentinel) : Prop :=
  ∃ e, err = some e ∧ e.Is target = true

/-- Every key of the map is the `Id` of the record stored under it. -/
def KeysAreIds (m : VMap) : Prop :=
  ∀ e ∈ m.entries, e.2.Id = e.1

/-- Every record of the map has a finite weight. -/
def WeightsFinite (m : VMap) : Prop :=
  ∀ e ∈ m.entries, e.2.Weight.isFinite = true

instance (m : VMap) : Decidable (KeysAreIds m) :=
  inferInstanceAs (Decidable (∀ e ∈ m.entries, e.2.Id = e.1))

instance (m : VMap) : Decidable (WeightsFinite m) :=
  inferInstanceAs (Decidable (∀ e ∈ m.entries, e.2.Weight.isFinite = true))

/-- The errors that `errors.Is` visits in the chain of an error: the error itself,
then the chains of the errors it wraps, depth first. -/
def GoError.chain : GoError → List GoError
  | .sentinel s => [.sentinel s]
  | .errorfKey e key => .errorfKey e key :: e.chain
  | .errorfWrap a b => .errorfWrap a b :: (a.chain ++ b.chain)

/-- The service error `svc` reports the repository error `repo` as `target`: when
the repository call succeeded so did the service call, and when it failed with `e0`
the service call failed with an error for which `errors.Is(_, target)` holds and
whose chain contains `e0`. -/
def ReportsAs (target : Sentinel) (repo svc : Option GoError) : Prop :=
  match repo with
  | none => svc = none
  | some e0 => ∃ e, svc = some e ∧ e.Is target = true ∧ e0 ∈ e.chain

/-- The bound the spec prescribes for a key of a sparse configuration: the value
stored under the key when the key is present, the default otherwise. -/
def boundOrDefault (d : DimensionMap) (key : String) (dflt : F64) : F64 :=
  (d.lookup key).getD dflt

/-- The records of a map whose brand is `brand`, in the order of traversal. -/
def brandRecords (m : VMap) (brand : String) : List Vehicle :=
  (m.entries.filter (fun e => decide (e.2.Brand = brand))).map (fun e => e.2)

/-- The running `float64` sum of a list of values, added to 0 from left to right,
each addition rounded. -/
def F64.sum (xs : List F64) : F64 :=
  xs.foldl F64.add F64.zero

/-- The mean as the averaging methods compute it: the running `float64` sum of the
values divided, in `float64`, by the conversion of their number. -/
def F64.mean (xs : List F64) : F64 :=
  (F64.sum xs).div (F64.ofInt xs.length)

/-- The rational number is a `float64` value: rounding leaves it as it is. -/
def F64.Exact (q : ℚ) : Prop :=
  F64.round q = F64.fin q

instance (q : ℚ) : Decidable (F64.Exact q) :=
  inferInstanceAs (Decidable (F64.round q = F64.fin q))

/-- No partial sum of the list rounds: the sum of every initial part of the list is
a `float64` value. -/
def F64.SumsExact (qs : List ℚ) : Prop :=
  ∀ j, j ≤ qs.length → F64.Exact (qs.take j).sum

instance (qs : List ℚ) : Decidable (F64.SumsExact qs) :=
  inferInstanceAs (Decidable (∀ j, j ≤ qs.length → F64.Exact (qs.take j).sum))

/-- A repository without state, every method of which fails with the given error. -/
def failingRepository (err : GoError) : VehicleRepository Unit where
  FindAll := fun st => (st, none, some err)
  Create := fun st _ => (st, some err)
  GetByColorAndYear := fun st _ _ => (st, none, some err)
  GetByBrandBetweenYears := fun st _ _ _ => (st, none, some err)
  GetSpeedAvgByBrand := fun st _ => (st, F64.zero, some err)
  CreateMultiple := fun st _ => (st, some err)
  ListByWeightRange := fun st _ _ => (st, none, some err)
  ListByDimensions := fun st _ _ _ _ => (st, none, some err)
  Update := fun st _ => (st, some err)
  Delete := fun st _ => (st, some err)
  GetAverageCapacityByBrand := fun st _ => (st, F64.zero, some err)

/-- A listing call that started in the store state `r` and returned `res` was
read-only: the state after the call is `r`, and every entry of a returned map is an
entry of `r`. -/
def ReadOnlyListing (r : VehicleMap) (res : VehicleMap × Option VMap × Option GoError) : Prop :=
  res.1 = r ∧
    ∀ m, res.2.1 = some m → ∀ k rec, m.lookup k = some rec → r.db.lookup k = some rec

/-! ## Example data -/

/-- A vehicle with the given identity, brand, colour, year, weight, length and
width; the remaining fields are fixed. -/
def exampleVehicle (id : Int) (brand color : String) (year : Int)
    (weight length width : ℚ) : Vehicle :=
  { Id := id, Brand := brand, Model := "Corolla", Registration := "AB123CD", Color := color,
    FabricationYear := year, Capacity := 5, MaxSpeed := .fin 180, FuelType := "gasoline",
    Transmission := "manual", Weight := .fin weight, Height := .fin 2, Length := .fin length,
    Width := .fin width }

/-- A store with two records: identity 1 of weight 10 and identity 2 of weight 20. -/
def exampleStore : VehicleMap :=
  ⟨AList.insert 2 (exampleVehicle 2 "Ford" "blue" 2010 20 4 2)
    (AList.insert 1 (exampleVehicle 1 "Toyota" "red" 2000 10 3 1) ∅)⟩

/-- The example store with a third record: a second Toyota, identity 3, of maximum
speed 200 and capacity 2. -/
def exampleFleet : VehicleMap :=
  ⟨AList.insert 3
    { exampleVehicle 3 "Toyota" "white" 2015 30 4 2 with MaxSpeed := .fin 200, Capacity := 2 }
    exampleStore.db⟩

/-- A decoded payload with the given identity and brand; the remaining fields are
fixed. -/
def exampleJSON (id : Int) (brand : String) : VehicleJSON :=
  { ID := id, Brand := brand, Model := "Corolla", Registration := "AB123CD", Color := "red",
    FabricationYear := 2000, Capacity := 5, MaxSpeed := .fin 180, FuelType := "gasoline",
    Transmission := "manual", Weight := .fin 10, Height := .fin 2, Length := .fin 3,
    Width := .fin 1 }

/-- A batch with the new identity 3 and the identity 1 of the example store,
traversed in this order. -/
def exampleBatch : VMap :=
  AList.insert 3 (exampleVehicle 3 "Fiat" "green" 2020 7 7 7)
    (AList.insert 1 (exampleVehicle 1 "Fiat" "green" 2020 7 7 7) ∅)

/-- A stand-in for `strconv.ParseFloat` in the examples: a non-empty string of
decimal digits parses to the number it writes, any other string is an error. -/
def exampleParseFloat (s : String) : Option F64 :=
  if s.data ≠ [] ∧ s.data.all Char.isDigit = true then
    some (.fin ((s.data.foldl (fun n c => 10 * n + (c.toNat - 48)) 0 : Nat) : ℚ))
  else
    none

/-- The example payload with the given maximum speed. -/
def exampleJSONWithSpeed (id : Int) (speed : ℚ) : VehicleJSON :=
  { exampleJSON id "Toyota" with MaxSpeed := .fin speed }

/-- A Toyota with the given identity, maximum speed and capacity. -/
def exampleSpeedVehicle (id : Int) (speed : ℚ) (capacity : Int) : Vehicle :=
  { exampleVehicle id "Toyota" "red" 2000 10 3 1 with
    MaxSpeed := .fin speed, Capacity := capacity }

/-- A store with three Toyotas, of maximum speed 1, `2 ^ (-53)` and `2 ^ (-53)` and of
capacity `2 ^ 53`, 1 and 1, traversed in this order. -/
def exampleOrderA : VehicleMap :=
  ⟨AList.insert 1 (exampleSpeedVehicle 1 1 9007199254740992)
    (AList.insert 2 (exampleSpeedVehicle 2 (1 / 9007199254740992) 1)
      (AList.insert 3 (exampleSpeedVehicle 3 (1 / 9007199254740992) 1) ∅))⟩

/-- The same store traversed in another order: the two records of maximum speed
`2 ^ (-53)` and capacity 1 first, the record of maximum speed 1 and capacity `2 ^ 53`
last. -/
def exampleOrderB : VehicleMap :=
  ⟨AList.insert 2 (exampleSpeedVehicle 2 (1 / 9007199254740992) 1)
    (AList.insert 3 (exampleSpeedVehicle 3 (1 / 9007199254740992) 1)
      (AList.insert 1 (exampleSpeedVehicle 1 1 9007199254740992) ∅))⟩

/-! ## Lemmas on maps and on the copying loops -/

/-- The decimal constant is `(2^53 - 1) * 2^971`. -/
theorem maxFloat64_eq : maxFloat64 = (2 ^ 53 - 1) * 2 ^ 971 := by
  unfold maxFloat64
  norm_num

/-- A key is in the map exactly when the lookup `_, ok := m[k]` reports `ok`. -/
theorem mem_keys_iff_isSome (m : VMap) (k : Int) :
    k ∈ m.keys ↔ (m.lookup k).isSome = true := by
  rw [AList.lookup_isSome, AList.mem_keys]

/-- A key is missing from the map exactly when its lookup finds nothing. -/
theorem not_mem_keys_iff_lookup (m : VMap) (k : Int) :
    k ∉ m.keys ↔ m.lookup k = none := by
  rw [AList.lookup_eq_none, AList.mem_keys]

/-- A map has no entries exactly when every lookup in it misses. -/
theorem length_eq_zero_iff_lookup (m : VMap) :
    m.entries.length = 0 ↔ ∀ k, m.lookup k = none := by
  constructor
  · intro h k
    have hnil : m.entries = [] := List.length_eq_zero.mp h
    simp [AList.lookup, hnil]
  · intro h
    cases hm : m.entries with
    | nil => rfl
    | cons e l =>
      exfalso
      have hhead := h e.1
      obtain ⟨a, b⟩ := e
      simp [AList.lookup, hm] at hhead

/-- The loop `for key, value := range l` that copies the entries satisfying `p`
into `acc`, read through a lookup: a key of `l` whose record satisfies `p` is
found with that record, every other key is found as in `acc`. -/
theorem lookup_foldl_insert_if (p : Vehicle → Prop) [DecidablePred p]
    (l : List (Sigma fun _ : Int => Vehicle)) (hl : l.NodupKeys) (acc : VMap) (k : Int) :
    (l.foldl (fun (acc : VMap) e => if p e.2 then acc.insert e.1 e.2 else acc) acc).lookup k =
      match l.dlookup k with
      | some v => if p v then some v else acc.lookup k
      | none => acc.lookup k := by
  induction l generalizing acc with
  | nil => simp
  | cons e l ih =>
    obtain ⟨hnot, hl2⟩ := List.nodupKeys_cons.mp hl
    rw [List.foldl_cons, ih hl2]
    by_cases hk : k = e.1
    · subst hk
      have hnone : l.dlookup e.1 = none := List.dlookup_eq_none.mpr hnot
      rw [hnone]
      obtain ⟨a, b⟩ := e
      simp only [List.dlookup_cons_eq]
      by_cases hp : p b
      · simp [hp, AList.lookup_insert]
      · simp [hp]
    · obtain ⟨a, b⟩ := e
      rw [List.dlookup_cons_ne _ _ hk]
      have hacc : (if p b then AList.insert a b acc else acc).lookup k = acc.lookup k := by
        by_cases hp : p b
        · simp [hp, AList.lookup_insert_ne hk]
        · simp [hp]
      simp only [hacc]

/-- The copying loop started from an empty map returns exactly the entries of `m`
whose record satisfies `p`. -/
theorem lookup_copy_if (p : Vehicle → Prop) [DecidablePred p] (m : VMap) (k : Int)
    (rec : Vehicle) :
    (m.entries.foldl (fun (acc : VMap) e => if p e.2 then acc.insert e.1 e.2 else acc) ∅).lookup k
        = some rec ↔ m.lookup k = some rec ∧ p rec := by
  rw [lookup_foldl_insert_if p m.entries m.nodupKeys ∅ k]
  show (match m.lookup k with
      | some v => if p v then some v else (∅ : VMap).lookup k
      | none => (∅ : VMap).lookup k) = some rec ↔ _
  cases h : m.lookup k with
  | none => simp
  | some v =>
    by_cases hp : p v
    · simp only [hp, if_true, Option.some.injEq]
      constructor
      · intro h1; subst h1; exact ⟨rfl, hp⟩
      · intro h1; exact h1.1
    · simp only [hp, if_false, AList.lookup_empty]
      constructor
      · intro h1; exact absurd h1 (by simp)
      · intro h1
        obtain ⟨h2, h3⟩ := h1
        simp only [Option.some.injEq] at h2
        subst h2
        exact absurd h3 hp

/-- The copying loop started from an empty map returns an empty map exactly when
no record of `m` satisfies `p`. -/
theorem copy_if_length_eq_zero_iff (p : Vehicle → Prop) [DecidablePred p] (m : VMap) :
    (m.entries.foldl (fun (acc : VMap) e => if p e.2 then acc.insert e.1 e.2 else acc)
        ∅).entries.length = 0 ↔ ∀ k rec, m.lookup k = some rec → ¬ p rec := by
  rw [length_eq_zero_iff_lookup]
  constructor
  · intro h k rec hk hp
    have hfound := (lookup_copy_if p m k rec).mpr ⟨hk, hp⟩
    rw [h k] at hfound
    exact absurd hfound (by simp)
  · intro h k
    cases hres : (m.entries.foldl
        (fun (acc : VMap) e => if p e.2 then acc.insert e.1 e.2 else acc) ∅).lookup k with
    | none => rfl
    | some rec =>
      obtain ⟨hk, hp⟩ := (lookup_copy_if p m k rec).mp hres
      exact absurd hp (h k rec hk)

/-- The loop of `FindAll` returns a map with the same lookups as `m`. -/
theorem lookup_copy_all (m : VMap) (k : Int) :
    (m.entries.foldl (fun (acc : VMap) e => acc.insert e.1 e.2) ∅).lookup k = m.lookup k := by
  have hfun : (fun (acc : VMap) (e : Sigma fun _ : Int => Vehicle) => acc.insert e.1 e.2)
      = (fun (acc : VMap) e =>
          if (fun _ : Vehicle => True) e.2 then acc.insert e.1 e.2 else acc) := by
    funext acc e
    simp
  rw [hfun]
  cases h : m.lookup k with
  | none =>
    cases hres : (m.entries.foldl (fun (acc : VMap) e =>
        if (fun _ : Vehicle => True) e.2 then acc.insert e.1 e.2 else acc) ∅).lookup k with
    | none => rfl
    | some rec =>
      have hm := ((lookup_copy_if (fun _ => True) m k rec).mp hres).1
      rw [h] at hm
      exact absurd hm (by simp)
  | some rec => exact (lookup_copy_if (fun _ => True) m k rec).mpr ⟨h, trivial⟩

/-- The two outcomes of the store's Create. -/
theorem create_eq (r : VehicleMap) (v : Vehicle) :
    (v.Id ∈ r.db.keys → r.Create v = (r, some (.sentinel .ErrVehicleAlreadyExistsRepo))) ∧
    (v.Id ∉ r.db.keys → r.Create v = (⟨r.db.insert v.Id v⟩, none)) := by
  constructor
  · intro h
    have h2 := (mem_keys_iff_isSome r.db v.Id).mp h
    simp [VehicleMap.Create, h2]
  · intro h
    have h2 := (not_mem_keys_iff_lookup r.db v.Id).mp h
    simp [VehicleMap.Create, h2]

/-- The two outcomes of the service's Create over the map store. -/
theorem service_create_eq (r : VehicleMap) (v : Vehicle) :
    (v.Id ∈ r.db.keys → mapService.Create r v =
      (r, some (.errorfWrap (.sentinel .ErrVehicleAlreadyExistsService)
        (.sentinel .ErrVehicleAlreadyExistsRepo)))) ∧
    (v.Id ∉ r.db.keys → mapService.Create r v = (⟨r.db.insert v.Id v⟩, none)) := by
  constructor
  · intro h
    simp [mapService, NewVehicleDefault, VehicleDefault.Create, vehicleMapRepository,
      (create_eq r v).1 h, GoError.Is]
  · intro h
    simp [mapService, NewVehicleDefault, VehicleDefault.Create, vehicleMapRepository,
      (create_eq r v).2 h]

/-- C1: the store's Create fails with the already-exists error exactly when the
identity is already a key, and a failing call leaves the store as it was. -/
theorem create_fails_iff_id_present (r : VehicleMap) (v : Vehicle) :
    ((r.Create v).2 = some (.sentinel .ErrVehicleAlreadyExistsRepo) ↔ v.Id ∈ r.db.keys) ∧
    ((r.Create v).2 = none ↔ v.Id ∉ r.db.keys) ∧
    ((r.Create v).2 ≠ none → (r.Create v).1 = r) ∧
    (∀ r2 : Vehicle, r2.Id = v.Id → (r.Create v).2 = none →
      ((r.Create v).1.Create r2).2 = some (.sentinel .ErrVehicleAlreadyExistsRepo) ∧
      ((r.Create v).1.Create r2).1.db.lookup v.Id = some v) ∧
    (FailsWith (mapService.Create r v).2 .ErrVehicleAlreadyExistsService ↔ v.Id ∈ r.db.keys) ∧
    ((mapService.Create r v).2 = none ↔ v.Id ∉ r.db.keys) ∧
    (mapService.Create r v).1 = (r.Create v).1 := by
  by_cases h : v.Id ∈ r.db.keys
  · have hc := (create_eq r v).1 h
    have hs := (service_create_eq r v).1 h
    refine ⟨?_, ?_, ?_, ?_, ?_, ?_, ?_⟩
    · simp [hc, h]
    · simp [hc, h]
    · intro _; simp [hc]
    · intro r2 _ hnone; simp [hc] at hnone
    · simp only [hs, h, iff_true]
      exact ⟨_, rfl, by simp [GoError.Is]⟩
    · simp [hs, h]
    · simp [hs, hc]
  · have hc := (create_eq r v).2 h
    have hs := (service_create_eq r v).2 h
    refine ⟨?_, ?_, ?_, ?_, ?_, ?_, ?_⟩
    · simp [hc, h]
    · simp [hc, h]
    · intro hne; simp [hc] at hne
    · intro r2 hid _
      have hmem : r2.Id ∈ (AList.insert v.Id v r.db).keys := by
        rw [hid, ← AList.mem_keys, AList.mem_insert]; exact Or.inl rfl
      have hc2 := (create_eq ⟨AList.insert v.Id v r.db⟩ r2).1 hmem
      rw [hc]
      simp only [hc2]
      exact ⟨trivial, AList.lookup_insert r.db⟩
    · simp only [hs, h, iff_false]
      rintro ⟨e, he, _⟩
      simp at he
    · simp [hs, h]
    · simp [hs, hc]

/-- On the example store, creating a vehicle with the stored identity 1 fails and
leaves the store as it was; creating one with the new identity 3 succeeds. -/
theorem create_fails_iff_id_present_witness :
    (exampleStore.Create (exampleVehicle 1 "Fiat" "green" 2020 7 7 7)).2
        = some (.sentinel .ErrVehicleAlreadyExistsRepo) ∧
    (exampleStore.Create (exampleVehicle 1 "Fiat" "green" 2020 7 7 7)).1 = exampleStore ∧
    (exampleStore.Create (exampleVehicle 3 "Fiat" "green" 2020 7 7 7)).2 = none :=
  ⟨(create_fails_iff_id_present exampleStore (exampleVehicle 1 "Fiat" "green" 2020 7 7 7)).1.mpr
      (by decide),
    (create_fails_iff_id_present exampleStore (exampleVehicle 1 "Fiat" "green" 2020 7 7 7)).2.2.1
      (by decide),
    (create_fails_iff_id_present exampleStore (exampleVehicle 3 "Fiat" "green" 2020 7 7 7)).2.1.mpr
      (by decide)⟩

/-- An entry belongs to a map exactly when looking up its key finds its record. -/
theorem mem_entries_iff_lookup (m : VMap) (k : Int) (rec : Vehicle) :
    (⟨k, rec⟩ : Sigma fun _ : Int => Vehicle) ∈ m.entries ↔ m.lookup k = some rec := by
  rw [← Option.mem_def, AList.mem_lookup_iff]

/-- A duplicate-free list that contains `x` and nothing but `x` has length one. -/
theorem length_eq_one_of_nodup_of_all_eq {α : Type} (l : List α) (x : α) (hnd : l.Nodup)
    (hx : x ∈ l) (hall : ∀ y ∈ l, y = x) : l.length = 1 := by
  cases l with
  | nil => simp at hx
  | cons a t =>
    cases t with
    | nil => rfl
    | cons b u =>
      exfalso
      have ha : a = x := hall a (by simp)
      have hb : b = x := hall b (by simp)
      rw [List.nodup_cons] at hnd
      exact hnd.1 (by rw [ha, hb]; simp)

/-- C2: round trip. On a store whose keys are the identities of its records, after
creating a vehicle with a new identity FindAll returns the old map plus the single
entry for the new vehicle, which is the only record with that identity. -/
theorem create_then_find_all_round_trip (r : VehicleMap) (v : Vehicle)
    (hinv : KeysAreIds r.db) (hnew : v.Id ∉ r.db.keys) :
    (r.Create v).2 = none ∧
    ∃ m : VMap, (r.Create v).1.FindAll.2 = (some m, none) ∧
      m.lookup v.Id = some v ∧
      (m.entries.filter (fun e => decide (e.2.Id = v.Id))).length = 1 ∧
      (∀ k rec, r.db.lookup k = some rec → m.lookup k = some rec) ∧
      (∀ k, m.lookup k = if k = v.Id then some v else r.db.lookup k) := by
  have hc := (create_eq r v).2 hnew
  refine ⟨by rw [hc], ?_⟩
  rw [hc]
  refine ⟨_, rfl, ?_⟩
  have hlook : ∀ k, ((AList.insert v.Id v r.db).entries.foldl
      (fun (acc : VMap) e => acc.insert e.1 e.2) ∅).lookup k
        = if k = v.Id then some v else r.db.lookup k := by
    intro k
    show ((AList.insert v.Id v r.db).entries.foldl
      (fun (acc : VMap) e => acc.insert e.1 e.2) ∅).lookup k = _
    rw [lookup_copy_all]
    by_cases hk : k = v.Id
    · subst hk; simp [AList.lookup_insert]
    · simp [hk, AList.lookup_insert_ne hk]
  have hnone : r.db.lookup v.Id = none := (not_mem_keys_iff_lookup r.db v.Id).mp hnew
  refine ⟨by simpa using hlook v.Id, ?_, ?_, hlook⟩
  · apply length_eq_one_of_nodup_of_all_eq _ (⟨v.Id, v⟩ : Sigma fun _ : Int => Vehicle)
    · exact List.Nodup.filter _ (AList.nodupKeys _).nodup
    · rw [List.mem_filter]
      refine ⟨(mem_entries_iff_lookup _ _ _).mpr (by simpa using hlook v.Id), by simp⟩
    · rintro ⟨k, rec⟩ hmem
      rw [List.mem_filter] at hmem
      obtain ⟨hin, hid⟩ := hmem
      have hid2 : rec.Id = v.Id := by simpa using hid
      have hl := (mem_entries_iff_lookup _ _ _).mp hin
      rw [hlook k] at hl
      by_cases hk : k = v.Id
      · subst hk
        simp at hl
        rw [hl]
      · exfalso
        simp only [hk, if_false] at hl
        have hold : rec.Id = k := hinv ⟨k, rec⟩ ((mem_entries_iff_lookup _ _ _).mpr hl)
        exact hk (by rw [← hold]; exact hid2)
  · intro k rec hk
    rw [hlook k]
    by_cases hkv : k = v.Id
    · subst hkv; rw [hnone] at hk; exact absurd hk (by simp)
    · simp [hkv, hk]

/-- The spec's example: creating identity 7, a Toyota, in the example store and
listing all records. -/
theorem create_then_find_all_round_trip_witness :
    (exampleStore.Create (exampleVehicle 7 "Toyota" "white" 2015 1200 4 2)).2 = none ∧
    ∃ m : VMap, (exampleStore.Create
        (exampleVehicle 7 "Toyota" "white" 2015 1200 4 2)).1.FindAll.2 = (some m, none) ∧
      m.lookup 7 = some (exampleVehicle 7 "Toyota" "white" 2015 1200 4 2) ∧
      (m.entries.filter (fun e => decide (e.2.Id = 7))).length = 1 ∧
      (∀ k rec, exampleStore.db.lookup k = some rec → m.lookup k = some rec) ∧
      (∀ k, m.lookup k = if k = 7 then some (exampleVehicle 7 "Toyota" "white" 2015 1200 4 2)
        else exampleStore.db.lookup k) :=
  create_then_find_all_round_trip exampleStore (exampleVehicle 7 "Toyota" "white" 2015 1200 4 2)
    (by decide) (by decide)

/-- The two outcomes of the store's Update. -/
theorem update_eq (r : VehicleMap) (v : Vehicle) :
    (v.Id ∉ r.db.keys → r.Update v = (r, some (.sentinel .ErrVehicleNotFoundRepo))) ∧
    (v.Id ∈ r.db.keys → r.Update v = (⟨r.db.insert v.Id v⟩, none)) := by
  constructor
  · intro h
    have h2 := (not_mem_keys_iff_lookup r.db v.Id).mp h
    simp [VehicleMap.Update, h2]
  · intro h
    have h2 := (mem_keys_iff_isSome r.db v.Id).mp h
    simp [VehicleMap.Update, h2]

/-- The two outcomes of the store's Delete. -/
theorem delete_eq (r : VehicleMap) (id : Int) :
    (id ∉ r.db.keys → r.Delete id = (r, some (.sentinel .ErrVehicleNotFoundRepo))) ∧
    (id ∈ r.db.keys → r.Delete id = (⟨r.db.erase id⟩, none)) := by
  constructor
  · intro h
    have h2 := (not_mem_keys_iff_lookup r.db id).mp h
    simp [VehicleMap.Delete, h2]
  · intro h
    have h2 := (mem_keys_iff_isSome r.db id).mp h
    simp [VehicleMap.Delete, h2]

/-- The two outcomes of the service's Update over the map store. -/
theorem service_update_eq (r : VehicleMap) (v : Vehicle) :
    (v.Id ∉ r.db.keys → mapService.Update r v =
      (r, some (.errorfWrap (.sentinel .ErrVehicleNotFoundService)
        (.sentinel .ErrVehicleNotFoundRepo)))) ∧
    (v.Id ∈ r.db.keys → mapService.Update r v = (⟨r.db.insert v.Id v⟩, none)) := by
  constructor
  · intro h
    simp [mapService, NewVehicleDefault, VehicleDefault.Update, vehicleMapRepository,
      (update_eq r v).1 h, GoError.Is]
  · intro h
    simp [mapService, NewVehicleDefault, VehicleDefault.Update, vehicleMapRepository,
      (update_eq r v).2 h]

/-- The two outcomes of the service's Delete over the map store. -/
theorem service_delete_eq (r : VehicleMap) (id : Int) :
    (id ∉ r.db.keys → mapService.Delete r id =
      (r, some (.errorfWrap (.sentinel .ErrVehicleNotFoundService)
        (.sentinel .ErrVehicleNotFoundRepo)))) ∧
    (id ∈ r.db.keys → mapService.Delete r id = (⟨r.db.erase id⟩, none)) := by
  constructor
  · intro h
    simp [mapService, NewVehicleDefault, VehicleDefault.Delete, vehicleMapRepository,
      (delete_eq r id).1 h, GoError.Is]
  · intro h
    simp [mapService, NewVehicleDefault, VehicleDefault.Delete, vehicleMapRepository,
      (delete_eq r id).2 h]

/-- C3: the store's Update fails with the not-found error exactly when the identity
is not a key, leaving the store unchanged; otherwise it succeeds, the record under
the identity becomes the given vehicle, the keys stay the same and every record
under another key is unchanged. -/
theorem update_replaces_record (r : VehicleMap) (v : Vehicle) :
    ((r.Update v).2 = some (.sentinel .ErrVehicleNotFoundRepo) ↔ v.Id ∉ r.db.keys) ∧
    ((r.Update v).2 = none ↔ v.Id ∈ r.db.keys) ∧
    (v.Id ∉ r.db.keys → (r.Update v).1 = r) ∧
    (v.Id ∈ r.db.keys →
      (r.Update v).1.db.lookup v.Id = some v ∧
      (∀ k, k ∈ (r.Update v).1.db.keys ↔ k ∈ r.db.keys) ∧
      (∀ k, k ≠ v.Id → (r.Update v).1.db.lookup k = r.db.lookup k)) := by
  by_cases h : v.Id ∈ r.db.keys
  · have hu := (update_eq r v).2 h
    refine ⟨by simp [hu, h], by simp [hu, h], fun hn => absurd h hn, fun _ => ?_⟩
    rw [hu]
    refine ⟨AList.lookup_insert r.db, ?_, ?_⟩
    · intro k
      show k ∈ (AList.insert v.Id v r.db).keys ↔ k ∈ r.db.keys
      rw [← AList.mem_keys, ← AList.mem_keys, AList.mem_insert]
      constructor
      · rintro (hk | hk)
        · rw [hk]; exact AList.mem_keys.mpr h
        · exact hk
      · intro hk; exact Or.inr hk
    · intro k hk
      exact AList.lookup_insert_ne hk
  · have hu := (update_eq r v).1 h
    refine ⟨by simp [hu, h], by simp [hu, h], fun _ => by rw [hu], fun hn => absurd hn h⟩

/-- The spec's example: create identity 1 with weight 1000, update it with weight
1200 and brand X; the stored record is the new one, field by field. -/
theorem update_replaces_record_witness :
    ((((⟨∅⟩ : VehicleMap).Create (exampleVehicle 1 "Toyota" "red" 2000 1000 3 1)).1.Update
        (exampleVehicle 1 "X" "red" 2000 1200 3 1)).1.db.lookup 1
      = some (exampleVehicle 1 "X" "red" 2000 1200 3 1)) ∧
    (exampleStore.Update (exampleVehicle 9 "X" "red" 2000 1200 3 1)).2
      = some (.sentinel .ErrVehicleNotFoundRepo) :=
  ⟨((update_replaces_record
      ((⟨∅⟩ : VehicleMap).Create (exampleVehicle 1 "Toyota" "red" 2000 1000 3 1)).1
      (exampleVehicle 1 "X" "red" 2000 1200 3 1)).2.2.2 (by decide)).1,
    (update_replaces_record exampleStore (exampleVehicle 9 "X" "red" 2000 1200 3 1)).1.mpr
      (by decide)⟩

/-- C4: the store's Delete fails with the not-found error exactly when the identity
is not a key, leaving the store unchanged; otherwise it succeeds, the identity is no
longer a key and every other key maps to the same record as before. -/
theorem delete_removes_record (r : VehicleMap) (id : Int) :
    ((r.Delete id).2 = some (.sentinel .ErrVehicleNotFoundRepo) ↔ id ∉ r.db.keys) ∧
    ((r.Delete id).2 = none ↔ id ∈ r.db.keys) ∧
    (id ∉ r.db.keys → (r.Delete id).1 = r) ∧
    (id ∈ r.db.keys →
      id ∉ (r.Delete id).1.db.keys ∧
      (∀ k, k ≠ id → (r.Delete id).1.db.lookup k = r.db.lookup k)) := by
  by_cases h : id ∈ r.db.keys
  · have hd := (delete_eq r id).2 h
    refine ⟨by simp [hd, h], by simp [hd, h], fun hn => absurd h hn, fun _ => ?_⟩
    rw [hd]
    refine ⟨?_, ?_⟩
    · show id ∉ (AList.erase id r.db).keys
      rw [not_mem_keys_iff_lookup]
      exact AList.lookup_erase id r.db
    · intro k hk
      exact AList.lookup_erase_ne hk
  · have hd := (delete_eq r id).1 h
    refine ⟨by simp [hd, h], by simp [hd, h], fun _ => by rw [hd], fun hn => absurd hn h⟩

/-- Deleting identity 1 from the example store removes it and keeps identity 2;
deleting the unknown identity 9 fails. -/
theorem delete_removes_record_witness :
    (1 ∉ (exampleStore.Delete 1).1.db.keys ∧
      ∀ k, k ≠ 1 → (exampleStore.Delete 1).1.db.lookup k = exampleStore.db.lookup k) ∧
    (exampleStore.Delete 9).2 = some (.sentinel .ErrVehicleNotFoundRepo) :=
  ⟨(delete_removes_record exampleStore 1).2.2.2 (by decide),
    (delete_removes_record exampleStore 9).1.mpr (by decide)⟩

/-- C5: through the service over the map store, after a successful Delete of an
identity, an Update of any vehicle with that identity and a second Delete of it both
fail with the service-level not-found error and leave the store unchanged. -/
theorem delete_then_not_found (r : VehicleMap) (id : Int)
    (hdel : (mapService.Delete r id).2 = none) (v : Vehicle) (hv : v.Id = id) :
    FailsWith (mapService.Update (mapService.Delete r id).1 v).2 .ErrVehicleNotFoundService ∧
    (mapService.Update (mapService.Delete r id).1 v).1 = (mapService.Delete r id).1 ∧
    FailsWith (mapService.Delete (mapService.Delete r id).1 id).2 .ErrVehicleNotFoundService ∧
    (mapService.Delete (mapService.Delete r id).1 id).1 = (mapService.Delete r id).1 := by
  have hmem : id ∈ r.db.keys := by
    by_contra hn
    rw [(service_delete_eq r id).1 hn] at hdel
    simp at hdel
  rw [(service_delete_eq r id).2 hmem]
  have hgone : id ∉ (AList.erase id r.db).keys := by
    rw [not_mem_keys_iff_lookup]
    exact AList.lookup_erase id r.db
  have hu := (service_update_eq ⟨AList.erase id r.db⟩ v).1 (by rw [hv]; exact hgone)
  have hd := (service_delete_eq ⟨AList.erase id r.db⟩ id).1 hgone
  simp only [hu, hd]
  exact ⟨⟨_, rfl, by simp [GoError.Is]⟩, trivial,
    ⟨_, rfl, by simp [GoError.Is]⟩, trivial⟩

/-- After deleting identity 1 from the example store, updating and deleting identity
1 both fail with the service-level not-found error. -/
theorem delete_then_not_found_witness :
    (mapService.Delete exampleStore 1).2 = none ∧
    FailsWith (mapService.Update (mapService.Delete exampleStore 1).1
      (exampleVehicle 1 "X" "red" 2000 1200 3 1)).2 .ErrVehicleNotFoundService ∧
    FailsWith (mapService.Delete (mapService.Delete exampleStore 1).1 1).2
      .ErrVehicleNotFoundService :=
  ⟨by decide,
    (delete_then_not_found exampleStore 1 (by decide)
      (exampleVehicle 1 "X" "red" 2000 1200 3 1) (by decide)).1,
    (delete_then_not_found exampleStore 1 (by decide)
      (exampleVehicle 1 "X" "red" 2000 1200 3 1) (by decide)).2.2.1⟩

/-- The common shape of the filtering queries of the store: copy the entries whose
record satisfies `p`, then fail with `E` if the copy is empty. Either no record
satisfies `p` and the query fails, or some record does and the query returns exactly
the matching entries. -/
theorem filter_query_cases (p : Vehicle → Prop) [DecidablePred p] (r : VehicleMap)
    (E : Sentinel) (res : VehicleMap × Option VMap × Option GoError)
    (hres : res =
      if (r.db.entries.foldl (fun (acc : VMap) e => if p e.2 then acc.insert e.1 e.2 else acc)
          ∅).entries.length = 0
      then (r, none, some (.sentinel E))
      else (r, some (r.db.entries.foldl
        (fun (acc : VMap) e => if p e.2 then acc.insert e.1 e.2 else acc) ∅), none)) :
    (res = (r, none, some (.sentinel E)) ∧ ¬ ∃ k rec, r.db.lookup k = some rec ∧ p rec) ∨
    (∃ m : VMap, res = (r, some m, none) ∧ m.entries ≠ [] ∧
      (∃ k rec, r.db.lookup k = some rec ∧ p rec) ∧
      ∀ k rec, m.lookup k = some rec ↔ r.db.lookup k = some rec ∧ p rec) := by
  by_cases hlen : (r.db.entries.foldl
      (fun (acc : VMap) e => if p e.2 then acc.insert e.1 e.2 else acc) ∅).entries.length = 0
  · left
    rw [if_pos hlen] at hres
    refine ⟨hres, ?_⟩
    rintro ⟨k, rec, hk, hp⟩
    exact (copy_if_length_eq_zero_iff p r.db).mp hlen k rec hk hp
  · right
    rw [if_neg hlen] at hres
    refine ⟨_, hres, ?_, ?_, fun k rec => lookup_copy_if p r.db k rec⟩
    · intro hnil
      exact hlen (by rw [hnil]; rfl)
    · by_contra hno
      apply hlen
      rw [copy_if_length_eq_zero_iff]
      intro k rec hk hp
      exact hno ⟨k, rec, hk, hp⟩

/-- C6: GetByColorAndYear returns exactly the entries of the store whose colour and
fabrication year both equal the arguments, fails exactly when there is none, and
never succeeds with an empty map; the service reports the same failure as its
not-found-by-criteria error and passes the same map on. -/
theorem get_by_color_and_year_exact (r : VehicleMap) (color : String) (year : Int) :
    ((r.GetByColorAndYear color year).2.2 = some (.sentinel .ErrNoVehiclesByColorYearRepo) ↔
      ¬ ∃ k rec, r.db.lookup k = some rec ∧
        rec.Color = color ∧ rec.FabricationYear = year) ∧
    ((r.GetByColorAndYear color year).2.2 = none ↔
      ∃ k rec, r.db.lookup k = some rec ∧ rec.Color = color ∧ rec.FabricationYear = year) ∧
    ((r.GetByColorAndYear color year).2.2 = none →
      ∃ m : VMap, (r.GetByColorAndYear color year).2.1 = some m ∧ m.entries ≠ [] ∧
        ∀ k rec, m.lookup k = some rec ↔
          r.db.lookup k = some rec ∧ rec.Color = color ∧ rec.FabricationYear = year) ∧
    (FailsWith (mapService.GetByColorAndYear r color year).2.2 .ErrVehiclesNotFoundByCriteria ↔
      ¬ ∃ k rec, r.db.lookup k = some rec ∧
        rec.Color = color ∧ rec.FabricationYear = year) ∧
    ((mapService.GetByColorAndYear r color year).2.2 = none ↔
      ∃ k rec, r.db.lookup k = some rec ∧ rec.Color = color ∧ rec.FabricationYear = year) ∧
    ((mapService.GetByColorAndYear r color year).2.2 = none →
      (mapService.GetByColorAndYear r color year).2.1 = (r.GetByColorAndYear color year).2.1) := by
  rcases filter_query_cases (fun x => x.Color = color ∧ x.FabricationYear = year) r
      .ErrNoVehiclesByColorYearRepo (r.GetByColorAndYear color year) rfl with
    ⟨hres, hno⟩ | ⟨m, hres, hne, hex, hexact⟩
  · have hsvc : mapService.GetByColorAndYear r color year =
        (r, none, some (.errorfWrap (.sentinel .ErrVehiclesNotFoundByCriteria)
          (.sentinel .ErrNoVehiclesByColorYearRepo))) := by
      simp [mapService, NewVehicleDefault, VehicleDefault.GetByColorAndYear,
        vehicleMapRepository, hres, GoError.Is]
    refine ⟨by simp [hres, hno], by simp [hres, hno], by simp [hres], ?_, by simp [hsvc, hno],
      by simp [hsvc]⟩
    simp only [hsvc, hno, not_false_eq_true, iff_true]
    exact ⟨_, rfl, by simp [GoError.Is]⟩
  · have hsvc : mapService.GetByColorAndYear r color year = (r, some m, none) := by
      simp [mapService, NewVehicleDefault, VehicleDefault.GetByColorAndYear,
        vehicleMapRepository, hres]
    refine ⟨by simp [hres, hex], by simp [hres, hex], fun _ => ⟨m, by rw [hres], hne, hexact⟩,
      ?_, by simp [hsvc, hex], by simp [hsvc, hres]⟩
    simp only [hsvc, hex, not_true_eq_false, iff_false]
    rintro ⟨e, he, _⟩
    simp at he

/-- On the example store the query for purple vehicles of 1899 finds no record and
fails, at the store and through the service; the query for red vehicles of 2000
succeeds with a non-empty map. -/
theorem get_by_color_and_year_exact_witness :
    (¬ ∃ k rec, exampleStore.db.lookup k = some rec ∧ rec.Color = "purple" ∧
      rec.FabricationYear = 1899) ∧
    FailsWith (mapService.GetByColorAndYear exampleStore "purple" 1899).2.2
      .ErrVehiclesNotFoundByCriteria ∧
    ∃ m : VMap, (exampleStore.GetByColorAndYear "red" 2000).2.1 = some m ∧ m.entries ≠ [] ∧
      ∀ k rec, m.lookup k = some rec ↔
        exampleStore.db.lookup k = some rec ∧ rec.Color = "red" ∧ rec.FabricationYear = 2000 :=
  ⟨(get_by_color_and_year_exact exampleStore "purple" 1899).1.mp (by decide),
    (get_by_color_and_year_exact exampleStore "purple" 1899).2.2.2.1.mpr
      ((get_by_color_and_year_exact exampleStore "purple" 1899).1.mp (by decide)),
    (get_by_color_and_year_exact exampleStore "red" 2000).2.2.1 (by decide)⟩

/-- C7: GetByBrandBetweenYears returns exactly the entries of the store whose brand
equals the argument and whose fabrication year lies between yearStart and yearEnd,
both ends included, and fails exactly when there is none; the service reports the
same failure as its not-found-by-criteria error and passes the same map on. -/
theorem get_by_brand_between_years_exact (r : VehicleMap) (brand : String)
    (yearStart yearEnd : Int) :
    ((r.GetByBrandBetweenYears brand yearStart yearEnd).2.2
        = some (.sentinel .ErrNoVehiclesByBrandYearsRepo) ↔
      ¬ ∃ k rec, r.db.lookup k = some rec ∧ rec.Brand = brand ∧
        yearStart ≤ rec.FabricationYear ∧ rec.FabricationYear ≤ yearEnd) ∧
    ((r.GetByBrandBetweenYears brand yearStart yearEnd).2.2 = none ↔
      ∃ k rec, r.db.lookup k = some rec ∧ rec.Brand = brand ∧
        yearStart ≤ rec.FabricationYear ∧ rec.FabricationYear ≤ yearEnd) ∧
    ((r.GetByBrandBetweenYears brand yearStart yearEnd).2.2 = none →
      ∃ m : VMap, (r.GetByBrandBetweenYears brand yearStart yearEnd).2.1 = some m ∧
        m.entries ≠ [] ∧
        ∀ k rec, m.lookup k = some rec ↔
          r.db.lookup k = some rec ∧ rec.Brand = brand ∧
            yearStart ≤ rec.FabricationYear ∧ rec.FabricationYear ≤ yearEnd) ∧
    (FailsWith (mapService.GetByBrandBetweenYears r brand yearStart yearEnd).2.2
        .ErrVehiclesNotFoundByCriteria ↔
      ¬ ∃ k rec, r.db.lookup k = some rec ∧ rec.Brand = brand ∧
        yearStart ≤ rec.FabricationYear ∧ rec.FabricationYear ≤ yearEnd) ∧
    ((mapService.GetByBrandBetweenYears r brand yearStart yearEnd).2.2 = none ↔
      ∃ k rec, r.db.lookup k = some rec ∧ rec.Brand = brand ∧
        yearStart ≤ rec.FabricationYear ∧ rec.FabricationYear ≤ yearEnd) ∧
    ((mapService.GetByBrandBetweenYears r brand yearStart yearEnd).2.2 = none →
      (mapService.GetByBrandBetweenYears r brand yearStart yearEnd).2.1
        = (r.GetByBrandBetweenYears brand yearStart yearEnd).2.1) := by
  rcases filter_query_cases (fun x => x.Brand = brand ∧ x.FabricationYear ≥ yearStart ∧
      x.FabricationYear ≤ yearEnd) r
      .ErrNoVehiclesByBrandYearsRepo (r.GetByBrandBetweenYears brand yearStart yearEnd)
      rfl with
    ⟨hres, hno⟩ | ⟨m, hres, hne, hex, hexact⟩
  · have hsvc : mapService.GetByBrandBetweenYears r brand yearStart yearEnd =
        (r, none, some (.errorfWrap (.sentinel .ErrVehiclesNotFoundByCriteria)
          (.sentinel .ErrNoVehiclesByBrandYearsRepo))) := by
      simp [mapService, NewVehicleDefault, VehicleDefault.GetByBrandBetweenYears,
        vehicleMapRepository, hres, GoError.Is]
    refine ⟨by simp [hres, hno], by simp [hres, hno], by simp [hres], ?_, by simp [hsvc, hno],
      by simp [hsvc]⟩
    simp only [hsvc, hno, not_false_eq_true, iff_true]
    exact ⟨_, rfl, by simp [GoError.Is]⟩
  · have hsvc :
        mapService.GetByBrandBetweenYears r brand yearStart yearEnd = (r, some m, none) := by
      simp [mapService, NewVehicleDefault, VehicleDefault.GetByBrandBetweenYears,
        vehicleMapRepository, hres]
    refine ⟨by simp [hres, hex], by simp [hres, hex], fun _ => ⟨m, by rw [hres], hne, hexact⟩,
      ?_, by simp [hsvc, hex], by simp [hsvc, hres]⟩
    simp only [hsvc, hex, not_true_eq_false, iff_false]
    rintro ⟨e, he, _⟩
    simp at he

/-- On the example store, whose Toyota is of the year 2000, the range 2000 to 2000
finds it (both ends are included) and the range 2001 to 2010 fails. -/
theorem get_by_brand_between_years_exact_witness :
    (∃ k rec, exampleStore.db.lookup k = some rec ∧ rec.Brand = "Toyota" ∧
      (2000 : Int) ≤ rec.FabricationYear ∧ rec.FabricationYear ≤ 2000) ∧
    (¬ ∃ k rec, exampleStore.db.lookup k = some rec ∧ rec.Brand = "Toyota" ∧
      (2001 : Int) ≤ rec.FabricationYear ∧ rec.FabricationYear ≤ 2010) ∧
    FailsWith (mapService.GetByBrandBetweenYears exampleStore "Toyota" 2001 2010).2.2
      .ErrVehiclesNotFoundByCriteria :=
  ⟨(get_by_brand_between_years_exact exampleStore "Toyota" 2000 2000).2.1.mp (by decide),
    (get_by_brand_between_years_exact exampleStore "Toyota" 2001 2010).1.mp (by decide),
    (get_by_brand_between_years_exact exampleStore "Toyota" 2001 2010).2.2.2.1.mpr
      ((get_by_brand_between_years_exact exampleStore "Toyota" 2001 2010).1.mp (by decide))⟩

/-- C8: for an upper bound other than zero, ListByWeightRange returns exactly the
entries of the store whose weight lies between weightMin and weightMax, both ends
included, and fails exactly when there is none; the service reports the same failure
as its not-found-by-criteria error and passes the same map on. -/
theorem list_by_weight_range_inclusive (r : VehicleMap) (weightMin weightMax : F64)
    (hmax : weightMax.eq F64.zero = false) :
    ((r.ListByWeightRange weightMin weightMax).2.2
        = some (.sentinel .ErrNoVehiclesByWeightRangeRepo) ↔
      ¬ ∃ k rec, r.db.lookup k = some rec ∧
        weightMin.le rec.Weight = true ∧ rec.Weight.le weightMax = true) ∧
    ((r.ListByWeightRange weightMin weightMax).2.2 = none ↔
      ∃ k rec, r.db.lookup k = some rec ∧
        weightMin.le rec.Weight = true ∧ rec.Weight.le weightMax = true) ∧
    ((r.ListByWeightRange weightMin weightMax).2.2 = none →
      ∃ m : VMap, (r.ListByWeightRange weightMin weightMax).2.1 = some m ∧ m.entries ≠ [] ∧
        ∀ k rec, m.lookup k = some rec ↔
          r.db.lookup k = some rec ∧
            weightMin.le rec.Weight = true ∧ rec.Weight.le weightMax = true) ∧
    (FailsWith (mapService.ListByWeightRange r weightMin weightMax).2.2
        .ErrVehiclesNotFoundByCriteria ↔
      ¬ ∃ k rec, r.db.lookup k = some rec ∧
        weightMin.le rec.Weight = true ∧ rec.Weight.le weightMax = true) ∧
    ((mapService.ListByWeightRange r weightMin weightMax).2.2 = none ↔
      ∃ k rec, r.db.lookup k = some rec ∧
        weightMin.le rec.Weight = true ∧ rec.Weight.le weightMax = true) ∧
    ((mapService.ListByWeightRange r weightMin weightMax).2.2 = none →
      (mapService.ListByWeightRange r weightMin weightMax).2.1
        = (r.ListByWeightRange weightMin weightMax).2.1) := by
  have hp : ∀ x : Vehicle,
      ((x.Weight.ge weightMin &&
          x.Weight.le (if weightMax.eq F64.zero = true then F64.MaxFloat64 else weightMax)) = true)
        ↔ (weightMin.le x.Weight = true ∧ x.Weight.le weightMax = true) := by
    intro x
    simp [F64.ge, hmax]
  rcases filter_query_cases
      (fun x => (x.Weight.ge weightMin &&
        x.Weight.le (if weightMax.eq F64.zero = true then F64.MaxFloat64 else weightMax)) = true)
      r .ErrNoVehiclesByWeightRangeRepo (r.ListByWeightRange weightMin weightMax) rfl with
    ⟨hres, hno⟩ | ⟨m, hres, hne, hex, hexact⟩
  · simp only [hp] at hno
    have hsvc : mapService.ListByWeightRange r weightMin weightMax =
        (r, none, some (.errorfWrap (.sentinel .ErrVehiclesNotFoundByCriteria)
          (.sentinel .ErrNoVehiclesByWeightRangeRepo))) := by
      simp [mapService, NewVehicleDefault, VehicleDefault.ListByWeightRange,
        vehicleMapRepository, hres, GoError.Is]
    refine ⟨by simp [hres, hno], by simp [hres, hno], by simp [hres], ?_, by simp [hsvc, hno],
      by simp [hsvc]⟩
    simp only [hsvc, hno, not_false_eq_true, iff_true]
    exact ⟨_, rfl, by simp [GoError.Is]⟩
  · simp only [hp] at hex hexact
    have hsvc : mapService.ListByWeightRange r weightMin weightMax = (r, some m, none) := by
      simp [mapService, NewVehicleDefault, VehicleDefault.ListByWeightRange,
        vehicleMapRepository, hres]
    refine ⟨by simp [hres, hex], by simp [hres, hex], fun _ => ⟨m, by rw [hres], hne, hexact⟩,
      ?_, by simp [hsvc, hex], by simp [hsvc, hres]⟩
    simp only [hsvc, hex, not_true_eq_false, iff_false]
    rintro ⟨e, he, _⟩
    simp at he

/-- The spec's example on the store with weights 10 and 20: the range 10 to 20
returns both records, the range 11 to 20 returns only the second. -/
theorem list_by_weight_range_inclusive_witness :
    (∃ m : VMap, (exampleStore.ListByWeightRange (.fin 10) (.fin 20)).2.1 = some m ∧
      m.entries ≠ [] ∧
      ∀ k rec, m.lookup k = some rec ↔
        exampleStore.db.lookup k = some rec ∧
          (F64.fin 10).le rec.Weight = true ∧ rec.Weight.le (.fin 20) = true) ∧
    (exampleStore.ListByWeightRange (.fin 10) (.fin 20)).2.1.map AList.keys = some [1, 2] ∧
    (∃ m : VMap, (exampleStore.ListByWeightRange (.fin 11) (.fin 20)).2.1 = some m ∧
      m.entries ≠ [] ∧
      ∀ k rec, m.lookup k = some rec ↔
        exampleStore.db.lookup k = some rec ∧
          (F64.fin 11).le rec.Weight = true ∧ rec.Weight.le (.fin 20) = true) ∧
    (exampleStore.ListByWeightRange (.fin 11) (.fin 20)).2.1.map AList.keys = some [2] :=
  ⟨(list_by_weight_range_inclusive exampleStore (.fin 10) (.fin 20) (by decide)).2.2.1
      (by decide),
    by decide,
    (list_by_weight_range_inclusive exampleStore (.fin 11) (.fin 20) (by decide)).2.2.1
      (by decide),
    by decide⟩

/-- A finite weight is at most `math.MaxFloat64`. -/
theorem le_maxFloat64_of_isFinite (x : F64) (h : x.isFinite = true) :
    x.le F64.MaxFloat64 = true := by
  cases x with
  | fin q =>
    simp only [F64.isFinite, Bool.and_eq_true, decide_eq_true_eq] at h
    simp [F64.le, F64.MaxFloat64, h.2]
  | nan => simp [F64.isFinite] at h
  | negInf => simp [F64.isFinite] at h
  | posInf => simp [F64.isFinite] at h

/-- C9: with a zero upper bound and finite stored weights, ListByWeightRange applies
no upper limit: it returns exactly the entries whose weight is at least weightMin and
fails exactly when there is none. -/
theorem list_by_weight_range_zero_max_unbounded (r : VehicleMap) (weightMin : F64)
    (hfin : WeightsFinite r.db) :
    ((r.ListByWeightRange weightMin F64.zero).2.2
        = some (.sentinel .ErrNoVehiclesByWeightRangeRepo) ↔
      ¬ ∃ k rec, r.db.lookup k = some rec ∧ weightMin.le rec.Weight = true) ∧
    ((r.ListByWeightRange weightMin F64.zero).2.2 = none ↔
      ∃ k rec, r.db.lookup k = some rec ∧ weightMin.le rec.Weight = true) ∧
    ((r.ListByWeightRange weightMin F64.zero).2.2 = none →
      ∃ m : VMap, (r.ListByWeightRange weightMin F64.zero).2.1 = some m ∧ m.entries ≠ [] ∧
        ∀ k rec, m.lookup k = some rec ↔
          r.db.lookup k = some rec ∧ weightMin.le rec.Weight = true) := by
  have hp : ∀ k rec, r.db.lookup k = some rec →
      (((rec.Weight.ge weightMin &&
          rec.Weight.le (if F64.zero.eq F64.zero = true then F64.MaxFloat64 else F64.zero)) = true)
        ↔ weightMin.le rec.Weight = true) := by
    intro k rec hk
    have hmem := (mem_entries_iff_lookup r.db k rec).mpr hk
    have hle := le_maxFloat64_of_isFinite rec.Weight (hfin ⟨k, rec⟩ hmem)
    have hz : F64.zero.eq F64.zero = true := by simp [F64.eq, F64.zero]
    simp [F64.ge, hz, hle]
  have hconj : ∀ k rec, (r.db.lookup k = some rec ∧
      ((rec.Weight.ge weightMin &&
          rec.Weight.le (if F64.zero.eq F64.zero = true then F64.MaxFloat64 else F64.zero)) = true))
        ↔ (r.db.lookup k = some rec ∧ weightMin.le rec.Weight = true) := by
    intro k rec
    constructor
    · rintro ⟨hk, h⟩; exact ⟨hk, (hp k rec hk).mp h⟩
    · rintro ⟨hk, h⟩; exact ⟨hk, (hp k rec hk).mpr h⟩
  rcases filter_query_cases
      (fun x => (x.Weight.ge weightMin &&
        x.Weight.le (if F64.zero.eq F64.zero = true then F64.MaxFloat64 else F64.zero)) = true)
      r .ErrNoVehiclesByWeightRangeRepo (r.ListByWeightRange weightMin F64.zero) rfl with
    ⟨hres, hno⟩ | ⟨m, hres, hne, hex, hexact⟩
  · simp only [hconj] at hno
    exact ⟨by simp [hres, hno], by simp [hres, hno], by simp [hres]⟩
  · simp only [hconj] at hex hexact
    exact ⟨by simp [hres, hex], by simp [hres, hex],
      fun _ => ⟨m, by rw [hres], hne, hexact⟩⟩

/-- On the example store the query from 5 with upper bound zero returns the records
of weight 10 and 20, although neither weight lies between 5 and 0. -/
theorem list_by_weight_range_zero_max_unbounded_witness :
    WeightsFinite exampleStore.db ∧
    (∃ m : VMap, (exampleStore.ListByWeightRange (.fin 5) F64.zero).2.1 = some m ∧
      m.entries ≠ [] ∧
      ∀ k rec, m.lookup k = some rec ↔
        exampleStore.db.lookup k = some rec ∧ (F64.fin 5).le rec.Weight = true) ∧
    (exampleStore.ListByWeightRange (.fin 5) F64.zero).2.1.map AList.keys = some [1, 2] ∧
    (∀ e ∈ exampleStore.db.entries, e.2.Weight.le F64.zero = false) :=
  ⟨by decide,
    (list_by_weight_range_zero_max_unbounded exampleStore (.fin 5) (by decide)).2.2 (by decide),
    by decide, by decide⟩

/-- C10: the store's ListByDimensions returns exactly the entries whose length lies
between minLength and maxLength and whose width lies between minWidth and maxWidth,
all four bounds included and both ranges required, and fails exactly when no record
satisfies both ranges. -/
theorem list_by_dimensions_exact (r : VehicleMap) (minLength maxLength minWidth maxWidth : F64) :
    ((r.ListByDimensions minLength maxLength minWidth maxWidth).2.2
        = some (.sentinel .ErrNoVehiclesByDimensionsRepo) ↔
      ¬ ∃ k rec, r.db.lookup k = some rec ∧
        (minLength.le rec.Length = true ∧ rec.Length.le maxLength = true) ∧
        (minWidth.le rec.Width = true ∧ rec.Width.le maxWidth = true)) ∧
    ((r.ListByDimensions minLength maxLength minWidth maxWidth).2.2 = none ↔
      ∃ k rec, r.db.lookup k = some rec ∧
        (minLength.le rec.Length = true ∧ rec.Length.le maxLength = true) ∧
        (minWidth.le rec.Width = true ∧ rec.Width.le maxWidth = true)) ∧
    ((r.ListByDimensions minLength maxLength minWidth maxWidth).2.2 = none →
      ∃ m : VMap, (r.ListByDimensions minLength maxLength minWidth maxWidth).2.1 = some m ∧
        m.entries ≠ [] ∧
        ∀ k rec, m.lookup k = some rec ↔
          r.db.lookup k = some rec ∧
            (minLength.le rec.Length = true ∧ rec.Length.le maxLength = true) ∧
            (minWidth.le rec.Width = true ∧ rec.Width.le maxWidth = true)) := by
  have hp : ∀ x : Vehicle,
      ((x.Length.ge minLength && x.Length.le maxLength
          && x.Width.ge minWidth && x.Width.le maxWidth) = true)
        ↔ ((minLength.le x.Length = true ∧ x.Length.le maxLength = true) ∧
          (minWidth.le x.Width = true ∧ x.Width.le maxWidth = true)) := by
    intro x
    simp [F64.ge, and_assoc]
  rcases filter_query_cases
      (fun x => (x.Length.ge minLength && x.Length.le maxLength
          && x.Width.ge minWidth && x.Width.le maxWidth) = true)
      r .ErrNoVehiclesByDimensionsRepo
      (r.ListByDimensions minLength maxLength minWidth maxWidth) rfl with
    ⟨hres, hno⟩ | ⟨m, hres, hne, hex, hexact⟩
  · simp only [hp] at hno
    exact ⟨by simp [hres, hno], by simp [hres, hno], by simp [hres]⟩
  · simp only [hp] at hex hexact
    exact ⟨by simp [hres, hex], by simp [hres, hex],
      fun _ => ⟨m, by rw [hres], hne, hexact⟩⟩

/-- On the example store (lengths 3 and 4, widths 1 and 2) the query for lengths 3
to 4 and widths 2 to 2 returns only identity 2: identity 1 matches the length range
but not the width range. The query for lengths 5 to 9 fails. -/
theorem list_by_dimensions_exact_witness :
    (∃ m : VMap, (exampleStore.ListByDimensions (.fin 3) (.fin 4) (.fin 2) (.fin 2)).2.1
        = some m ∧ m.entries ≠ [] ∧
      ∀ k rec, m.lookup k = some rec ↔
        exampleStore.db.lookup k = some rec ∧
          ((F64.fin 3).le rec.Length = true ∧ rec.Length.le (.fin 4) = true) ∧
          ((F64.fin 2).le rec.Width = true ∧ rec.Width.le (.fin 2) = true)) ∧
    (exampleStore.ListByDimensions (.fin 3) (.fin 4) (.fin 2) (.fin 2)).2.1.map AList.keys
      = some [2] ∧
    (¬ ∃ k rec, exampleStore.db.lookup k = some rec ∧
        ((F64.fin 5).le rec.Length = true ∧ rec.Length.le (.fin 9) = true) ∧
        ((F64.fin 0).le rec.Width = true ∧ rec.Width.le (.fin 9) = true)) :=
  ⟨(list_by_dimensions_exact exampleStore (.fin 3) (.fin 4) (.fin 2) (.fin 2)).2.2 (by decide),
    by decide,
    (list_by_dimensions_exact exampleStore (.fin 5) (.fin 9) (.fin 0) (.fin 9)).1.mp
      (by decide)⟩

/-- The chain of an error starts with the error itself. -/
theorem mem_chain_self (e : GoError) : e ∈ e.chain := by
  cases e <;> simp [GoError.chain]

/-- The value of `fmt.Errorf("%w: %w", target, e0)` is reported as `target` and keeps
`e0` in its chain. -/
theorem reportsAs_wrap (target : Sentinel) (e0 : GoError) :
    ReportsAs target (some e0) (some (.errorfWrap (.sentinel target) e0)) := by
  refine ⟨_, rfl, by simp [GoError.Is], ?_⟩
  simp [GoError.chain, mem_chain_self]

/-- The service method `ListByDimensions` over any repository: the repository is
called with the bounds resolved from the configuration. -/
theorem service_list_by_dimensions_eq {σ : Type} (s : VehicleDefault σ) (st : σ)
    (d : DimensionMap) :
    s.ListByDimensions st d =
      match s.rp.ListByDimensions st (boundOrDefault d "min_length" F64.zero)
        (boundOrDefault d "max_length" F64.MaxFloat64) (boundOrDefault d "min_width" F64.zero)
        (boundOrDefault d "max_width" F64.MaxFloat64) with
      | (st1, v, some err) =>
        if err.Is .ErrNoVehiclesByDimensionsRepo then
          (st1, none, some (.errorfWrap (.sentinel .ErrVehiclesNotFoundByCriteria) err))
        else
          (st1, v, none)
      | (st1, v, none) => (st1, v, none) := by
  unfold VehicleDefault.ListByDimensions boundOrDefault
  cases AList.lookup "min_length" d <;> cases AList.lookup "max_length" d <;>
    cases AList.lookup "min_width" d <;> cases AList.lookup "max_width" d <;> rfl

/-- The two outcomes of the store's ListByDimensions. -/
theorem list_by_dimensions_cases (r : VehicleMap) (a b c e : F64) :
    r.ListByDimensions a b c e = (r, none, some (.sentinel .ErrNoVehiclesByDimensionsRepo)) ∨
    ∃ m : VMap, r.ListByDimensions a b c e = (r, some m, none) := by
  rcases filter_query_cases
      (fun x => (x.Length.ge a && x.Length.le b && x.Width.ge c && x.Width.le e) = true)
      r .ErrNoVehiclesByDimensionsRepo (r.ListByDimensions a b c e) rfl with
    ⟨hres, _⟩ | ⟨m, hres, _⟩
  · exact Or.inl hres
  · exact Or.inr ⟨m, hres⟩

/-- C11: the service's ListByDimensions gives the result of the store's
ListByDimensions called with min_length, max_length, min_width and max_width taken
from the configuration when present (also when the value is 0) and replaced by 0, the
largest finite float, 0 and the largest finite float when absent; a failure of the
store is reported as the not-found-by-criteria error, and keys other than these four
have no influence. -/
theorem list_by_dimensions_default_bounds (r : VehicleMap) (d : DimensionMap) :
    (mapService.ListByDimensions r d).1 =
      (r.ListByDimensions (boundOrDefault d "min_length" F64.zero)
        (boundOrDefault d "max_length" F64.MaxFloat64) (boundOrDefault d "min_width" F64.zero)
        (boundOrDefault d "max_width" F64.MaxFloat64)).1 ∧
    (mapService.ListByDimensions r d).2.1 =
      (r.ListByDimensions (boundOrDefault d "min_length" F64.zero)
        (boundOrDefault d "max_length" F64.MaxFloat64) (boundOrDefault d "min_width" F64.zero)
        (boundOrDefault d "max_width" F64.MaxFloat64)).2.1 ∧
    ReportsAs .ErrVehiclesNotFoundByCriteria
      (r.ListByDimensions (boundOrDefault d "min_length" F64.zero)
        (boundOrDefault d "max_length" F64.MaxFloat64) (boundOrDefault d "min_width" F64.zero)
        (boundOrDefault d "max_width" F64.MaxFloat64)).2.2
      (mapService.ListByDimensions r d).2.2 ∧
    (∀ key dflt x, d.lookup key = some x → boundOrDefault d key dflt = x) ∧
    (∀ key dflt, d.lookup key = none → boundOrDefault d key dflt = dflt) ∧
    (∀ d2 : DimensionMap,
      (∀ key ∈ ["min_length", "max_length", "min_width", "max_width"],
        d2.lookup key = d.lookup key) →
      mapService.ListByDimensions r d2 = mapService.ListByDimensions r d) := by
  have hsvc := service_list_by_dimensions_eq mapService r d
  have hrp : mapService.rp.ListByDimensions = VehicleMap.ListByDimensions := rfl
  rw [hrp] at hsvc
  refine ⟨?_, ?_, ?_, ?_, ?_, ?_⟩
  · rcases list_by_dimensions_cases r (boundOrDefault d "min_length" F64.zero)
        (boundOrDefault d "max_length" F64.MaxFloat64) (boundOrDefault d "min_width" F64.zero)
        (boundOrDefault d "max_width" F64.MaxFloat64) with h | ⟨m, h⟩
    · rw [hsvc, h]; simp [GoError.Is]
    · rw [hsvc, h]
  · rcases list_by_dimensions_cases r (boundOrDefault d "min_length" F64.zero)
        (boundOrDefault d "max_length" F64.MaxFloat64) (boundOrDefault d "min_width" F64.zero)
        (boundOrDefault d "max_width" F64.MaxFloat64) with h | ⟨m, h⟩
    · rw [hsvc, h]; simp [GoError.Is]
    · rw [hsvc, h]
  · rcases list_by_dimensions_cases r (boundOrDefault d "min_length" F64.zero)
        (boundOrDefault d "max_length" F64.MaxFloat64) (boundOrDefault d "min_width" F64.zero)
        (boundOrDefault d "max_width" F64.MaxFloat64) with h | ⟨m, h⟩
    · rw [hsvc, h]
      simp only [GoError.Is, decide_True, if_true]
      exact reportsAs_wrap _ _
    · rw [hsvc, h]
      rfl
  · intro key dflt x hx
    simp [boundOrDefault, hx]
  · intro key dflt hx
    simp [boundOrDefault, hx]
  · intro d2 hd2
    rw [service_list_by_dimensions_eq mapService r d2, service_list_by_dimensions_eq mapService r d]
    have h1 := hd2 "min_length" (by simp)
    have h2 := hd2 "max_length" (by simp)
    have h3 := hd2 "min_width" (by simp)
    have h4 := hd2 "max_width" (by simp)
    simp only [boundOrDefault, h1, h2, h3, h4]

/-- The spec's example: the configuration with max_length 5 alone is answered as
the store's query with bounds 0, 5, 0 and the largest finite float, which returns
both records of the example store; the configuration with max_length 0 uses 0 as
the bound and fails. -/
theorem list_by_dimensions_default_bounds_witness :
    (mapService.ListByDimensions exampleStore (AList.insert "max_length" (F64.fin 5) ∅)).2.1 =
      (exampleStore.ListByDimensions F64.zero (.fin 5) F64.zero F64.MaxFloat64).2.1 ∧
    (mapService.ListByDimensions exampleStore
      (AList.insert "max_length" (F64.fin 5) ∅)).2.1.map AList.keys = some [1, 2] ∧
    ReportsAs .ErrVehiclesNotFoundByCriteria
      (exampleStore.ListByDimensions F64.zero (.fin 0) F64.zero F64.MaxFloat64).2.2
      (mapService.ListByDimensions exampleStore (AList.insert "max_length" (F64.fin 0) ∅)).2.2 ∧
    (exampleStore.ListByDimensions F64.zero (.fin 0) F64.zero F64.MaxFloat64).2.2 =
      some (.sentinel .ErrNoVehiclesByDimensionsRepo) :=
  ⟨(list_by_dimensions_default_bounds exampleStore
      (AList.insert "max_length" (F64.fin 5) ∅)).2.1,
    by decide,
    (list_by_dimensions_default_bounds exampleStore
      (AList.insert "max_length" (F64.fin 0) ∅)).2.2.1,
    by decide⟩

/-- The averaging loops of the store, read as a sum and a count over the records of
the brand: `g` is the value added for a record. -/
theorem foldl_brand_sum_count (g : Vehicle → F64) (brand : String)
    (l : List (Sigma fun _ : Int => Vehicle)) (s0 : F64) (c0 : Int) :
    l.foldl (fun (acc : F64 × Int) e =>
        if e.2.Brand = brand then (acc.1.add (g e.2), acc.2 + 1) else acc) (s0, c0) =
      ((((l.filter (fun e => decide (e.2.Brand = brand))).map (fun e => e.2)).map g).foldl
          F64.add s0,
        c0 + (((l.filter (fun e => decide (e.2.Brand = brand))).map (fun e => e.2)).length : Int))
    := by
  induction l generalizing s0 c0 with
  | nil => simp
  | cons e l ih =>
    rw [List.foldl_cons]
    by_cases hb : e.2.Brand = brand
    · simp only [hb, if_true]
      rw [ih]
      simp [List.filter_cons, hb, add_assoc, add_comm]
    · simp only [hb, if_false]
      rw [ih]
      simp [List.filter_cons, hb]

/-- No record of the map has the brand exactly when `brandRecords` is empty. -/
theorem brandRecords_length_eq_zero_iff (m : VMap) (brand : String) :
    ((brandRecords m brand).length : Int) = 0 ↔
      ¬ ∃ k rec, m.lookup k = some rec ∧ rec.Brand = brand := by
  unfold brandRecords
  rw [Int.natCast_eq_zero, List.length_eq_zero, List.map_eq_nil_iff, List.filter_eq_nil_iff]
  constructor
  · rintro h ⟨k, rec, hk, hb⟩
    exact h ⟨k, rec⟩ ((mem_entries_iff_lookup m k rec).mpr hk) (by simpa using hb)
  · rintro h ⟨k, rec⟩ hmem hb
    exact h ⟨k, rec, (mem_entries_iff_lookup m k rec).mp hmem, by simpa using hb⟩

/-- The store's GetSpeedAvgByBrand in terms of the records of the brand. -/
theorem get_speed_avg_eq (r : VehicleMap) (brand : String) :
    r.GetSpeedAvgByBrand brand =
      if ((brandRecords r.db brand).length : Int) = 0 then
        (r, F64.zero, some (.sentinel .ErrNoVehiclesByBrandRepo))
      else
        (r, F64.mean ((brandRecords r.db brand).map (fun x => x.MaxSpeed)), none) := by
  unfold VehicleMap.GetSpeedAvgByBrand
  simp only [foldl_brand_sum_count (fun x => x.MaxSpeed) brand r.db.entries F64.zero 0]
  simp only [zero_add, brandRecords, F64.mean, F64.sum, List.length_map]

/-- The store's GetAverageCapacityByBrand in terms of the records of the brand. -/
theorem get_average_capacity_eq (r : VehicleMap) (brand : String) :
    r.GetAverageCapacityByBrand brand =
      if ((brandRecords r.db brand).length : Int) = 0 then
        (r, F64.zero, some (.sentinel .ErrNoVehiclesByBrandRepo))
      else
        (r, F64.mean ((brandRecords r.db brand).map (fun x => F64.ofInt x.Capacity)), none) := by
  unfold VehicleMap.GetAverageCapacityByBrand
  simp only [foldl_brand_sum_count (fun x => F64.ofInt x.Capacity) brand r.db.entries F64.zero 0]
  simp only [zero_add, brandRecords, F64.mean, F64.sum, List.length_map]

/-- The service's GetSpeedAvgByBrand over the map store in terms of the records of
the brand. -/
theorem service_get_speed_avg_eq (r : VehicleMap) (brand : String) :
    mapService.GetSpeedAvgByBrand r brand =
      if ((brandRecords r.db brand).length : Int) = 0 then
        (r, F64.zero, some (.errorfWrap (.sentinel .ErrVehiclesNotFoundByCriteria)
          (.sentinel .ErrNoVehiclesByBrandRepo)))
      else
        (r, F64.mean ((brandRecords r.db brand).map (fun x => x.MaxSpeed)), none) := by
  have hrp : mapService.rp.GetSpeedAvgByBrand = VehicleMap.GetSpeedAvgByBrand := rfl
  unfold VehicleDefault.GetSpeedAvgByBrand
  rw [hrp, get_speed_avg_eq]
  by_cases h : ((brandRecords r.db brand).length : Int) = 0
  · simp [h, GoError.Is]
  · simp [h]

/-- The service's GetAverageCapacityByBrand over the map store in terms of the
records of the brand. -/
theorem service_get_average_capacity_eq (r : VehicleMap) (brand : String) :
    mapService.GetAverageCapacityByBrand r brand =
      if ((brandRecords r.db brand).length : Int) = 0 then
        (r, F64.zero, some (.errorfWrap (.sentinel .ErrVehiclesNotFoundByCriteria)
          (.sentinel .ErrNoVehiclesByBrandRepo)))
      else
        (r, F64.mean ((brandRecords r.db brand).map (fun x => F64.ofInt x.Capacity)), none) := by
  have hrp : mapService.rp.GetAverageCapacityByBrand = VehicleMap.GetAverageCapacityByBrand :=
    rfl
  unfold VehicleDefault.GetAverageCapacityByBrand
  rw [hrp, get_average_capacity_eq]
  by_cases h : ((brandRecords r.db brand).length : Int) = 0
  · simp [h, GoError.Is]
  · simp [h]

/-- C12: GetSpeedAvgByBrand and GetAverageCapacityByBrand fail exactly when no stored
record has the brand. The store then returns ErrNoVehiclesByBrandRepo next to the
value 0 (not the NaN of a division of 0 by 0), the service returns an error that has
ErrNoVehiclesByBrandRepo in its chain, and neither returns a success. -/
theorem average_fails_iff_no_brand_match (r : VehicleMap) (brand : String) :
    ((r.GetSpeedAvgByBrand brand).2.2 = some (.sentinel .ErrNoVehiclesByBrandRepo) ↔
      ¬ ∃ k rec, r.db.lookup k = some rec ∧ rec.Brand = brand) ∧
    ((r.GetSpeedAvgByBrand brand).2.2 = none ↔
      ∃ k rec, r.db.lookup k = some rec ∧ rec.Brand = brand) ∧
    ((r.GetAverageCapacityByBrand brand).2.2 = some (.sentinel .ErrNoVehiclesByBrandRepo) ↔
      ¬ ∃ k rec, r.db.lookup k = some rec ∧ rec.Brand = brand) ∧
    ((r.GetAverageCapacityByBrand brand).2.2 = none ↔
      ∃ k rec, r.db.lookup k = some rec ∧ rec.Brand = brand) ∧
    (FailsWith (mapService.GetSpeedAvgByBrand r brand).2.2 .ErrNoVehiclesByBrandRepo ↔
      ¬ ∃ k rec, r.db.lookup k = some rec ∧ rec.Brand = brand) ∧
    ((mapService.GetSpeedAvgByBrand r brand).2.2 = none ↔
      ∃ k rec, r.db.lookup k = some rec ∧ rec.Brand = brand) ∧
    (FailsWith (mapService.GetAverageCapacityByBrand r brand).2.2 .ErrNoVehiclesByBrandRepo ↔
      ¬ ∃ k rec, r.db.lookup k = some rec ∧ rec.Brand = brand) ∧
    ((mapService.GetAverageCapacityByBrand r brand).2.2 = none ↔
      ∃ k rec, r.db.lookup k = some rec ∧ rec.Brand = brand) ∧
    ((¬ ∃ k rec, r.db.lookup k = some rec ∧ rec.Brand = brand) →
      (r.GetSpeedAvgByBrand brand).2.1 = F64.zero ∧
      (r.GetAverageCapacityByBrand brand).2.1 = F64.zero ∧
      (mapService.GetSpeedAvgByBrand r brand).2.1 = F64.zero ∧
      (mapService.GetAverageCapacityByBrand r brand).2.1 = F64.zero) := by
  rw [get_speed_avg_eq, get_average_capacity_eq, service_get_speed_avg_eq,
    service_get_average_capacity_eq]
  by_cases h : ((brandRecords r.db brand).length : Int) = 0
  · have hno := (brandRecords_length_eq_zero_iff r.db brand).mp h
    simp only [h, if_true, hno, not_false_eq_true, iff_true, iff_false, true_implies,
      and_true, true_and]
    refine ⟨by simp, by simp, ⟨_, rfl, by simp [GoError.Is]⟩, by simp,
      ⟨_, rfl, by simp [GoError.Is]⟩, by simp⟩
  · have hex : ∃ k rec, r.db.lookup k = some rec ∧ rec.Brand = brand := by
      by_contra hno
      exact h ((brandRecords_length_eq_zero_iff r.db brand).mpr hno)
    simp only [h, if_false, hex, not_true_eq_false, iff_true, iff_false, false_implies,
      and_true, true_and]
    refine ⟨by simp, by simp, ?_, ?_⟩
    · rintro ⟨e, he, _⟩; simp at he
    · rintro ⟨e, he, _⟩; simp at he

/-- The spec's example: the example store has no record of the brand Ghost, so both
averages fail, at the store and through the service; it has a Toyota, so the Toyota
averages succeed. -/
theorem average_fails_iff_no_brand_match_witness :
    (¬ ∃ k rec, exampleStore.db.lookup k = some rec ∧ rec.Brand = "Ghost") ∧
    FailsWith (mapService.GetSpeedAvgByBrand exampleStore "Ghost").2.2
      .ErrNoVehiclesByBrandRepo ∧
    (exampleStore.GetAverageCapacityByBrand "Ghost").2.2
      = some (.sentinel .ErrNoVehiclesByBrandRepo) ∧
    (∃ k rec, exampleStore.db.lookup k = some rec ∧ rec.Brand = "Toyota") :=
  ⟨(average_fails_iff_no_brand_match exampleStore "Ghost").1.mp (by decide),
    (average_fails_iff_no_brand_match exampleStore "Ghost").2.2.2.2.1.mpr
      ((average_fails_iff_no_brand_match exampleStore "Ghost").1.mp (by decide)),
    (average_fails_iff_no_brand_match exampleStore "Ghost").2.2.1.mpr
      ((average_fails_iff_no_brand_match exampleStore "Ghost").1.mp (by decide)),
    (average_fails_iff_no_brand_match exampleStore "Toyota").2.1.mp (by decide)⟩

/-- Permuting the entries of a map permutes the records of a brand. -/
theorem brandRecords_perm {m1 m2 : VMap} (h : m1.entries.Perm m2.entries) (brand : String) :
    (brandRecords m1 brand).Perm (brandRecords m2 brand) := by
  unfold brandRecords
  exact (h.filter _).map _

/-- A record is among the records of a brand exactly when it is stored under some key
and has that brand. -/
theorem mem_brandRecords (m : VMap) (brand : String) (rec : Vehicle) :
    rec ∈ brandRecords m brand ↔ ∃ k, m.lookup k = some rec ∧ rec.Brand = brand := by
  unfold brandRecords
  simp only [List.mem_map, List.mem_filter, decide_eq_true_eq]
  constructor
  · rintro ⟨⟨k, x⟩, ⟨hmem, hb⟩, rfl⟩
    exact ⟨k, (mem_entries_iff_lookup m k x).mp hmem, hb⟩
  · rintro ⟨k, hk, hb⟩
    exact ⟨⟨k, rec⟩, ⟨(mem_entries_iff_lookup m k rec).mpr hk, hb⟩, rfl⟩

/-- With enough fuel, `log2Floor` brackets a positive number between two consecutive
powers of 2. -/
theorem F64.log2Floor_spec (fuel n : Nat) (hf : n ≤ fuel) (hn : 0 < n) :
    2 ^ F64.log2Floor fuel n ≤ n ∧ n < 2 ^ (F64.log2Floor fuel n + 1) := by
  induction fuel generalizing n with
  | zero => omega
  | succ fuel ih =>
    unfold F64.log2Floor
    by_cases h2 : n < 2
    · rw [if_pos h2]
      constructor <;> simp <;> omega
    · rw [if_neg h2]
      have := ih (n / 2) (by omega) (by omega)
      rw [pow_succ, pow_succ]
      rw [pow_succ] at this
      constructor <;> omega

/-- A natural number below `2 ^ 53` is a `float64` value. -/
theorem F64.exact_natCast (n : Nat) (h : n < 2 ^ 53) : F64.Exact (n : ℚ) := by
  unfold F64.Exact F64.round
  rcases Nat.eq_zero_or_pos n with h0 | hpos
  · subst h0; simp
  have hq : ((n : ℚ)) ≠ 0 := by exact_mod_cast hpos.ne'
  have hq2 : (0 : ℚ) < n := by exact_mod_cast hpos
  rw [if_neg hq, if_pos hq2]
  have hnum : (n : ℚ).num.natAbs = n := by simp
  have hden : (n : ℚ).den = 1 := by simp
  rw [hnum, hden]
  obtain ⟨hl1, hl2⟩ := F64.log2Floor_spec n n le_rfl hpos
  have hl : F64.log2Floor n n ≤ 52 := by
    by_contra hc
    have : 2 ^ 53 ≤ 2 ^ F64.log2Floor n n := Nat.pow_le_pow_right (by norm_num) (by omega)
    omega
  have h11 : F64.log2Floor 1 1 = 0 := by decide
  have hb : F64.binadeExponent n 1 = (F64.log2Floor n n : Int) := by
    unfold F64.binadeExponent
    simp only [h11, Nat.cast_zero, sub_zero, Int.toNat_ofNat, one_mul]
    have : (-(F64.log2Floor n n : Int)).toNat = 0 := by omega
    rw [this, pow_zero, mul_one, if_pos hl1]
  unfold F64.roundPos
  simp only [hb]
  have hp : max ((F64.log2Floor n n : Int) - 52) (-1074) = (F64.log2Floor n n : Int) - 52 := by
    omega
  rw [hp]
  have hpt : ((F64.log2Floor n n : Int) - 52).toNat = 0 := by omega
  have hnt : (-((F64.log2Floor n n : Int) - 52)).toNat = 52 - F64.log2Floor n n := by omega
  simp only [hpt, hnt, pow_zero, mul_one, Nat.div_one, Nat.mod_one, mul_zero, zero_lt_one,
    if_true]
  have hpow : 0 < 2 ^ (52 - F64.log2Floor n n) := by positivity
  have hpw : ∀ e : Nat, 53 ≤ e → n < 2 ^ e := fun e he =>
    lt_of_lt_of_le h (Nat.pow_le_pow_right (by norm_num) he)
  have hov : ¬ 2 ^ 1024 * 2 ^ (52 - F64.log2Floor n n) ≤ n * 2 ^ (52 - F64.log2Floor n n) := by
    intro hc
    exact absurd (hpw 1024 (by norm_num)) (not_lt.mpr (Nat.le_of_mul_le_mul_right hc hpow))
  rw [if_neg hov]
  congr 1
  rw [Rat.mkRat_eq_div]
  push_cast
  field_simp

/-- The opposite of a `float64` value is a `float64` value. -/
theorem F64.exact_neg (q : ℚ) (h : F64.Exact q) : F64.Exact (-q) := by
  unfold F64.Exact F64.round at h ⊢
  rcases lt_trichotomy q 0 with hq | hq | hq
  · have h1 : ¬ -q = 0 := by intro hc; rw [neg_eq_zero] at hc; exact hq.ne hc
    have h2 : 0 < -q := by linarith
    rw [if_neg hq.ne, if_neg (not_lt.mpr hq.le)] at h
    rw [if_neg h1, if_pos h2]
    simp only [Rat.neg_num, Rat.neg_den, Int.natAbs_neg]
    cases hr : F64.roundPos q.num.natAbs q.den with
    | fin x =>
      rw [hr] at h
      simp only [F64.fin.injEq] at h
      rw [← h, neg_neg]
    | nan => rw [hr] at h; simp at h
    | negInf => rw [hr] at h; simp at h
    | posInf => rw [hr] at h; simp at h
  · subst hq; simp
  · have h1 : ¬ -q = 0 := by intro hc; rw [neg_eq_zero] at hc; exact hq.ne' hc
    have h2 : ¬ 0 < -q := by linarith
    rw [if_neg hq.ne', if_pos hq] at h
    rw [if_neg h1, if_neg h2]
    simp only [Rat.neg_num, Rat.neg_den, Int.natAbs_neg]
    rw [h]

/-- An integer of magnitude below `2 ^ 53` is a `float64` value. -/
theorem F64.exact_intCast (c : Int) (h : c.natAbs < 2 ^ 53) : F64.Exact (c : ℚ) := by
  obtain ⟨m, rfl | rfl⟩ := Int.eq_nat_or_neg c
  · rw [Int.natAbs_ofNat] at h
    rw [Int.cast_natCast]
    exact F64.exact_natCast m h
  · rw [Int.natAbs_neg, Int.natAbs_ofNat] at h
    rw [Int.cast_neg, Int.cast_natCast]
    exact F64.exact_neg _ (F64.exact_natCast m h)


/-- A running sum of finite values of which no partial sum rounds is the finite value
of the rational sum. -/
theorem F64.foldl_add_exact (qs : List ℚ) (a : ℚ)
    (h : ∀ j, j ≤ qs.length → F64.Exact (a + (qs.take j).sum)) :
    (qs.map F64.fin).foldl F64.add (F64.fin a) = F64.fin (a + qs.sum) := by
  induction qs generalizing a with
  | nil => simp
  | cons q qs ih =>
    have h1 : F64.round (a + q) = F64.fin (a + q) := by
      have := h 1 (by simp)
      simpa [F64.Exact] using this
    simp only [List.map_cons, List.foldl_cons, List.sum_cons, F64.add]
    rw [h1, ih (a + q)]
    · congr 1
      ring
    · intro j hj
      have := h (j + 1) (by simpa using hj)
      simpa [add_assoc] using this

/-- The mean of a non-empty list of finite values of which no partial sum rounds, and
whose length is a `float64` value, is the rational mean rounded once. -/
theorem F64.mean_exact (qs : List ℚ) (hne : qs ≠ []) (hs : F64.SumsExact qs)
    (hl : F64.Exact (qs.length : ℚ)) :
    F64.mean (qs.map F64.fin) = F64.round (qs.sum / qs.length) := by
  unfold F64.mean F64.sum F64.zero
  rw [F64.foldl_add_exact qs 0 (by intro j hj; simpa using hs j hj)]
  have hlen : (qs.length : ℚ) ≠ 0 := by
    have : qs.length ≠ 0 := fun h => hne (List.length_eq_zero.mp h)
    exact_mod_cast this
  have hof : F64.ofInt ((qs.length : Nat) : Int) = F64.fin (qs.length : ℚ) := by
    unfold F64.ofInt
    simpa [F64.Exact] using hl
  rw [List.length_map, hof]
  simp only [F64.div, hlen, if_false, zero_add]

/-- Two lists of finite values that are permutations of one another have the same
rational sum and the same length. -/
theorem F64.sum_eq_of_perm {qs qs2 : List ℚ}
    (h : (qs2.map F64.fin).Perm (qs.map F64.fin)) :
    qs2.sum = qs.sum ∧ qs2.length = qs.length := by
  have hg := h.map (fun x : F64 => match x with | .fin q => q | _ => 0)
  simp only [List.map_map] at hg
  have hid : ((fun x : F64 => match x with | .fin q => q | _ => 0) ∘ F64.fin) = id := by
    funext q; rfl
  rw [hid, List.map_id, List.map_id] at hg
  exact ⟨hg.sum_eq, hg.length_eq⟩

/-- The magnitude of a sum of integers is at most the sum of the magnitudes. -/
theorem natAbs_sum_le_sum_natAbs (cs : List Int) :
    cs.sum.natAbs ≤ (cs.map Int.natAbs).sum := by
  induction cs with
  | nil => simp
  | cons c cs ih =>
    simp only [List.sum_cons, List.map_cons]
    exact le_trans (Int.natAbs_add_le c cs.sum) (Nat.add_le_add_left ih _)

/-- The magnitudes of an initial part of a list sum to at most the sum of all the
magnitudes. -/
theorem sum_natAbs_take_le (cs : List Int) (j : Nat) :
    ((cs.take j).map Int.natAbs).sum ≤ (cs.map Int.natAbs).sum := by
  induction cs generalizing j with
  | nil => simp
  | cons c cs ih =>
    cases j with
    | zero => simp
    | succ j =>
      simp only [List.take_succ_cons, List.map_cons, List.sum_cons]
      exact Nat.add_le_add_left (ih j) _

/-- Each magnitude is at most the sum of the magnitudes. -/
theorem natAbs_le_sum_natAbs (cs : List Int) (c : Int) (hc : c ∈ cs) :
    c.natAbs ≤ (cs.map Int.natAbs).sum := by
  induction cs with
  | nil => simp at hc
  | cons d cs ih =>
    simp only [List.map_cons, List.sum_cons]
    rcases List.mem_cons.mp hc with rfl | hmem
    · omega
    · have := ih hmem
      omega

/-- Integers whose magnitudes sum to less than `2 ^ 53` have no partial sum that
rounds. -/
theorem F64.sumsExact_intCast (cs : List Int) (h : (cs.map Int.natAbs).sum < 2 ^ 53) :
    F64.SumsExact (cs.map (fun c : Int => (c : ℚ))) := by
  intro j _
  have hcast : ((cs.map (fun c : Int => (c : ℚ))).take j).sum =
      (((cs.take j).sum : Int) : ℚ) := by
    rw [← List.map_take]
    exact (Int.cast_list_sum (cs.take j)).symm
  rw [hcast]
  apply F64.exact_intCast
  exact lt_of_le_of_lt
    (le_trans (natAbs_sum_le_sum_natAbs _) (sum_natAbs_take_le cs j)) h

/-- The mean of the conversions of a non-empty list of integers, when every integer
and the length are `float64` values and no partial sum rounds, is the rational mean
rounded once. -/
theorem F64.mean_ofInt_exact (cs : List Int) (hne : cs ≠ [])
    (hex : ∀ c ∈ cs, F64.Exact (c : ℚ))
    (hs : F64.SumsExact (cs.map (fun c : Int => (c : ℚ))))
    (hl : F64.Exact (cs.length : ℚ)) :
    F64.mean (cs.map F64.ofInt) =
      F64.round ((cs.map (fun c : Int => (c : ℚ))).sum / cs.length) := by
  have hmap : cs.map F64.ofInt = (cs.map (fun c : Int => (c : ℚ))).map F64.fin := by
    rw [List.map_map]
    apply List.map_congr_left
    intro c hc
    exact hex c hc
  rw [hmap, F64.mean_exact _ (by simpa using hne) hs (by simpa using hl)]
  simp

/-- The loop of CreateMultiple over a batch with distinct keys: the batch splits into
the entries inserted, none of whose keys was in the store, and the entries left
unvisited; the store afterwards is the prior store plus the inserted entries, and the
loop either visited everything and succeeded or stopped at the first unvisited entry,
whose key was already in the prior store, with the error that names that key. -/
theorem createMultipleLoop_spec (l : List (Sigma fun _ : Int => Vehicle)) (hl : l.NodupKeys)
    (r : VehicleMap) :
    ∃ pre suf : List (Sigma fun _ : Int => Vehicle), l = pre ++ suf ∧
      (∀ e ∈ pre, e.1 ∉ r.db.keys) ∧
      (∀ k, (VehicleMap.createMultipleLoop l r).1.db.lookup k =
        match pre.dlookup k with
        | some x => some x
        | none => r.db.lookup k) ∧
      ((suf = [] ∧ (VehicleMap.createMultipleLoop l r).2 = none) ∨
        (∃ e rest, suf = e :: rest ∧ e.1 ∈ r.db.keys ∧
          (VehicleMap.createMultipleLoop l r).2 =
            some (.errorfKey (.sentinel .ErrVehicleAlreadyExistsRepo) e.1))) := by
  induction l generalizing r with
  | nil =>
    exact ⟨[], [], rfl, by simp, by intro k; simp [VehicleMap.createMultipleLoop],
      Or.inl ⟨rfl, rfl⟩⟩
  | cons e l ih =>
    obtain ⟨hnot, hl2⟩ := List.nodupKeys_cons.mp hl
    by_cases hmem : e.1 ∈ r.db.keys
    · have hsome := (mem_keys_iff_isSome r.db e.1).mp hmem
      refine ⟨[], e :: l, rfl, by simp, ?_, Or.inr ⟨e, l, rfl, hmem, ?_⟩⟩
      · intro k; simp [VehicleMap.createMultipleLoop, hsome]
      · simp [VehicleMap.createMultipleLoop, hsome]
    · have hnone := (not_mem_keys_iff_lookup r.db e.1).mp hmem
      have hstep : VehicleMap.createMultipleLoop (e :: l) r =
          VehicleMap.createMultipleLoop l ⟨r.db.insert e.1 e.2⟩ := by
        simp [VehicleMap.createMultipleLoop, hnone]
      obtain ⟨pre, suf, hsplit, hpre, hlook, hend⟩ := ih hl2 ⟨r.db.insert e.1 e.2⟩
      have hkeys : ∀ k,
          k ∈ (AList.insert e.1 e.2 r.db).keys ↔ k = e.1 ∨ k ∈ r.db.keys := by
        intro k
        rw [← AList.mem_keys, AList.mem_insert, AList.mem_keys]
      have hsub : ∀ x ∈ l, x.1 ≠ e.1 := by
        intro x hx heq
        apply hnot
        rw [← heq]
        exact List.mem_keys_of_mem hx
      refine ⟨e :: pre, suf, by rw [hsplit]; rfl, ?_, ?_, ?_⟩
      · intro x hx
        rcases List.mem_cons.mp hx with rfl | hx
        · exact hmem
        · intro hin
          exact hpre x hx ((hkeys x.1).mpr (Or.inr hin))
      · intro k
        rw [hstep, hlook k]
        obtain ⟨a, b⟩ := e
        by_cases hk : k = a
        · subst hk
          have hpn : pre.dlookup k = none := by
            rw [List.dlookup_eq_none]
            intro hin
            apply hnot
            rw [hsplit, List.keys, List.map_append]
            exact List.mem_append_left _ hin
          simp [hpn, AList.lookup_insert]
        · rw [List.dlookup_cons_ne _ _ hk]
          cases hp : pre.dlookup k with
          | none => simp [AList.lookup_insert_ne hk]
          | some x => rfl
      · rcases hend with ⟨hs, herr⟩ | ⟨x, rest, hs, hx, herr⟩
        · exact Or.inl ⟨hs, by rw [hstep]; exact herr⟩
        · refine Or.inr ⟨x, rest, hs, ?_, by rw [hstep]; exact herr⟩
          rcases (hkeys x.1).mp hx with heq | hin
          · exact absurd heq (hsub x (by rw [hsplit, hs]; simp))
          · exact hin

/-- The two outcomes of the store's CreateMultiple: it succeeds, no key of the batch
was in the store and the store afterwards is the prior store plus the batch; or it
fails with the error naming a key of the batch that was in the store, and the store
afterwards is the prior store plus the entries `pre` visited before the failure. -/
theorem create_multiple_cases (r : VehicleMap) (v : VMap) :
    ((r.CreateMultiple v).2 = none ∧ (¬ ∃ k, k ∈ v.keys ∧ k ∈ r.db.keys) ∧
      ∀ k, (r.CreateMultiple v).1.db.lookup k =
        match v.lookup k with
        | some x => some x
        | none => r.db.lookup k) ∨
    (∃ key, (r.CreateMultiple v).2 =
        some (.errorfKey (.sentinel .ErrVehicleAlreadyExistsRepo) key) ∧
      key ∈ v.keys ∧ key ∈ r.db.keys ∧
      ∃ pre : List (Sigma fun _ : Int => Vehicle), pre.Sublist v.entries ∧
        (∀ e ∈ pre, e.1 ∉ r.db.keys) ∧
        ∀ k, (r.CreateMultiple v).1.db.lookup k =
          match pre.dlookup k with
          | some x => some x
          | none => r.db.lookup k) := by
  obtain ⟨pre, suf, hsplit, hpre, hlook, hend⟩ :=
    createMultipleLoop_spec v.entries v.nodupKeys r
  rcases hend with ⟨hs, herr⟩ | ⟨e, rest, hs, he, herr⟩
  · left
    have hpre_eq : pre = v.entries := by rw [hsplit, hs, List.append_nil]
    refine ⟨herr, ?_, ?_⟩
    · rintro ⟨k, hkv, hkr⟩
      obtain ⟨x, hx⟩ := List.exists_of_mem_keys hkv
      exact hpre ⟨k, x⟩ (by rw [hpre_eq]; exact hx) hkr
    · intro k
      have := hlook k
      rw [hpre_eq] at this
      exact this
  · right
    refine ⟨e.1, herr, ?_, he, pre, ?_, hpre, hlook⟩
    · apply List.mem_keys_of_mem (s := e)
      rw [hsplit, hs]
      simp
    · rw [hsplit]
      exact List.sublist_append_left pre suf

/-- The service's CreateMultiple over the map store, from the store's result. -/
theorem service_create_multiple_eq (r : VehicleMap) (v : VMap) :
    mapService.CreateMultiple r v =
      ((r.CreateMultiple v).1,
        (r.CreateMultiple v).2.map
          (GoError.errorfWrap (.sentinel .ErrVehicleAlreadyExistsService))) := by
  have hrp : mapService.rp.CreateMultiple = VehicleMap.CreateMultiple := rfl
  unfold VehicleDefault.CreateMultiple
  rw [hrp]
  rcases create_multiple_cases r v with ⟨herr, _⟩ | ⟨key, herr, _⟩
  · cases hres : r.CreateMultiple v with
    | mk st e =>
      rw [hres] at herr
      simp only at herr
      subst herr
      rfl
  · cases hres : r.CreateMultiple v with
    | mk st e =>
      rw [hres] at herr
      simp only at herr
      subst herr
      simp [GoError.Is]

/-- C14: for every store and every batch, in whatever order the batch is traversed,
the store's CreateMultiple fails with the already-exists error exactly when some key
of the batch is already a key of the store, and the error names a key that is in the
batch and in the prior store; when no key collides it succeeds and the store
afterwards is the prior store plus every entry of the batch. The service reports the
same failure as its already-exists error. -/
theorem create_multiple_fails_iff_collision (r : VehicleMap) (v : VMap) :
    (FailsWith (r.CreateMultiple v).2 .ErrVehicleAlreadyExistsRepo ↔
      ∃ k, k ∈ v.keys ∧ k ∈ r.db.keys) ∧
    ((r.CreateMultiple v).2 = none ↔ ¬ ∃ k, k ∈ v.keys ∧ k ∈ r.db.keys) ∧
    (∀ err, (r.CreateMultiple v).2 = some err →
      ∃ key, err = .errorfKey (.sentinel .ErrVehicleAlreadyExistsRepo) key ∧
        key ∈ v.keys ∧ key ∈ r.db.keys) ∧
    ((r.CreateMultiple v).2 = none →
      ∀ k, (r.CreateMultiple v).1.db.lookup k =
        match v.lookup k with
        | some x => some x
        | none => r.db.lookup k) ∧
    (∀ v2 : VMap, v2.entries.Perm v.entries →
      ((r.CreateMultiple v2).2 = none ↔ (r.CreateMultiple v).2 = none)) ∧
    (FailsWith (mapService.CreateMultiple r v).2 .ErrVehicleAlreadyExistsService ↔
      ∃ k, k ∈ v.keys ∧ k ∈ r.db.keys) ∧
    ((mapService.CreateMultiple r v).2 = none ↔ ¬ ∃ k, k ∈ v.keys ∧ k ∈ r.db.keys) ∧
    (mapService.CreateMultiple r v).1 = (r.CreateMultiple v).1 := by
  have hiff : ∀ w : VMap,
      ((r.CreateMultiple w).2 = none ↔ ¬ ∃ k, k ∈ w.keys ∧ k ∈ r.db.keys) := by
    intro w
    rcases create_multiple_cases r w with ⟨herr, hno, _⟩ | ⟨key, herr, hkv, hkr, _⟩
    · simp [herr, hno]
    · have hex : ∃ k, k ∈ w.keys ∧ k ∈ r.db.keys := ⟨key, hkv, hkr⟩
      simp [herr, hex]
  rw [service_create_multiple_eq]
  refine ⟨?_, hiff v, ?_, ?_, ?_, ?_, ?_, rfl⟩
  · rcases create_multiple_cases r v with ⟨herr, hno, _⟩ | ⟨key, herr, hkv, hkr, _⟩
    · simp only [herr, hno, iff_false]
      rintro ⟨e, he, _⟩
      simp at he
    · have hex : ∃ k, k ∈ v.keys ∧ k ∈ r.db.keys := ⟨key, hkv, hkr⟩
      simp only [herr, hex, iff_true]
      exact ⟨_, rfl, by simp [GoError.Is]⟩
  · intro err herr2
    rcases create_multiple_cases r v with ⟨herr, _⟩ | ⟨key, herr, hkv, hkr, _⟩
    · rw [herr] at herr2; simp at herr2
    · rw [herr] at herr2
      simp only [Option.some.injEq] at herr2
      exact ⟨key, herr2.symm, hkv, hkr⟩
  · intro hnone
    rcases create_multiple_cases r v with ⟨_, _, hlook⟩ | ⟨key, herr, _⟩
    · exact hlook
    · rw [herr] at hnone; simp at hnone
  · intro v2 hperm
    rw [hiff v2, hiff v]
    have hk : ∀ k, k ∈ v2.keys ↔ k ∈ v.keys := by
      intro k
      rw [← AList.mem_keys, ← AList.mem_keys]
      exact AList.mem_of_perm hperm
    simp only [hk]
  · rcases create_multiple_cases r v with ⟨herr, hno, _⟩ | ⟨key, herr, hkv, hkr, _⟩
    · simp only [herr, hno, iff_false, Option.map_none']
      rintro ⟨e, he, _⟩
      simp at he
    · have hex : ∃ k, k ∈ v.keys ∧ k ∈ r.db.keys := ⟨key, hkv, hkr⟩
      simp only [herr, hex, iff_true, Option.map_some']
      exact ⟨_, rfl, by simp [GoError.Is]⟩
  · rw [← hiff v]
    cases (r.CreateMultiple v).2 <;> simp

/-- The example batch collides with the example store on identity 1, so the call
fails and the error names identity 1; the batch with identity 3 alone succeeds. -/
theorem create_multiple_fails_iff_collision_witness :
    FailsWith (exampleStore.CreateMultiple exampleBatch).2 .ErrVehicleAlreadyExistsRepo ∧
    (∃ key, GoError.errorfKey (.sentinel .ErrVehicleAlreadyExistsRepo) 1 =
        .errorfKey (.sentinel .ErrVehicleAlreadyExistsRepo) key ∧
      key ∈ exampleBatch.keys ∧ key ∈ exampleStore.db.keys) ∧
    (¬ ∃ k,
      k ∈ (AList.insert 3 (exampleVehicle 3 "Fiat" "green" 2020 7 7 7) (∅ : VMap)).keys ∧
      k ∈ exampleStore.db.keys) :=
  ⟨(create_multiple_fails_iff_collision exampleStore exampleBatch).1.mpr
      ⟨1, by decide, by decide⟩,
    (create_multiple_fails_iff_collision exampleStore exampleBatch).2.2.1 _ (by decide),
    (create_multiple_fails_iff_collision exampleStore
      (AList.insert 3 (exampleVehicle 3 "Fiat" "green" 2020 7 7 7) ∅)).2.1.mp (by decide)⟩

/-- C15: batch create is not atomic. There is a store and a batch for which
CreateMultiple fails with the already-exists error and the store afterwards holds a
batch record that was not in it before. After every failing call the batch splits, in
the order of traversal, into the entries `pre` visited before the failure, the entry
`e` whose key was already in the store, and the rest: no key of `pre` was in the prior
store, every entry of `pre` is in the store afterwards (nothing is rolled back), every
prior record is unchanged, and the store afterwards is exactly the prior store plus
the entries of `pre` (no other record appears). -/
theorem create_multiple_not_atomic :
    (∃ (r : VehicleMap) (v : VMap),
      FailsWith (r.CreateMultiple v).2 .ErrVehicleAlreadyExistsRepo ∧
      ∃ k x, v.lookup k = some x ∧ r.db.lookup k = none ∧
        (r.CreateMultiple v).1.db.lookup k = some x) ∧
    (∀ (r : VehicleMap) (v : VMap), (r.CreateMultiple v).2 ≠ none →
      ∃ (pre : List (Sigma fun _ : Int => Vehicle)) (e : Sigma fun _ : Int => Vehicle)
        (rest : List (Sigma fun _ : Int => Vehicle)),
        v.entries = pre ++ e :: rest ∧
        (∀ x ∈ pre, x.1 ∉ r.db.keys) ∧
        e.1 ∈ r.db.keys ∧
        (r.CreateMultiple v).2 =
          some (.errorfKey (.sentinel .ErrVehicleAlreadyExistsRepo) e.1) ∧
        (∀ x ∈ pre, (r.CreateMultiple v).1.db.lookup x.1 = some x.2) ∧
        (∀ k, k ∈ r.db.keys → (r.CreateMultiple v).1.db.lookup k = r.db.lookup k) ∧
        pre.Sublist v.entries ∧
        ∀ k, (r.CreateMultiple v).1.db.lookup k =
          match pre.dlookup k with
          | some x => some x
          | none => r.db.lookup k) := by
  constructor
  · refine ⟨exampleStore, exampleBatch,
      ⟨.errorfKey (.sentinel .ErrVehicleAlreadyExistsRepo) 1, by decide, by decide⟩, 3,
      exampleVehicle 3 "Fiat" "green" 2020 7 7 7, by decide, by decide, by decide⟩
  · intro r v hfail
    obtain ⟨pre, suf, hsplit, hpre, hlook, hend⟩ :=
      createMultipleLoop_spec v.entries v.nodupKeys r
    rcases hend with ⟨_, herr⟩ | ⟨e, rest, hs, he, herr⟩
    · exact absurd herr hfail
    · have hsub : pre.Sublist v.entries := by
        rw [hsplit]
        exact List.sublist_append_left pre suf
      have hnd : pre.NodupKeys := List.NodupKeys.sublist hsub v.nodupKeys
      refine ⟨pre, e, rest, by rw [hsplit, hs], hpre, he, herr, ?_, ?_, hsub, hlook⟩
      · rintro ⟨a, b⟩ hx
        have hb : pre.dlookup a = some b := Option.mem_def.mp (List.mem_dlookup hnd hx)
        have hl := hlook a
        rw [hb] at hl
        exact hl
      · intro k hk
        have hnone : pre.dlookup k = none := by
          rw [List.dlookup_eq_none]
          intro hin
          obtain ⟨b, hb⟩ := List.exists_of_mem_keys hin
          exact hpre ⟨k, b⟩ hb hk
        have hl := hlook k
        rw [hnone] at hl
        exact hl

/-- On the example store the example batch is traversed from identity 3 to identity
1: identity 3 is inserted, identity 1 collides, and afterwards identity 3 is stored
and identities 1 and 2 hold their prior records. -/
theorem create_multiple_not_atomic_witness :
    exampleBatch.keys = [3, 1] ∧
    (exampleStore.CreateMultiple exampleBatch).2 =
      some (.errorfKey (.sentinel .ErrVehicleAlreadyExistsRepo) 1) ∧
    (exampleStore.CreateMultiple exampleBatch).1.db.keys = [3, 2, 1] ∧
    (exampleStore.CreateMultiple exampleBatch).1.db.lookup 3 = exampleBatch.lookup 3 ∧
    (exampleStore.CreateMultiple exampleBatch).1.db.lookup 1 = exampleStore.db.lookup 1 ∧
    ∃ (pre : List (Sigma fun _ : Int => Vehicle)) (e : Sigma fun _ : Int => Vehicle)
      (rest : List (Sigma fun _ : Int => Vehicle)),
      exampleBatch.entries = pre ++ e :: rest ∧
      (∀ x ∈ pre, x.1 ∉ exampleStore.db.keys) ∧
      e.1 ∈ exampleStore.db.keys ∧
      (exampleStore.CreateMultiple exampleBatch).2 =
        some (.errorfKey (.sentinel .ErrVehicleAlreadyExistsRepo) e.1) ∧
      (∀ x ∈ pre, (exampleStore.CreateMultiple exampleBatch).1.db.lookup x.1 = some x.2) ∧
      (∀ k, k ∈ exampleStore.db.keys →
        (exampleStore.CreateMultiple exampleBatch).1.db.lookup k = exampleStore.db.lookup k) ∧
      pre.Sublist exampleBatch.entries ∧
      ∀ k, (exampleStore.CreateMultiple exampleBatch).1.db.lookup k =
        match pre.dlookup k with
        | some x => some x
        | none => exampleStore.db.lookup k :=
  ⟨by decide, by decide, by decide, by decide, by decide,
    create_multiple_not_atomic.2 exampleStore exampleBatch (by decide)⟩

/-- The loop of the batch handler started from `acc`: a key is found with the vehicle
of the last payload record carrying it, and as in `acc` when no record carries it. -/
theorem lookup_foldl_batch (l : List VehicleJSON) (acc : VMap) (k : Int) :
    (l.foldl (fun (vehicles : VMap) value =>
        vehicles.insert (Handler.vehicleOf value).Id (Handler.vehicleOf value)) acc).lookup k =
      match l.reverse.find? (fun j => decide (j.ID = k)) with
      | some j => some (Handler.vehicleOf j)
      | none => acc.lookup k := by
  induction l generalizing acc with
  | nil => simp
  | cons j l ih =>
    rw [List.foldl_cons, ih, List.reverse_cons, List.find?_append]
    cases hfind : l.reverse.find? (fun j => decide (j.ID = k)) with
    | some x => simp
    | none =>
      by_cases hk : j.ID = k
      · subst hk
        have hid : (Handler.vehicleOf j).Id = j.ID := rfl
        simp [hid, AList.lookup_insert]
      · have hid : (Handler.vehicleOf j).Id = j.ID := rfl
        have hne : k ≠ (Handler.vehicleOf j).Id := by
          rw [hid]; exact fun h => hk h.symm
        simp [hk, AList.lookup_insert_ne hne]

/-- The map the batch handler builds holds, under every identity of the payload, the
vehicle of the last payload record with that identity, and nothing else. -/
theorem lookup_batchVehicles (body : VehicleJSONBatch) (k : Int) :
    (Handler.batchVehicles body).lookup k =
      (body.Vehicles.reverse.find? (fun j => decide (j.ID = k))).map Handler.vehicleOf := by
  unfold Handler.batchVehicles
  rw [lookup_foldl_batch]
  cases body.Vehicles.reverse.find? (fun j => decide (j.ID = k)) <;> simp

/-- The keys of the map the batch handler builds are the identities of the payload. -/
theorem mem_keys_batchVehicles (body : VehicleJSONBatch) (k : Int) :
    k ∈ (Handler.batchVehicles body).keys ↔ ∃ j ∈ body.Vehicles, j.ID = k := by
  rw [mem_keys_iff_isSome, lookup_batchVehicles, Option.isSome_map', List.find?_isSome]
  simp

/-- The batch handler over the map store, from the result of the store's
CreateMultiple on the map built from the payload. -/
theorem handler_create_multiple_eq (r : VehicleMap) (body : VehicleJSONBatch) :
    Handler.CreateMultiple mapHandler r (some body) =
      ((r.CreateMultiple (Handler.batchVehicles body)).1,
        match (r.CreateMultiple (Handler.batchVehicles body)).2 with
        | some _ => some StatusConflict
        | none => some StatusCreated) := by
  have hsv : mapHandler.sv.CreateMultiple = mapService.CreateMultiple := rfl
  unfold Handler.CreateMultiple
  simp only [hsv, service_create_multiple_eq]
  cases (r.CreateMultiple (Handler.batchVehicles body)).2 with
  | none => rfl
  | some e => simp [GoError.Is]

/-- The service's CreateMultiple over the map store fails with the service's
already-exists error exactly when a key of the batch is a key of the store. -/
theorem service_create_multiple_fails_iff (r : VehicleMap) (v : VMap) :
    FailsWith (mapService.CreateMultiple r v).2 .ErrVehicleAlreadyExistsService ↔
      ∃ k, k ∈ v.keys ∧ k ∈ r.db.keys := by
  rw [service_create_multiple_eq]
  rcases create_multiple_cases r v with ⟨herr, hno, _⟩ | ⟨key, herr, hkv, hkr, _⟩
  · simp only [herr, hno, iff_false, Option.map_none']
    rintro ⟨e, he, _⟩
    simp at he
  · have hex : ∃ k, k ∈ v.keys ∧ k ∈ r.db.keys := ⟨key, hkv, hkr⟩
    simp only [herr, hex, iff_true, Option.map_some']
    exact ⟨_, rfl, by simp [GoError.Is]⟩

/-- C16 fails on the code: the payload with two records of identity 1, submitted to
the batch handler over an empty store, is answered with Created; the service's
CreateMultiple does not fail and the store holds the second record alone. -/
theorem batch_with_repeated_identity_counterexample :
    (1 : Int) ∉ (NewVehicleMap none).db.keys ∧
    (Handler.CreateMultiple mapHandler (NewVehicleMap none)
      (some ⟨[exampleJSON 1 "Toyota", exampleJSON 1 "Ford"]⟩)).2 = some StatusCreated ∧
    ¬ FailsWith (mapService.CreateMultiple (NewVehicleMap none)
      (Handler.batchVehicles ⟨[exampleJSON 1 "Toyota", exampleJSON 1 "Ford"]⟩)).2
      .ErrVehicleAlreadyExistsService ∧
    (Handler.CreateMultiple mapHandler (NewVehicleMap none)
      (some ⟨[exampleJSON 1 "Toyota", exampleJSON 1 "Ford"]⟩)).1.db.entries =
      [⟨1, Handler.vehicleOf (exampleJSON 1 "Ford")⟩] := by
  refine ⟨by decide, by decide, ?_, by decide⟩
  rintro ⟨e, he, _⟩
  have hnone : (mapService.CreateMultiple (NewVehicleMap none)
      (Handler.batchVehicles ⟨[exampleJSON 1 "Toyota", exampleJSON 1 "Ford"]⟩)).2 = none := by
    decide
  rw [hnone] at he
  simp at he

/-- C16, amended: the batch handler files the payload in a map keyed by identity, in
which the last record with a given identity replaces the earlier ones. Over the map
store the request is answered with Conflict, and the service's CreateMultiple fails
with the already-exists error, exactly when an identity of the payload is already a
key of the store, in whatever order the map is traversed; otherwise it is answered
with Created and the store afterwards is the prior store plus, for every identity of
the payload, the last record carrying it. -/
theorem batch_handler_keeps_last_of_repeated_identity (r : VehicleMap)
    (body : VehicleJSONBatch) :
    (∀ k, (Handler.batchVehicles body).lookup k =
      (body.Vehicles.reverse.find? (fun j => decide (j.ID = k))).map Handler.vehicleOf) ∧
    ((Handler.CreateMultiple mapHandler r (some body)).2 = some StatusConflict ↔
      ∃ j ∈ body.Vehicles, j.ID ∈ r.db.keys) ∧
    ((Handler.CreateMultiple mapHandler r (some body)).2 = some StatusCreated ↔
      ¬ ∃ j ∈ body.Vehicles, j.ID ∈ r.db.keys) ∧
    (∀ b : VMap, b.entries.Perm (Handler.batchVehicles body).entries →
      (FailsWith (mapService.CreateMultiple r b).2 .ErrVehicleAlreadyExistsService ↔
        ∃ j ∈ body.Vehicles, j.ID ∈ r.db.keys)) ∧
    ((¬ ∃ j ∈ body.Vehicles, j.ID ∈ r.db.keys) →
      ∀ k, (Handler.CreateMultiple mapHandler r (some body)).1.db.lookup k =
        match body.Vehicles.reverse.find? (fun j => decide (j.ID = k)) with
        | some j => some (Handler.vehicleOf j)
        | none => r.db.lookup k) := by
  have hcoll : (∃ k, k ∈ (Handler.batchVehicles body).keys ∧ k ∈ r.db.keys) ↔
      ∃ j ∈ body.Vehicles, j.ID ∈ r.db.keys := by
    constructor
    · rintro ⟨k, hk, hr⟩
      obtain ⟨j, hj, hid⟩ := (mem_keys_batchVehicles body k).mp hk
      exact ⟨j, hj, by rw [hid]; exact hr⟩
    · rintro ⟨j, hj, hr⟩
      exact ⟨j.ID, (mem_keys_batchVehicles body j.ID).mpr ⟨j, hj, rfl⟩, hr⟩
  rw [handler_create_multiple_eq]
  rcases create_multiple_cases r (Handler.batchVehicles body) with
    ⟨herr, hno, hlook⟩ | ⟨key, herr, hkv, hkr, _⟩
  · have hno2 : ¬ ∃ j ∈ body.Vehicles, j.ID ∈ r.db.keys := fun h => hno (hcoll.mpr h)
    refine ⟨lookup_batchVehicles body, by simp [herr, hno2, StatusConflict, StatusCreated],
      by simp [herr, hno2], ?_, ?_⟩
    · intro b hperm
      have hk : ∀ k, k ∈ b.keys ↔ k ∈ (Handler.batchVehicles body).keys := by
        intro k
        rw [← AList.mem_keys, ← AList.mem_keys]
        exact AList.mem_of_perm hperm
      rw [service_create_multiple_fails_iff r b]
      simp only [hk, hcoll]
    · intro _ k
      rw [hlook k, lookup_batchVehicles]
      cases body.Vehicles.reverse.find? (fun j => decide (j.ID = k)) <;> rfl
  · have hex : ∃ j ∈ body.Vehicles, j.ID ∈ r.db.keys := hcoll.mp ⟨key, hkv, hkr⟩
    refine ⟨lookup_batchVehicles body, by simp [herr, hex],
      by simp [herr, hex, StatusConflict, StatusCreated], ?_, fun hn => absurd hex hn⟩
    intro b hperm
    have hk : ∀ k, k ∈ b.keys ↔ k ∈ (Handler.batchVehicles body).keys := by
      intro k
      rw [← AList.mem_keys, ← AList.mem_keys]
      exact AList.mem_of_perm hperm
    rw [service_create_multiple_fails_iff r b]
    simp only [hk, hcoll]

/-- The payload with two records of identity 3, submitted over the example store, is
answered with Created and the second record is stored; the payload with identities 3
and 1 collides with the stored identity 1 and is answered with Conflict. -/
theorem batch_handler_keeps_last_of_repeated_identity_witness :
    (∀ k, (Handler.CreateMultiple mapHandler exampleStore
        (some ⟨[exampleJSON 3 "Toyota", exampleJSON 3 "Ford"]⟩)).1.db.lookup k =
      match [exampleJSON 3 "Toyota", exampleJSON 3 "Ford"].reverse.find?
          (fun j => decide (j.ID = k)) with
      | some j => some (Handler.vehicleOf j)
      | none => exampleStore.db.lookup k) ∧
    (Handler.CreateMultiple mapHandler exampleStore
        (some ⟨[exampleJSON 3 "Toyota", exampleJSON 3 "Ford"]⟩)).1.db.lookup 3 =
      some (Handler.vehicleOf (exampleJSON 3 "Ford")) ∧
    (Handler.CreateMultiple mapHandler exampleStore
      (some ⟨[exampleJSON 3 "Toyota", exampleJSON 1 "Ford"]⟩)).2 = some StatusConflict :=
  ⟨(batch_handler_keeps_last_of_repeated_identity exampleStore
      ⟨[exampleJSON 3 "Toyota", exampleJSON 3 "Ford"]⟩).2.2.2.2 (by decide),
    by decide,
    (batch_handler_keeps_last_of_repeated_identity exampleStore
      ⟨[exampleJSON 3 "Toyota", exampleJSON 1 "Ford"]⟩).2.1.mpr
      ⟨exampleJSON 1 "Ford", by decide, by decide⟩⟩

/-- A failure of a filtering query of the store, passed through the service's
translation for the store's error `E`, is reported as the not-found-by-criteria
error; a success is passed on. -/
theorem reportsAs_filter_query {σ : Type} (E : Sentinel) (st : σ)
    (res svc : σ × Option VMap × Option GoError)
    (hsvc : svc = match res with
      | (st1, v, some err) =>
        if err.Is E then
          (st1, none, some (.errorfWrap (.sentinel .ErrVehiclesNotFoundByCriteria) err))
        else
          (st1, v, none)
      | (st1, v, none) => (st1, v, none))
    (hres : res = (st, none, some (.sentinel E)) ∨ ∃ m : VMap, res = (st, some m, none)) :
    ReportsAs .ErrVehiclesNotFoundByCriteria res.2.2 svc.2.2 ∧ svc.1 = res.1 ∧
      svc.2.1 = res.2.1 := by
  rcases hres with h | ⟨m, h⟩
  · subst h
    have hsvc2 : svc = (st, none, some (.errorfWrap (.sentinel .ErrVehiclesNotFoundByCriteria)
        (.sentinel E))) := by
      rw [hsvc]; simp [GoError.Is]
    rw [hsvc2]
    exact ⟨reportsAs_wrap _ _, rfl, rfl⟩
  · subst h
    have hsvc2 : svc = (st, some m, none) := by rw [hsvc]
    rw [hsvc2]
    exact ⟨rfl, rfl, rfl⟩

/-- The two outcomes of the store's GetByColorAndYear. -/
theorem get_by_color_and_year_cases (r : VehicleMap) (color : String) (year : Int) :
    r.GetByColorAndYear color year =
        (r, none, some (.sentinel .ErrNoVehiclesByColorYearRepo)) ∨
    ∃ m : VMap, r.GetByColorAndYear color year = (r, some m, none) := by
  rcases filter_query_cases (fun x => x.Color = color ∧ x.FabricationYear = year) r
      .ErrNoVehiclesByColorYearRepo (r.GetByColorAndYear color year) rfl with
    ⟨hres, _⟩ | ⟨m, hres, _⟩
  · exact Or.inl hres
  · exact Or.inr ⟨m, hres⟩

/-- The two outcomes of the store's GetByBrandBetweenYears. -/
theorem get_by_brand_between_years_cases (r : VehicleMap) (brand : String)
    (yearStart yearEnd : Int) :
    r.GetByBrandBetweenYears brand yearStart yearEnd =
        (r, none, some (.sentinel .ErrNoVehiclesByBrandYearsRepo)) ∨
    ∃ m : VMap, r.GetByBrandBetweenYears brand yearStart yearEnd = (r, some m, none) := by
  rcases filter_query_cases
      (fun x => x.Brand = brand ∧ x.FabricationYear ≥ yearStart ∧
        x.FabricationYear ≤ yearEnd) r
      .ErrNoVehiclesByBrandYearsRepo (r.GetByBrandBetweenYears brand yearStart yearEnd)
      rfl with
    ⟨hres, _⟩ | ⟨m, hres, _⟩
  · exact Or.inl hres
  · exact Or.inr ⟨m, hres⟩

/-- The two outcomes of the store's ListByWeightRange. -/
theorem list_by_weight_range_cases (r : VehicleMap) (weightMin weightMax : F64) :
    r.ListByWeightRange weightMin weightMax =
        (r, none, some (.sentinel .ErrNoVehiclesByWeightRangeRepo)) ∨
    ∃ m : VMap, r.ListByWeightRange weightMin weightMax = (r, some m, none) := by
  rcases filter_query_cases
      (fun x => (x.Weight.ge weightMin &&
        x.Weight.le (if weightMax.eq F64.zero = true then F64.MaxFloat64 else weightMax)) = true)
      r .ErrNoVehiclesByWeightRangeRepo (r.ListByWeightRange weightMin weightMax) rfl with
    ⟨hres, _⟩ | ⟨m, hres, _⟩
  · exact Or.inl hres
  · exact Or.inr ⟨m, hres⟩

/-- C17: over the map store, the service reports every failure of Create and
CreateMultiple as ErrVehicleAlreadyExistsService, every failure of the six queries as
ErrVehiclesNotFoundByCriteria and every failure of Update and Delete as
ErrVehicleNotFoundService; the store's error stays in the chain of the returned
error, and the service fails only when the store does. -/
theorem service_error_translation (r : VehicleMap) :
    (∀ v, ReportsAs .ErrVehicleAlreadyExistsService (r.Create v).2 (mapService.Create r v).2) ∧
    (∀ v, ReportsAs .ErrVehicleAlreadyExistsService (r.CreateMultiple v).2
      (mapService.CreateMultiple r v).2) ∧
    (∀ color year, ReportsAs .ErrVehiclesNotFoundByCriteria
      (r.GetByColorAndYear color year).2.2 (mapService.GetByColorAndYear r color year).2.2) ∧
    (∀ brand yearStart yearEnd, ReportsAs .ErrVehiclesNotFoundByCriteria
      (r.GetByBrandBetweenYears brand yearStart yearEnd).2.2
      (mapService.GetByBrandBetweenYears r brand yearStart yearEnd).2.2) ∧
    (∀ weightMin weightMax, ReportsAs .ErrVehiclesNotFoundByCriteria
      (r.ListByWeightRange weightMin weightMax).2.2
      (mapService.ListByWeightRange r weightMin weightMax).2.2) ∧
    (∀ d, ReportsAs .ErrVehiclesNotFoundByCriteria
      (r.ListByDimensions (boundOrDefault d "min_length" F64.zero)
        (boundOrDefault d "max_length" F64.MaxFloat64) (boundOrDefault d "min_width" F64.zero)
        (boundOrDefault d "max_width" F64.MaxFloat64)).2.2
      (mapService.ListByDimensions r d).2.2) ∧
    (∀ brand, ReportsAs .ErrVehiclesNotFoundByCriteria
      (r.GetSpeedAvgByBrand brand).2.2 (mapService.GetSpeedAvgByBrand r brand).2.2) ∧
    (∀ brand, ReportsAs .ErrVehiclesNotFoundByCriteria
      (r.GetAverageCapacityByBrand brand).2.2
      (mapService.GetAverageCapacityByBrand r brand).2.2) ∧
    (∀ v, ReportsAs .ErrVehicleNotFoundService (r.Update v).2 (mapService.Update r v).2) ∧
    (∀ id, ReportsAs .ErrVehicleNotFoundService (r.Delete id).2 (mapService.Delete r id).2) := by
  refine ⟨?_, ?_, ?_, ?_, ?_, ?_, ?_, ?_, ?_, ?_⟩
  · intro v
    by_cases h : v.Id ∈ r.db.keys
    · rw [(create_eq r v).1 h, (service_create_eq r v).1 h]
      exact reportsAs_wrap _ _
    · rw [(create_eq r v).2 h, (service_create_eq r v).2 h]
      rfl
  · intro v
    rw [service_create_multiple_eq]
    cases (r.CreateMultiple v).2 with
    | none => rfl
    | some e => exact reportsAs_wrap _ _
  · intro color year
    exact (reportsAs_filter_query .ErrNoVehiclesByColorYearRepo r _
      (mapService.GetByColorAndYear r color year) (by rfl)
      (get_by_color_and_year_cases r color year)).1
  · intro brand yearStart yearEnd
    exact (reportsAs_filter_query .ErrNoVehiclesByBrandYearsRepo r _
      (mapService.GetByBrandBetweenYears r brand yearStart yearEnd) (by rfl)
      (get_by_brand_between_years_cases r brand yearStart yearEnd)).1
  · intro weightMin weightMax
    exact (reportsAs_filter_query .ErrNoVehiclesByWeightRangeRepo r _
      (mapService.ListByWeightRange r weightMin weightMax) (by rfl)
      (list_by_weight_range_cases r weightMin weightMax)).1
  · intro d
    exact (reportsAs_filter_query .ErrNoVehiclesByDimensionsRepo r _ _
      (service_list_by_dimensions_eq mapService r d) (list_by_dimensions_cases r _ _ _ _)).1
  · intro brand
    rw [get_speed_avg_eq, service_get_speed_avg_eq]
    by_cases h : ((brandRecords r.db brand).length : Int) = 0
    · simp only [h, if_true]; exact reportsAs_wrap _ _
    · simp only [h, if_false]; rfl
  · intro brand
    rw [get_average_capacity_eq, service_get_average_capacity_eq]
    by_cases h : ((brandRecords r.db brand).length : Int) = 0
    · simp only [h, if_true]; exact reportsAs_wrap _ _
    · simp only [h, if_false]; rfl
  · intro v
    by_cases h : v.Id ∈ r.db.keys
    · rw [(update_eq r v).2 h, (service_update_eq r v).2 h]
      rfl
    · rw [(update_eq r v).1 h, (service_update_eq r v).1 h]
      exact reportsAs_wrap _ _
  · intro id
    by_cases h : id ∈ r.db.keys
    · rw [(delete_eq r id).2 h, (service_delete_eq r id).2 h]
      rfl
    · rw [(delete_eq r id).1 h, (service_delete_eq r id).1 h]
      exact reportsAs_wrap _ _

/-- On the example store, creating the stored identity 1 through the service fails
with ErrVehicleAlreadyExistsService wrapped around the store's error, and deleting
the unknown identity 9 fails with ErrVehicleNotFoundService wrapped around the
store's error. -/
theorem service_error_translation_witness :
    ReportsAs .ErrVehicleAlreadyExistsService
      (exampleStore.Create (exampleVehicle 1 "Fiat" "green" 2020 7 7 7)).2
      (mapService.Create exampleStore (exampleVehicle 1 "Fiat" "green" 2020 7 7 7)).2 ∧
    (mapService.Create exampleStore (exampleVehicle 1 "Fiat" "green" 2020 7 7 7)).2 =
      some (.errorfWrap (.sentinel .ErrVehicleAlreadyExistsService)
        (.sentinel .ErrVehicleAlreadyExistsRepo)) ∧
    ReportsAs .ErrVehicleNotFoundService (exampleStore.Delete 9).2
      (mapService.Delete exampleStore 9).2 ∧
    (mapService.Delete exampleStore 9).2 =
      some (.errorfWrap (.sentinel .ErrVehicleNotFoundService)
        (.sentinel .ErrVehicleNotFoundRepo)) :=
  ⟨(service_error_translation exampleStore).1 _, by decide,
    (service_error_translation exampleStore).2.2.2.2.2.2.2.2.2 9, by decide⟩

/-- C18 does not hold of the code: over a repository whose methods fail with an
error that the service method does not test for, Create, CreateMultiple, the six
queries, Update and Delete return a nil error although the repository call failed;
FindAll alone passes the repository's error on. -/
theorem service_drops_unmatched_repository_error :
    ((failingRepository (.sentinel .ErrVehicleNotFoundRepo)).Create ()
      (exampleVehicle 1 "Toyota" "red" 2000 10 3 1)).2
        = some (.sentinel .ErrVehicleNotFoundRepo) ∧
    ((NewVehicleDefault (failingRepository (.sentinel .ErrVehicleNotFoundRepo))).Create ()
      (exampleVehicle 1 "Toyota" "red" 2000 10 3 1)).2 = none ∧
    ((NewVehicleDefault (failingRepository (.sentinel .ErrVehicleNotFoundRepo))).CreateMultiple ()
      exampleBatch).2 = none ∧
    ((NewVehicleDefault (failingRepository (.sentinel .ErrVehicleNotFoundRepo))).GetByColorAndYear
      () "red" 2000).2.2 = none ∧
    ((NewVehicleDefault
      (failingRepository (.sentinel .ErrVehicleNotFoundRepo))).GetByBrandBetweenYears
      () "Toyota" 2000 2010).2.2 = none ∧
    ((NewVehicleDefault (failingRepository (.sentinel .ErrVehicleNotFoundRepo))).ListByWeightRange
      () (.fin 10) (.fin 20)).2.2 = none ∧
    ((NewVehicleDefault (failingRepository (.sentinel .ErrVehicleNotFoundRepo))).ListByDimensions
      () ∅).2.2 = none ∧
    ((NewVehicleDefault (failingRepository (.sentinel .ErrVehicleNotFoundRepo))).GetSpeedAvgByBrand
      () "Toyota").2.2 = none ∧
    ((NewVehicleDefault
      (failingRepository (.sentinel .ErrVehicleNotFoundRepo))).GetAverageCapacityByBrand
      () "Toyota").2.2 = none ∧
    ((NewVehicleDefault (failingRepository (.sentinel .ErrVehicleAlreadyExistsRepo))).Update ()
      (exampleVehicle 1 "Toyota" "red" 2000 10 3 1)).2 = none ∧
    ((NewVehicleDefault (failingRepository (.sentinel .ErrVehicleAlreadyExistsRepo))).Delete ()
      1).2 = none ∧
    ((NewVehicleDefault (failingRepository (.sentinel .ErrVehicleNotFoundRepo))).FindAll ()).2.2
      = some (.sentinel .ErrVehicleNotFoundRepo) := by
  refine ⟨rfl, ?_, ?_, ?_, ?_, ?_, ?_, ?_, ?_, ?_, ?_, rfl⟩ <;> decide

/-- C19: over the map store the service's FindAll returns what the store's FindAll
returns, and the service's Create, Update and Delete succeed exactly when the store's
call succeeds and leave the store in the state the store's call leaves it in. -/
theorem service_passes_through (r : VehicleMap) :
    mapService.FindAll r = r.FindAll ∧
    (∀ v, ((mapService.Create r v).2 = none ↔ (r.Create v).2 = none) ∧
      (mapService.Create r v).1 = (r.Create v).1) ∧
    (∀ v, ((mapService.Update r v).2 = none ↔ (r.Update v).2 = none) ∧
      (mapService.Update r v).1 = (r.Update v).1) ∧
    (∀ id, ((mapService.Delete r id).2 = none ↔ (r.Delete id).2 = none) ∧
      (mapService.Delete r id).1 = (r.Delete id).1) := by
  refine ⟨rfl, ?_, ?_, ?_⟩
  · intro v
    by_cases h : v.Id ∈ r.db.keys
    · rw [(create_eq r v).1 h, (service_create_eq r v).1 h]; simp
    · rw [(create_eq r v).2 h, (service_create_eq r v).2 h]; simp
  · intro v
    by_cases h : v.Id ∈ r.db.keys
    · rw [(update_eq r v).2 h, (service_update_eq r v).2 h]; simp
    · rw [(update_eq r v).1 h, (service_update_eq r v).1 h]; simp
  · intro id
    by_cases h : id ∈ r.db.keys
    · rw [(delete_eq r id).2 h, (service_delete_eq r id).2 h]; simp
    · rw [(delete_eq r id).1 h, (service_delete_eq r id).1 h]; simp

/-- On the example store the service's FindAll is the store's, creating the new
identity 3 succeeds through the service and leaves the state the store's Create
leaves, and deleting the unknown identity 9 fails at both levels. -/
theorem service_passes_through_witness :
    mapService.FindAll exampleStore = exampleStore.FindAll ∧
    (mapService.Create exampleStore (exampleVehicle 3 "Fiat" "green" 2020 7 7 7)).2 = none ∧
    (mapService.Create exampleStore (exampleVehicle 3 "Fiat" "green" 2020 7 7 7)).1 =
      (exampleStore.Create (exampleVehicle 3 "Fiat" "green" 2020 7 7 7)).1 ∧
    ¬ (mapService.Delete exampleStore 9).2 = none :=
  ⟨(service_passes_through exampleStore).1,
    ((service_passes_through exampleStore).2.1 _).1.mpr (by decide),
    ((service_passes_through exampleStore).2.1 _).2,
    fun h => absurd (((service_passes_through exampleStore).2.2.2 9).1.mp h) (by decide)⟩

/-- The loop of FindAll on references writes its copy at the fresh address and
nowhere else. -/
theorem foldl_heap_copy (ms : List VMap) (l : List (Sigma fun _ : Int => Vehicle)) (acc : VMap) :
    l.foldl (fun (heap : MapHeap) e => heap.write ms.length e.1 e.2) ⟨ms ++ [acc]⟩ =
      ⟨ms ++ [l.foldl (fun (a : VMap) e => a.insert e.1 e.2) acc]⟩ := by
  induction l generalizing acc with
  | nil => rfl
  | cons e l ih =>
    rw [List.foldl_cons, List.foldl_cons]
    have hw : (MapHeap.mk (ms ++ [acc])).write ms.length e.1 e.2 =
        ⟨ms ++ [acc.insert e.1 e.2]⟩ := by
      simp [MapHeap.write, MapHeap.get, MapHeap.set]
    rw [hw]
    exact ih _

/-- FindAll on references, when the store's map is allocated: the result is a fresh
address that holds the copy, and the rest of the heap is as before. -/
theorem find_all_ref_eq (ref : VehicleMapRef) (h : MapHeap) (m : VMap)
    (hm : h.get ref.db = some m) :
    ref.FindAll h =
      (⟨h.maps ++ [m.entries.foldl (fun (a : VMap) e => a.insert e.1 e.2) ∅]⟩,
        some h.maps.length, none) := by
  have hlt : ref.db < h.maps.length := by
    unfold MapHeap.get at hm
    by_contra hge
    rw [List.getElem?_eq_none (Nat.le_of_not_lt hge)] at hm
    simp at hm
  have hget : (MapHeap.mk (h.maps ++ [∅])).get ref.db = some m := by
    unfold MapHeap.get at hm ⊢
    rw [List.getElem?_append_left hlt]
    exact hm
  unfold VehicleMapRef.FindAll MapHeap.make
  simp only [hget]
  rw [foldl_heap_copy]

/-- C20: FindAll always succeeds, also on an empty store, where it returns an empty
map; the map it returns has exactly the keys of the store, each with the record the
store holds under it, and the store is the same after the call as before. On
references, the returned map is a separate value: its address is fresh, different
from the address of the store's map, it holds the copy, every map allocated before is
as it was, and whatever is later written at the returned address, the store's map
stays as it was. -/
theorem find_all_returns_copy (r : VehicleMap) :
    r.FindAll.2.2 = none ∧
    r.FindAll.1 = r ∧
    (∃ m : VMap, r.FindAll.2.1 = some m ∧
      (∀ k, m.lookup k = r.db.lookup k) ∧
      (∀ k, k ∈ m.keys ↔ k ∈ r.db.keys) ∧
      m.entries.Perm r.db.entries ∧
      (r.db.entries = [] → m.entries = [])) ∧
    (∀ (h : MapHeap) (ref : VehicleMapRef), h.get ref.db = some r.db →
      ∃ v : Nat, (ref.FindAll h).2 = (some v, none) ∧
        v ≠ ref.db ∧
        h.get v = none ∧
        (ref.FindAll h).1.get v = r.FindAll.2.1 ∧
        (ref.FindAll h).1.get ref.db = some r.db ∧
        (∀ a, a ≠ v → (ref.FindAll h).1.get a = h.get a) ∧
        (∀ m2 : VMap, ((ref.FindAll h).1.set v m2).get ref.db = some r.db) ∧
        (∀ key value, ((ref.FindAll h).1.write v key value).get ref.db = some r.db)) := by
  refine ⟨rfl, rfl, ⟨_, rfl, lookup_copy_all r.db, ?_, ?_, ?_⟩, ?_⟩
  · intro k
    rw [mem_keys_iff_isSome, mem_keys_iff_isSome, lookup_copy_all]
  · apply List.lookup_ext (AList.nodupKeys _) r.db.nodupKeys
    intro x y
    have h := lookup_copy_all r.db x
    unfold AList.lookup at h
    rw [h]
  · intro hnil
    rw [hnil]
    rfl
  · intro h ref hm
    have hlt : ref.db < h.maps.length := by
      unfold MapHeap.get at hm
      by_contra hge
      rw [List.getElem?_eq_none (Nat.le_of_not_lt hge)] at hm
      simp at hm
    have hne : h.maps.length ≠ ref.db := Nat.ne_of_gt hlt
    have hold : ∀ a, a ≠ h.maps.length →
        (MapHeap.mk (h.maps ++
          [r.db.entries.foldl (fun (a : VMap) e => a.insert e.1 e.2) ∅])).get a = h.get a := by
      intro a ha
      unfold MapHeap.get
      rcases Nat.lt_or_gt_of_ne ha with hlt2 | hgt
      · rw [List.getElem?_append_left hlt2]
      · rw [List.getElem?_eq_none (by simp; omega), List.getElem?_eq_none (by omega)]
    have hold2 : ∀ m2 : VMap,
        ((MapHeap.mk (h.maps ++
          [r.db.entries.foldl (fun (a : VMap) e => a.insert e.1 e.2) ∅])).set
            h.maps.length m2).get ref.db = some r.db := by
      intro m2
      unfold MapHeap.set MapHeap.get
      rw [List.getElem?_set_ne hne, List.getElem?_append_left hlt]
      exact hm
    rw [find_all_ref_eq ref h r.db hm]
    refine ⟨h.maps.length, rfl, hne, ?_, ?_, ?_, hold, hold2, ?_⟩
    · unfold MapHeap.get
      exact List.getElem?_eq_none (Nat.le_refl _)
    · simp [MapHeap.get, VehicleMap.FindAll]
    · rw [hold ref.db (Ne.symm hne)]
      exact hm
    · intro key value
      unfold MapHeap.write
      cases hv : (MapHeap.mk (h.maps ++
          [r.db.entries.foldl (fun (a : VMap) e => a.insert e.1 e.2) ∅])).get h.maps.length with
      | none =>
        simp only [hv]
        rw [hold ref.db (Ne.symm hne)]
        exact hm
      | some m3 =>
        simp only [hv]
        exact hold2 _

/-- On the empty store FindAll succeeds with an empty map; on the example store it
returns the two records. On a heap that holds the example store's map at address 0,
FindAll returns the fresh address 1, and a write at address 1 leaves the map at
address 0 as it was. -/
theorem find_all_returns_copy_witness :
    (NewVehicleMap none).FindAll.2.2 = none ∧
    (NewVehicleMap none).FindAll.2.1.map AList.entries = some [] ∧
    exampleStore.FindAll.2.2 = none ∧
    (∃ m : VMap, exampleStore.FindAll.2.1 = some m ∧
      (∀ k, m.lookup k = exampleStore.db.lookup k) ∧
      (∀ k, k ∈ m.keys ↔ k ∈ exampleStore.db.keys) ∧
      m.entries.Perm exampleStore.db.entries ∧
      (exampleStore.db.entries = [] → m.entries = [])) ∧
    ((VehicleMapRef.mk 0).FindAll ⟨[exampleStore.db]⟩).2 = (some 1, none) ∧
    ∃ v : Nat, ((VehicleMapRef.mk 0).FindAll ⟨[exampleStore.db]⟩).2 = (some v, none) ∧
      v ≠ 0 ∧
      (MapHeap.mk [exampleStore.db]).get v = none ∧
      ((VehicleMapRef.mk 0).FindAll ⟨[exampleStore.db]⟩).1.get v = exampleStore.FindAll.2.1 ∧
      ((VehicleMapRef.mk 0).FindAll ⟨[exampleStore.db]⟩).1.get 0 = some exampleStore.db ∧
      (∀ a, a ≠ v → ((VehicleMapRef.mk 0).FindAll ⟨[exampleStore.db]⟩).1.get a =
        (MapHeap.mk [exampleStore.db]).get a) ∧
      (∀ m2 : VMap, (((VehicleMapRef.mk 0).FindAll ⟨[exampleStore.db]⟩).1.set v m2).get 0 =
        some exampleStore.db) ∧
      (∀ key value, (((VehicleMapRef.mk 0).FindAll ⟨[exampleStore.db]⟩).1.write v key
        value).get 0 = some exampleStore.db) :=
  ⟨(find_all_returns_copy (NewVehicleMap none)).1, by decide,
    (find_all_returns_copy exampleStore).1, (find_all_returns_copy exampleStore).2.2.1,
    by decide,
    (find_all_returns_copy exampleStore).2.2.2 ⟨[exampleStore.db]⟩ ⟨0⟩ rfl⟩

/-- The key/identity predicate read through lookups. -/
theorem keysAreIds_iff_lookup (m : VMap) :
    KeysAreIds m ↔ ∀ k rec, m.lookup k = some rec → rec.Id = k := by
  unfold KeysAreIds
  constructor
  · intro h k rec hk
    exact h ⟨k, rec⟩ ((mem_entries_iff_lookup m k rec).mpr hk)
  · rintro h ⟨k, rec⟩ hmem
    exact h k rec ((mem_entries_iff_lookup m k rec).mp hmem)

/-- Inserting a record under its own identity keeps the key/identity predicate. -/
theorem keysAreIds_insert (m : VMap) (v : Vehicle) (h : KeysAreIds m) :
    KeysAreIds (m.insert v.Id v) := by
  rw [keysAreIds_iff_lookup] at h ⊢
  intro k rec hk
  by_cases hkv : k = v.Id
  · subst hkv
    rw [AList.lookup_insert] at hk
    simp only [Option.some.injEq] at hk
    rw [← hk]
  · rw [AList.lookup_insert_ne hkv] at hk
    exact h k rec hk

/-- Erasing a key keeps the key/identity predicate. -/
theorem keysAreIds_erase (m : VMap) (id : Int) (h : KeysAreIds m) :
    KeysAreIds (m.erase id) := by
  rw [keysAreIds_iff_lookup] at h ⊢
  intro k rec hk
  by_cases hkv : k = id
  · subst hkv
    rw [AList.lookup_erase] at hk
    simp at hk
  · rw [AList.lookup_erase_ne hkv] at hk
    exact h k rec hk

/-- C23: the predicate that every key of the store maps to a record with that
identity is preserved by Create, Update and Delete, and by CreateMultiple when every
batch entry is keyed by the identity of its record. It is not preserved in general:
CreateMultiple stores a batch entry 5 -> record with identity 7 under the key 5, and
NewVehicleMap adopts a seed map that violates the predicate. -/
theorem key_identity_invariant :
    (∀ (r : VehicleMap) (v : Vehicle), KeysAreIds r.db → KeysAreIds (r.Create v).1.db) ∧
    (∀ (r : VehicleMap) (v : Vehicle), KeysAreIds r.db → KeysAreIds (r.Update v).1.db) ∧
    (∀ (r : VehicleMap) (id : Int), KeysAreIds r.db → KeysAreIds (r.Delete id).1.db) ∧
    (∀ (r : VehicleMap) (v : VMap), KeysAreIds r.db → KeysAreIds v →
      KeysAreIds (r.CreateMultiple v).1.db) ∧
    (KeysAreIds exampleStore.db ∧
      (exampleStore.CreateMultiple
        (AList.insert 5 (exampleVehicle 7 "Fiat" "green" 2020 7 7 7) ∅)).2 = none ∧
      (exampleStore.CreateMultiple
        (AList.insert 5 (exampleVehicle 7 "Fiat" "green" 2020 7 7 7) ∅)).1.db.lookup 5 =
        some (exampleVehicle 7 "Fiat" "green" 2020 7 7 7) ∧
      ¬ KeysAreIds (exampleStore.CreateMultiple
        (AList.insert 5 (exampleVehicle 7 "Fiat" "green" 2020 7 7 7) ∅)).1.db) ∧
    ((NewVehicleMap (some (AList.insert 5 (exampleVehicle 7 "Fiat" "green" 2020 7 7 7) ∅))).db =
        AList.insert 5 (exampleVehicle 7 "Fiat" "green" 2020 7 7 7) ∅ ∧
      ¬ KeysAreIds
        (NewVehicleMap (some (AList.insert 5 (exampleVehicle 7 "Fiat" "green" 2020 7 7 7) ∅))).db)
    := by
  refine ⟨?_, ?_, ?_, ?_, ⟨by decide, by decide, by decide, by decide⟩,
    ⟨rfl, by decide⟩⟩
  · intro r v h
    by_cases hk : v.Id ∈ r.db.keys
    · rw [(create_eq r v).1 hk]; exact h
    · rw [(create_eq r v).2 hk]; exact keysAreIds_insert r.db v h
  · intro r v h
    by_cases hk : v.Id ∈ r.db.keys
    · rw [(update_eq r v).2 hk]; exact keysAreIds_insert r.db v h
    · rw [(update_eq r v).1 hk]; exact h
  · intro r id h
    by_cases hk : id ∈ r.db.keys
    · rw [(delete_eq r id).2 hk]; exact keysAreIds_erase r.db id h
    · rw [(delete_eq r id).1 hk]; exact h
  · intro r v hr hv
    rw [keysAreIds_iff_lookup] at hr hv ⊢
    intro k rec hk
    rcases create_multiple_cases r v with
      ⟨_, _, hlook⟩ | ⟨key, _, _, _, pre, hsub, _, hlook⟩
    · rw [hlook k] at hk
      cases hvk : v.lookup k with
      | none => rw [hvk] at hk; exact hr k rec hk
      | some x =>
        rw [hvk] at hk
        simp only [Option.some.injEq] at hk
        rw [← hk]
        exact hv k x hvk
    · rw [hlook k] at hk
      cases hpk : pre.dlookup k with
      | none => rw [hpk] at hk; exact hr k rec hk
      | some x =>
        rw [hpk] at hk
        simp only [Option.some.injEq] at hk
        rw [← hk]
        have hmem : (⟨k, x⟩ : Sigma fun _ : Int => Vehicle) ∈ pre :=
          List.of_mem_dlookup (by rw [hpk]; exact Option.mem_def.mpr rfl)
        exact hv k x ((mem_entries_iff_lookup v k x).mp (hsub.subset hmem))

/-- The example store satisfies the predicate and still does after creating identity
3, after deleting identity 1 and after the example batch, whose entries are keyed by
their identities. -/
theorem key_identity_invariant_witness :
    KeysAreIds (exampleStore.Create (exampleVehicle 3 "Fiat" "green" 2020 7 7 7)).1.db ∧
    KeysAreIds (exampleStore.Update (exampleVehicle 1 "Fiat" "green" 2020 7 7 7)).1.db ∧
    KeysAreIds (exampleStore.Delete 1).1.db ∧
    KeysAreIds (exampleStore.CreateMultiple exampleBatch).1.db :=
  ⟨key_identity_invariant.1 exampleStore _ (by decide),
    key_identity_invariant.2.1 exampleStore _ (by decide),
    key_identity_invariant.2.2.1 exampleStore 1 (by decide),
    key_identity_invariant.2.2.2.1 exampleStore exampleBatch (by decide) (by decide)⟩

/-- A filtering query of the store is read-only. -/
theorem readOnly_filter_query (p : Vehicle → Prop) [DecidablePred p] (r : VehicleMap)
    (E : Sentinel) (res : VehicleMap × Option VMap × Option GoError)
    (hres : res =
      if (r.db.entries.foldl (fun (acc : VMap) e => if p e.2 then acc.insert e.1 e.2 else acc)
          ∅).entries.length = 0
      then (r, none, some (.sentinel E))
      else (r, some (r.db.entries.foldl
        (fun (acc : VMap) e => if p e.2 then acc.insert e.1 e.2 else acc) ∅), none)) :
    ReadOnlyListing r res := by
  rcases filter_query_cases p r E res hres with ⟨h, _⟩ | ⟨m, h, _, _, hexact⟩
  · rw [h]
    exact ⟨rfl, fun m hm => by simp at hm⟩
  · rw [h]
    refine ⟨rfl, fun m2 hm k rec hk => ?_⟩
    simp only [Option.some.injEq] at hm
    subst hm
    exact ((hexact k rec).mp hk).1

/-- A service result with the state and the map of a read-only store result is
read-only. -/
theorem readOnly_of_eq (r : VehicleMap) (res svc : VehicleMap × Option VMap × Option GoError)
    (h : ReadOnlyListing r res) (h1 : svc.1 = res.1) (h2 : svc.2.1 = res.2.1) :
    ReadOnlyListing r svc :=
  ⟨h1.trans h.1, fun m hm => h.2 m (h2 ▸ hm)⟩

/-- C24: the queries are read-only. FindAll, GetByColorAndYear,
GetByBrandBetweenYears, ListByWeightRange, ListByDimensions, GetSpeedAvgByBrand and
GetAverageCapacityByBrand return the store state they were called in, whether they
succeed or fail, at the store and through the service, and every entry of a returned
map is an entry of the store. -/
theorem queries_are_read_only (r : VehicleMap) :
    ReadOnlyListing r r.FindAll ∧
    ReadOnlyListing r (mapService.FindAll r) ∧
    (∀ color year, ReadOnlyListing r (r.GetByColorAndYear color year) ∧
      ReadOnlyListing r (mapService.GetByColorAndYear r color year)) ∧
    (∀ brand yearStart yearEnd,
      ReadOnlyListing r (r.GetByBrandBetweenYears brand yearStart yearEnd) ∧
      ReadOnlyListing r (mapService.GetByBrandBetweenYears r brand yearStart yearEnd)) ∧
    (∀ weightMin weightMax, ReadOnlyListing r (r.ListByWeightRange weightMin weightMax) ∧
      ReadOnlyListing r (mapService.ListByWeightRange r weightMin weightMax)) ∧
    (∀ minLength maxLength minWidth maxWidth,
      ReadOnlyListing r (r.ListByDimensions minLength maxLength minWidth maxWidth)) ∧
    (∀ d, ReadOnlyListing r (mapService.ListByDimensions r d)) ∧
    (∀ brand, (r.GetSpeedAvgByBrand brand).1 = r ∧
      (mapService.GetSpeedAvgByBrand r brand).1 = r) ∧
    (∀ brand, (r.GetAverageCapacityByBrand brand).1 = r ∧
      (mapService.GetAverageCapacityByBrand r brand).1 = r) := by
  have hall : ReadOnlyListing r r.FindAll := by
    refine ⟨rfl, fun m hm k rec hk => ?_⟩
    have hm2 : m = r.db.entries.foldl (fun (acc : VMap) e => acc.insert e.1 e.2) ∅ := by
      have : r.FindAll.2.1 = some (r.db.entries.foldl
          (fun (acc : VMap) e => acc.insert e.1 e.2) ∅) := rfl
      rw [this] at hm
      simp only [Option.some.injEq] at hm
      exact hm.symm
    rw [hm2, lookup_copy_all] at hk
    exact hk
  have hdim : ∀ a b c e, ReadOnlyListing r (r.ListByDimensions a b c e) := fun a b c e =>
    readOnly_filter_query
      (fun x => (x.Length.ge a && x.Length.le b && x.Width.ge c && x.Width.le e) = true)
      r .ErrNoVehiclesByDimensionsRepo _ rfl
  refine ⟨hall, hall, ?_, ?_, ?_, hdim, ?_, ?_, ?_⟩
  · intro color year
    have hs : ReadOnlyListing r (r.GetByColorAndYear color year) :=
      readOnly_filter_query (fun x => x.Color = color ∧ x.FabricationYear = year) r
        .ErrNoVehiclesByColorYearRepo _ rfl
    have ht := reportsAs_filter_query .ErrNoVehiclesByColorYearRepo r _
      (mapService.GetByColorAndYear r color year) (by rfl)
      (get_by_color_and_year_cases r color year)
    exact ⟨hs, readOnly_of_eq r _ _ hs ht.2.1 ht.2.2⟩
  · intro brand yearStart yearEnd
    have hs : ReadOnlyListing r (r.GetByBrandBetweenYears brand yearStart yearEnd) :=
      readOnly_filter_query
        (fun x => x.Brand = brand ∧ x.FabricationYear ≥ yearStart ∧
          x.FabricationYear ≤ yearEnd) r .ErrNoVehiclesByBrandYearsRepo _ rfl
    have ht := reportsAs_filter_query .ErrNoVehiclesByBrandYearsRepo r _
      (mapService.GetByBrandBetweenYears r brand yearStart yearEnd) (by rfl)
      (get_by_brand_between_years_cases r brand yearStart yearEnd)
    exact ⟨hs, readOnly_of_eq r _ _ hs ht.2.1 ht.2.2⟩
  · intro weightMin weightMax
    have hs : ReadOnlyListing r (r.ListByWeightRange weightMin weightMax) :=
      readOnly_filter_query
        (fun x => (x.Weight.ge weightMin &&
          x.Weight.le (if weightMax.eq F64.zero = true then F64.MaxFloat64 else weightMax))
            = true) r .ErrNoVehiclesByWeightRangeRepo _ rfl
    have ht := reportsAs_filter_query .ErrNoVehiclesByWeightRangeRepo r _
      (mapService.ListByWeightRange r weightMin weightMax) (by rfl)
      (list_by_weight_range_cases r weightMin weightMax)
    exact ⟨hs, readOnly_of_eq r _ _ hs ht.2.1 ht.2.2⟩
  · intro d
    have ht := reportsAs_filter_query .ErrNoVehiclesByDimensionsRepo r _ _
      (service_list_by_dimensions_eq mapService r d) (list_by_dimensions_cases r _ _ _ _)
    exact readOnly_of_eq r _ _ (hdim _ _ _ _) ht.2.1 ht.2.2
  · intro brand
    rw [get_speed_avg_eq, service_get_speed_avg_eq]
    by_cases h : ((brandRecords r.db brand).length : Int) = 0 <;> simp [h]
  · intro brand
    rw [get_average_capacity_eq, service_get_average_capacity_eq]
    by_cases h : ((brandRecords r.db brand).length : Int) = 0 <;> simp [h]

/-- On the example store the failing query for purple vehicles of 1899 and the
succeeding query for weights 10 to 20 both leave the store as it was, and the entries
the second one returns are entries of the store. -/
theorem queries_are_read_only_witness :
    (exampleStore.GetByColorAndYear "purple" 1899).2.2 ≠ none ∧
    ReadOnlyListing exampleStore (exampleStore.GetByColorAndYear "purple" 1899) ∧
    (exampleStore.ListByWeightRange (.fin 10) (.fin 20)).2.2 = none ∧
    ReadOnlyListing exampleStore (mapService.ListByWeightRange exampleStore (.fin 10) (.fin 20)) :=
  ⟨by decide, ((queries_are_read_only exampleStore).2.2.1 "purple" 1899).1, by decide,
    ((queries_are_read_only exampleStore).2.2.2.2.1 (.fin 10) (.fin 20)).2⟩

/-- No value lies between a lower bound and a smaller upper bound. -/
theorem F64.not_between_of_gt (a b x : F64) (h : a.gt b = true) :
    ¬ (a.le x = true ∧ x.le b = true) := by
  cases a <;> cases b <;> cases x <;> simp [F64.gt, F64.lt, F64.le] at h ⊢
  intro h1
  linarith

/-- C26: reversed bounds give an error, not a swapped range. GetByBrandBetweenYears
with yearStart greater than yearEnd fails with the not-found-by-criteria error, the
store's ListByDimensions fails when minLength is greater than maxLength or minWidth
is greater than maxWidth, and ListByWeightRange fails when weightMax is not zero and
weightMin is greater than weightMax. -/
theorem reversed_bounds_fail (r : VehicleMap) :
    (∀ brand yearStart yearEnd, yearStart > yearEnd →
      (r.GetByBrandBetweenYears brand yearStart yearEnd).2 =
        (none, some (.sentinel .ErrNoVehiclesByBrandYearsRepo)) ∧
      FailsWith (mapService.GetByBrandBetweenYears r brand yearStart yearEnd).2.2
        .ErrVehiclesNotFoundByCriteria) ∧
    (∀ minLength maxLength minWidth maxWidth,
      (minLength.gt maxLength = true ∨ minWidth.gt maxWidth = true) →
      (r.ListByDimensions minLength maxLength minWidth maxWidth).2 =
        (none, some (.sentinel .ErrNoVehiclesByDimensionsRepo))) ∧
    (∀ weightMin weightMax, weightMax.eq F64.zero = false → weightMin.gt weightMax = true →
      (r.ListByWeightRange weightMin weightMax).2 =
        (none, some (.sentinel .ErrNoVehiclesByWeightRangeRepo)) ∧
      FailsWith (mapService.ListByWeightRange r weightMin weightMax).2.2
        .ErrVehiclesNotFoundByCriteria) := by
  refine ⟨?_, ?_, ?_⟩
  · intro brand yearStart yearEnd hrev
    rcases filter_query_cases
        (fun x => x.Brand = brand ∧ x.FabricationYear ≥ yearStart ∧
          x.FabricationYear ≤ yearEnd) r .ErrNoVehiclesByBrandYearsRepo
        (r.GetByBrandBetweenYears brand yearStart yearEnd) rfl with
      ⟨hres, _⟩ | ⟨m, _, _, ⟨k, rec, _, _, h1, h2⟩, _⟩
    · have ht := reportsAs_filter_query .ErrNoVehiclesByBrandYearsRepo r _
        (mapService.GetByBrandBetweenYears r brand yearStart yearEnd) (by rfl)
        (get_by_brand_between_years_cases r brand yearStart yearEnd)
      rw [hres] at ht ⊢
      obtain ⟨e, he, his, _⟩ := ht.1
      exact ⟨rfl, e, he, his⟩
    · exfalso
      omega
  · intro minLength maxLength minWidth maxWidth hrev
    rcases filter_query_cases
        (fun x => (x.Length.ge minLength && x.Length.le maxLength
          && x.Width.ge minWidth && x.Width.le maxWidth) = true)
        r .ErrNoVehiclesByDimensionsRepo
        (r.ListByDimensions minLength maxLength minWidth maxWidth) rfl with
      ⟨hres, _⟩ | ⟨m, _, _, ⟨k, rec, _, hp⟩, _⟩
    · rw [hres]
    · exfalso
      simp only [F64.ge, Bool.and_eq_true] at hp
      rcases hrev with h | h
      · exact F64.not_between_of_gt _ _ _ h ⟨hp.1.1.1, hp.1.1.2⟩
      · exact F64.not_between_of_gt _ _ _ h ⟨hp.1.2, hp.2⟩
  · intro weightMin weightMax hnz hrev
    rcases filter_query_cases
        (fun x => (x.Weight.ge weightMin &&
          x.Weight.le (if weightMax.eq F64.zero = true then F64.MaxFloat64 else weightMax))
            = true) r .ErrNoVehiclesByWeightRangeRepo
        (r.ListByWeightRange weightMin weightMax) rfl with
      ⟨hres, _⟩ | ⟨m, _, _, ⟨k, rec, _, hp⟩, _⟩
    · have ht := reportsAs_filter_query .ErrNoVehiclesByWeightRangeRepo r _
        (mapService.ListByWeightRange r weightMin weightMax) (by rfl)
        (list_by_weight_range_cases r weightMin weightMax)
      rw [hres] at ht ⊢
      obtain ⟨e, he, his, _⟩ := ht.1
      exact ⟨rfl, e, he, his⟩
    · exfalso
      simp only [F64.ge, Bool.and_eq_true, hnz, Bool.false_eq_true, if_false] at hp
      exact F64.not_between_of_gt _ _ _ hrev ⟨hp.1, hp.2⟩

/-- On the example store, whose Toyota is of the year 2000 and whose weights are 10
and 20, the year range 2010 to 1990, the length range 4 to 3 and the weight range 20
to 10 all fail, although the swapped ranges contain records. -/
theorem reversed_bounds_fail_witness :
    ((exampleStore.GetByBrandBetweenYears "Toyota" 2010 1990).2 =
        (none, some (.sentinel .ErrNoVehiclesByBrandYearsRepo)) ∧
      FailsWith (mapService.GetByBrandBetweenYears exampleStore "Toyota" 2010 1990).2.2
        .ErrVehiclesNotFoundByCriteria) ∧
    (exampleStore.GetByBrandBetweenYears "Toyota" 1990 2010).2.2 = none ∧
    (exampleStore.ListByDimensions (.fin 4) (.fin 3) (.fin 0) (.fin 9)).2 =
      (none, some (.sentinel .ErrNoVehiclesByDimensionsRepo)) ∧
    ((exampleStore.ListByWeightRange (.fin 20) (.fin 10)).2 =
        (none, some (.sentinel .ErrNoVehiclesByWeightRangeRepo)) ∧
      FailsWith (mapService.ListByWeightRange exampleStore (.fin 20) (.fin 10)).2.2
        .ErrVehiclesNotFoundByCriteria) ∧
    (exampleStore.ListByWeightRange (.fin 10) (.fin 20)).2.2 = none :=
  ⟨(reversed_bounds_fail exampleStore).1 "Toyota" 2010 1990 (by decide), by decide,
    (reversed_bounds_fail exampleStore).2.1 (.fin 4) (.fin 3) (.fin 0) (.fin 9)
      (Or.inl (by decide)),
    (reversed_bounds_fail exampleStore).2.2 (.fin 20) (.fin 10) (by decide) (by decide),
    by decide⟩

/-- The handler `Update` answers Bad Request, without calling the service, when the
maximum speed of the payload fails its range test. -/
theorem handler_update_rejects_speed {σ : Type} (h : Handler.VehicleDefault σ) (st : σ)
    (idStr : String) (id : Option Int) (body : VehicleJSON)
    (hspeed : (body.MaxSpeed.le Handler.minSpeed || body.MaxSpeed.gt Handler.maxSpeed) = true) :
    Handler.Update h st idStr id (some body) = (st, some StatusBadRequest) := by
  unfold Handler.Update
  by_cases hid : idStr = ""
  · simp [hid]
  · cases id with
    | none => simp [hid]
    | some n => simp [hid, hspeed]

/-- C21 does not hold of the code: only the handler Update tests the maximum speed.
A payload of maximum speed 500 sent to the handler Create, and payloads of maximum
speed 500 and 0 sent to the handler CreateMultiple, are answered with Created and
the records are stored with these speeds; the handler Update answers the same
payload, and every payload whose speed fails the test, with Bad Request without
calling the service. -/
theorem max_speed_checked_on_update_only :
    (∀ (σ : Type) (h : Handler.VehicleDefault σ) (st : σ) (idStr : String) (id : Option Int)
      (body : VehicleJSON),
      (body.MaxSpeed.le Handler.minSpeed || body.MaxSpeed.gt Handler.maxSpeed) = true →
      Handler.Update h st idStr id (some body) = (st, some StatusBadRequest)) ∧
    ((F64.fin 500).gt Handler.maxSpeed = true ∧ (F64.fin 0).le Handler.minSpeed = true) ∧
    ((Handler.Create mapHandler (NewVehicleMap none) (some (exampleJSONWithSpeed 1 500))).2 =
        some StatusCreated ∧
      ((Handler.Create mapHandler (NewVehicleMap none)
        (some (exampleJSONWithSpeed 1 500))).1.db.lookup 1).map (fun x => x.MaxSpeed) =
        some (.fin 500)) ∧
    ((Handler.CreateMultiple mapHandler (NewVehicleMap none)
        (some ⟨[exampleJSONWithSpeed 1 500, exampleJSONWithSpeed 2 0]⟩)).2 =
        some StatusCreated ∧
      ((Handler.CreateMultiple mapHandler (NewVehicleMap none)
        (some ⟨[exampleJSONWithSpeed 1 500, exampleJSONWithSpeed 2 0]⟩)).1.db.lookup 1).map
          (fun x => x.MaxSpeed) = some (.fin 500) ∧
      ((Handler.CreateMultiple mapHandler (NewVehicleMap none)
        (some ⟨[exampleJSONWithSpeed 1 500, exampleJSONWithSpeed 2 0]⟩)).1.db.lookup 2).map
          (fun x => x.MaxSpeed) = some (.fin 0)) ∧
    Handler.Update mapHandler exampleStore "1" (some 1) (some (exampleJSONWithSpeed 1 500)) =
      (exampleStore, some StatusBadRequest) := by
  refine ⟨fun σ h st idStr id body hs => handler_update_rejects_speed h st idStr id body hs,
    ⟨by decide, by decide⟩, ⟨by decide, by decide⟩,
    ⟨by decide, by decide, by decide⟩, ?_⟩
  exact handler_update_rejects_speed _ _ _ _ _ (by decide)

/-- A string without a hyphen is split into itself alone. -/
theorem splitHyphenChars_of_no_hyphen (l : List Char) (h : '-' ∉ l) :
    splitHyphenChars l = [l] := by
  induction l with
  | nil => rfl
  | cons c cs ih =>
    have hc : c ≠ '-' := fun hc => h (by rw [hc]; simp)
    have hcs : '-' ∉ cs := fun hin => h (List.mem_cons_of_mem c hin)
    simp [splitHyphenChars, hc, ih hcs]

/-- Taking the second part of the split of a non-empty string without a hyphen is
out of range. -/
theorem lowHigh_of_no_hyphen (s : String) (hne : s ≠ "") (h : '-' ∉ s.data) :
    Handler.lowHigh s = none := by
  unfold Handler.lowHigh splitHyphen
  rw [splitHyphenChars_of_no_hyphen s.data h]
  simp [hne]

/-- C22 does not hold of the code: for a `length` or `width` parameter that is not
empty and has no hyphen, such as "5" or "abc", the handler ListByDimensions takes the
second part of a split of one part and panics; it does not answer Bad Request. A
value with a hyphen and a non-numeric part is answered with Bad Request. -/
theorem dimension_parameter_without_hyphen_panics :
    (∀ (σ : Type) (parseFloat : String → Option F64) (h : Handler.VehicleDefault σ) (st : σ)
      (s other : String), s ≠ "" → '-' ∉ s.data →
      Handler.ListByDimensions parseFloat h st s other = none ∧
      Handler.ListByDimensions parseFloat h st other s = none) ∧
    splitHyphen "5" = ["5"] ∧
    Handler.ListByDimensions exampleParseFloat mapHandler exampleStore "5" "" = none ∧
    Handler.ListByDimensions exampleParseFloat mapHandler exampleStore "abc" "" = none ∧
    Handler.ListByDimensions exampleParseFloat mapHandler exampleStore "" "5" = none ∧
    (Handler.ListByDimensions exampleParseFloat mapHandler exampleStore "a-4" "").map
      (fun x => x.2.map (fun y => y.status)) = some (some StatusBadRequest) := by
  have hgen : ∀ (σ : Type) (parseFloat : String → Option F64) (h : Handler.VehicleDefault σ)
      (st : σ) (s other : String), s ≠ "" → '-' ∉ s.data →
      Handler.ListByDimensions parseFloat h st s other = none ∧
      Handler.ListByDimensions parseFloat h st other s = none := by
    intro σ parseFloat h st s other hne hno
    have hl := lowHigh_of_no_hyphen s hne hno
    constructor
    · simp [Handler.ListByDimensions, Handler.dimensionsOfRequest, hl]
    · unfold Handler.ListByDimensions Handler.dimensionsOfRequest
      cases Handler.lowHigh other with
      | none => rfl
      | some p => simp [hl]
  refine ⟨hgen, by decide, (hgen _ _ _ _ "5" "" (by decide) (by decide)).1,
    (hgen _ _ _ _ "abc" "" (by decide) (by decide)).1,
    (hgen _ _ _ _ "5" "" (by decide) (by decide)).2, by decide⟩

/-- The map the dimension handler fills holds each of the four bounds under its
key. -/
theorem lookup_dimensionsOf (a b c e : F64) :
    (Handler.dimensionsOf a b c e).lookup "min_length" = some a ∧
    (Handler.dimensionsOf a b c e).lookup "max_length" = some b ∧
    (Handler.dimensionsOf a b c e).lookup "min_width" = some c ∧
    (Handler.dimensionsOf a b c e).lookup "max_width" = some e := by
  unfold Handler.dimensionsOf
  refine ⟨?_, ?_, ?_, ?_⟩
  · rw [AList.lookup_insert_ne (by decide), AList.lookup_insert_ne (by decide),
      AList.lookup_insert_ne (by decide), AList.lookup_insert]
  · rw [AList.lookup_insert_ne (by decide), AList.lookup_insert_ne (by decide),
      AList.lookup_insert]
  · rw [AList.lookup_insert_ne (by decide), AList.lookup_insert]
  · rw [AList.lookup_insert]

/-- When the dimension handler reaches the call of the service, the map it passes
was filled from the four parsed bounds of the two parameters. -/
theorem dimensionsOfRequest_eq_some (parseFloat : String → Option F64)
    (lengthStr widthStr : String) (d : DimensionMap)
    (h : Handler.dimensionsOfRequest parseFloat lengthStr widthStr = some (some d)) :
    ∃ minLengthStr maxLengthStr minWidthStr maxWidthStr a b c e,
      Handler.lowHigh lengthStr = some (minLengthStr, maxLengthStr) ∧
      Handler.lowHigh widthStr = some (minWidthStr, maxWidthStr) ∧
      Handler.parseBound parseFloat minLengthStr = some a ∧
      Handler.parseBound parseFloat maxLengthStr = some b ∧
      Handler.parseBound parseFloat minWidthStr = some c ∧
      Handler.parseBound parseFloat maxWidthStr = some e ∧
      d = Handler.dimensionsOf a b c e := by
  unfold Handler.dimensionsOfRequest at h
  cases h1 : Handler.lowHigh lengthStr with
  | none => simp [h1] at h
  | some p1 =>
    obtain ⟨lo, hi⟩ := p1
    cases h2 : Handler.lowHigh widthStr with
    | none => simp [h1, h2] at h
    | some p2 =>
      obtain ⟨wlo, whi⟩ := p2
      cases h3 : Handler.parseBound parseFloat lo with
      | none => simp [h1, h2, h3] at h
      | some a =>
        cases h4 : Handler.parseBound parseFloat hi with
        | none => simp [h1, h2, h3, h4] at h
        | some b =>
          cases h5 : Handler.parseBound parseFloat wlo with
          | none => simp [h1, h2, h3, h4, h5] at h
          | some c =>
            cases h6 : Handler.parseBound parseFloat whi with
            | none => simp [h1, h2, h3, h4, h5, h6] at h
            | some e =>
              simp [h1, h2, h3, h4, h5, h6] at h
              exact ⟨lo, hi, wlo, whi, a, b, c, e, rfl, rfl, h3, h4, h5, h6, h.symm⟩

/-- The loop that fills the `data` map of a response, read through a lookup. -/
theorem lookup_foldl_insert_json (l : List (Sigma fun _ : Int => Vehicle)) (hl : l.NodupKeys)
    (acc : JSONMap) (k : Int) :
    (l.foldl (fun (data : JSONMap) e => data.insert e.1 (Handler.jsonOf e.2)) acc).lookup k =
      match l.dlookup k with
      | some v => some (Handler.jsonOf v)
      | none => acc.lookup k := by
  induction l generalizing acc with
  | nil => simp
  | cons e l ih =>
    obtain ⟨hnot, hl2⟩ := List.nodupKeys_cons.mp hl
    rw [List.foldl_cons, ih hl2]
    obtain ⟨a, b⟩ := e
    by_cases hk : k = a
    · subst hk
      have hnone : l.dlookup k = none := List.dlookup_eq_none.mpr hnot
      rw [hnone]
      simp [AList.lookup_insert]
    · rw [List.dlookup_cons_ne _ _ hk]
      cases l.dlookup k with
      | none => simp [AList.lookup_insert_ne hk]
      | some v => rfl

/-- The `data` map of a response holds, under every key of the returned map, the
JSON form of the record under that key. -/
theorem lookup_dataOf (m : VMap) (k : Int) :
    (Handler.dataOf (some m)).lookup k = (m.lookup k).map Handler.jsonOf := by
  unfold Handler.dataOf
  rw [lookup_foldl_insert_json m.entries m.nodupKeys ∅ k]
  show (match m.lookup k with
    | some v => some (Handler.jsonOf v)
    | none => (∅ : JSONMap).lookup k) = _
  cases m.lookup k <;> simp

/-- A value lies between 0 and 0 exactly when it is 0. -/
theorem F64.between_zero_iff (x : F64) :
    (F64.zero.le x = true ∧ x.le F64.zero = true) ↔ x = F64.zero := by
  cases x <;> simp [F64.le, F64.zero]
  exact ⟨fun h => le_antisymm h.2 h.1, fun h => by rw [h]; exact ⟨le_refl _, le_refl _⟩⟩

/-- The service over the map store, called with the map the dimension handler fills,
queries the store with the four bounds of that map: no default is used. -/
theorem service_list_by_dimensions_of_dimensionsOf (r : VehicleMap) (a b c e : F64) :
    ReportsAs .ErrVehiclesNotFoundByCriteria (r.ListByDimensions a b c e).2.2
      (mapService.ListByDimensions r (Handler.dimensionsOf a b c e)).2.2 ∧
    (mapService.ListByDimensions r (Handler.dimensionsOf a b c e)).1 = r ∧
    (mapService.ListByDimensions r (Handler.dimensionsOf a b c e)).2.1 =
      (r.ListByDimensions a b c e).2.1 := by
  obtain ⟨h1, h2, h3, h4⟩ := lookup_dimensionsOf a b c e
  have ht := reportsAs_filter_query .ErrNoVehiclesByDimensionsRepo r _ _
    (service_list_by_dimensions_eq mapService r (Handler.dimensionsOf a b c e))
    (list_by_dimensions_cases r _ _ _ _)
  simp only [boundOrDefault, h1, h2, h3, h4, Option.getD_some] at ht
  have hst : (r.ListByDimensions a b c e).1 = r := by
    rcases list_by_dimensions_cases r a b c e with h | ⟨m, h⟩ <;> rw [h]
  exact ⟨ht.1, ht.2.1.trans hst, ht.2.2⟩

/-- The dimension handler over the map store, when it reaches the call of the
service with the bounds `a`, `b`, `c`, `e`: Not Found when the store's query fails,
OK with the JSON form of the returned map otherwise. -/
theorem handler_list_by_dimensions_eq (parseFloat : String → Option F64) (r : VehicleMap)
    (lengthStr widthStr : String) (a b c e : F64)
    (hd : Handler.dimensionsOfRequest parseFloat lengthStr widthStr =
      some (some (Handler.dimensionsOf a b c e))) :
    Handler.ListByDimensions parseFloat mapHandler r lengthStr widthStr =
      match (r.ListByDimensions a b c e).2.1 with
      | none => some (r, some ⟨StatusNotFound, none⟩)
      | some m => some (r, some ⟨StatusOK, some (Handler.dataOf (some m))⟩) := by
  have hsv : mapHandler.sv.ListByDimensions = mapService.ListByDimensions := rfl
  obtain ⟨hrep, hst, hmap⟩ := service_list_by_dimensions_of_dimensionsOf r a b c e
  unfold Handler.ListByDimensions
  rw [hd]
  simp only [hsv]
  rcases list_by_dimensions_cases r a b c e with h | ⟨m, h⟩
  · rw [h] at hrep hmap ⊢
    obtain ⟨err, herr, his, _⟩ := hrep
    cases hres : mapService.ListByDimensions r (Handler.dimensionsOf a b c e) with
    | mk st1 rest =>
      obtain ⟨v, oerr⟩ := rest
      rw [hres] at hst herr
      simp only at hst herr
      subst hst
      subst herr
      simp [his]
  · rw [h] at hrep hmap ⊢
    cases hres : mapService.ListByDimensions r (Handler.dimensionsOf a b c e) with
    | mk st1 rest =>
      obtain ⟨v, oerr⟩ := rest
      rw [hres] at hst hrep hmap
      simp only at hst hmap
      have hnone : oerr = none := hrep
      subst hst
      subst hnone
      subst hmap
      rfl

/-- An empty string leaves a bound at 0. -/
theorem parseBound_empty (parseFloat : String → Option F64) :
    Handler.parseBound parseFloat "" = some F64.zero := by
  simp [Handler.parseBound]

/-- An empty parameter is not split: both of its parts are empty. -/
theorem lowHigh_empty : Handler.lowHigh "" = some ("", "") := by
  simp [Handler.lowHigh]

/-- C25: whenever the dimension handler calls the service, the map it passes holds
all four keys, with 0 under every bound whose part of the request is empty. For a
request without `length` the store is therefore queried with minimum and maximum
length 0, and likewise for `width`, not with the service's unbounded default; a
request with neither parameter is answered with exactly the records whose length and
width are both 0, or with Not Found when there is none. -/
theorem dimension_handler_passes_all_bounds (parseFloat : String → Option F64)
    (r : VehicleMap) :
    (∀ lengthStr widthStr d,
      Handler.dimensionsOfRequest parseFloat lengthStr widthStr = some (some d) →
      (∀ key ∈ ["min_length", "max_length", "min_width", "max_width"],
        (d.lookup key).isSome = true) ∧
      (∃ minLengthStr maxLengthStr minWidthStr maxWidthStr,
        Handler.lowHigh lengthStr = some (minLengthStr, maxLengthStr) ∧
        Handler.lowHigh widthStr = some (minWidthStr, maxWidthStr) ∧
        (minLengthStr = "" → d.lookup "min_length" = some F64.zero) ∧
        (maxLengthStr = "" → d.lookup "max_length" = some F64.zero) ∧
        (minWidthStr = "" → d.lookup "min_width" = some F64.zero) ∧
        (maxWidthStr = "" → d.lookup "max_width" = some F64.zero)) ∧
      (lengthStr = "" →
        d.lookup "min_length" = some F64.zero ∧ d.lookup "max_length" = some F64.zero ∧
        ∃ c e, (mapService.ListByDimensions r d).2.1 =
            (r.ListByDimensions F64.zero F64.zero c e).2.1 ∧
          ReportsAs .ErrVehiclesNotFoundByCriteria
            (r.ListByDimensions F64.zero F64.zero c e).2.2
            (mapService.ListByDimensions r d).2.2) ∧
      (widthStr = "" →
        d.lookup "min_width" = some F64.zero ∧ d.lookup "max_width" = some F64.zero ∧
        ∃ a b, (mapService.ListByDimensions r d).2.1 =
            (r.ListByDimensions a b F64.zero F64.zero).2.1 ∧
          ReportsAs .ErrVehiclesNotFoundByCriteria
            (r.ListByDimensions a b F64.zero F64.zero).2.2
            (mapService.ListByDimensions r d).2.2)) ∧
    (∃ resp : Response,
      Handler.ListByDimensions parseFloat mapHandler r "" "" = some (r, some resp) ∧
      ((resp.status = StatusNotFound ∧ resp.data = none ∧
          ¬ ∃ k rec, r.db.lookup k = some rec ∧
            rec.Length = F64.zero ∧ rec.Width = F64.zero) ∨
        (resp.status = StatusOK ∧ ∃ data : JSONMap, resp.data = some data ∧
          ∀ k j, data.lookup k = some j ↔
            ∃ rec, r.db.lookup k = some rec ∧
              rec.Length = F64.zero ∧ rec.Width = F64.zero ∧ j = Handler.jsonOf rec))) := by
  constructor
  · intro lengthStr widthStr d hd
    obtain ⟨lo, hi, wlo, whi, a, b, c, e, hl, hw, ha, hb, hc, he, hdeq⟩ :=
      dimensionsOfRequest_eq_some parseFloat lengthStr widthStr d hd
    subst hdeq
    obtain ⟨h1, h2, h3, h4⟩ := lookup_dimensionsOf a b c e
    obtain ⟨hrep, _, hmap⟩ := service_list_by_dimensions_of_dimensionsOf r a b c e
    have hz : ∀ (s : String) (x : F64), s = "" → Handler.parseBound parseFloat s = some x →
        x = F64.zero := by
      intro s x hs hx
      rw [hs, parseBound_empty] at hx
      simp only [Option.some.injEq] at hx
      exact hx.symm
    refine ⟨?_, ⟨lo, hi, wlo, whi, hl, hw, ?_, ?_, ?_, ?_⟩, ?_, ?_⟩
    · intro key hkey
      simp only [List.mem_cons, List.mem_singleton, List.not_mem_nil, or_false] at hkey
      rcases hkey with rfl | rfl | rfl | rfl
      · rw [h1]; rfl
      · rw [h2]; rfl
      · rw [h3]; rfl
      · rw [h4]; rfl
    · intro hs; rw [h1, hz lo a hs ha]
    · intro hs; rw [h2, hz hi b hs hb]
    · intro hs; rw [h3, hz wlo c hs hc]
    · intro hs; rw [h4, hz whi e hs he]
    · intro hs
      rw [hs, lowHigh_empty] at hl
      simp only [Option.some.injEq, Prod.mk.injEq] at hl
      have haz := hz lo a hl.1.symm ha
      have hbz := hz hi b hl.2.symm hb
      subst haz
      subst hbz
      exact ⟨h1, h2, c, e, hmap, hrep⟩
    · intro hs
      rw [hs, lowHigh_empty] at hw
      simp only [Option.some.injEq, Prod.mk.injEq] at hw
      have hcz := hz wlo c hw.1.symm hc
      have hez := hz whi e hw.2.symm he
      subst hcz
      subst hez
      exact ⟨h3, h4, a, b, hmap, hrep⟩
  · have hd : Handler.dimensionsOfRequest parseFloat "" "" =
        some (some (Handler.dimensionsOf F64.zero F64.zero F64.zero F64.zero)) := by
      simp [Handler.dimensionsOfRequest, lowHigh_empty, parseBound_empty]
    have hp : ∀ x : Vehicle,
        ((x.Length.ge F64.zero && x.Length.le F64.zero
            && x.Width.ge F64.zero && x.Width.le F64.zero) = true)
          ↔ (x.Length = F64.zero ∧ x.Width = F64.zero) := by
      intro x
      rw [← F64.between_zero_iff x.Length, ← F64.between_zero_iff x.Width]
      simp [F64.ge, and_assoc]
    rw [handler_list_by_dimensions_eq parseFloat r "" "" _ _ _ _ hd]
    rcases filter_query_cases
        (fun x => (x.Length.ge F64.zero && x.Length.le F64.zero
            && x.Width.ge F64.zero && x.Width.le F64.zero) = true)
        r .ErrNoVehiclesByDimensionsRepo
        (r.ListByDimensions F64.zero F64.zero F64.zero F64.zero) rfl with
      ⟨hres, hno⟩ | ⟨m, hres, _, _, hexact⟩
    · rw [hres]
      simp only [hp] at hno
      exact ⟨⟨StatusNotFound, none⟩, rfl, Or.inl ⟨rfl, rfl, hno⟩⟩
    · rw [hres]
      simp only [hp] at hexact
      refine ⟨⟨StatusOK, some (Handler.dataOf (some m))⟩, rfl, Or.inr ⟨rfl, _, rfl, ?_⟩⟩
      intro k j
      rw [lookup_dataOf]
      constructor
      · intro hj
        cases hm : m.lookup k with
        | none => rw [hm] at hj; simp at hj
        | some rec =>
          rw [hm] at hj
          simp only [Option.map_some', Option.some.injEq] at hj
          obtain ⟨hk, hL, hW⟩ := (hexact k rec).mp hm
          exact ⟨rec, hk, hL, hW, hj.symm⟩
      · rintro ⟨rec, hk, hL, hW, hj⟩
        rw [(hexact k rec).mpr ⟨hk, hL, hW⟩, hj]
        rfl

/-- On the example store (lengths 3 and 4, widths 1 and 2) the request with the
width range 1 to 2 and no length passes 0 as both length bounds and is answered with
Not Found, although the service called with the width bounds alone returns both
records; the request with neither parameter is answered with Not Found as well. -/
theorem dimension_handler_passes_all_bounds_witness :
    (Handler.dimensionsOfRequest exampleParseFloat "" "1-2" =
      some (some (Handler.dimensionsOf F64.zero F64.zero (.fin 1) (.fin 2)))) ∧
    ((Handler.dimensionsOf F64.zero F64.zero (.fin 1) (.fin 2)).lookup "min_length"
        = some F64.zero ∧
      (Handler.dimensionsOf F64.zero F64.zero (.fin 1) (.fin 2)).lookup "max_length"
        = some F64.zero ∧
      ∃ c e, (mapService.ListByDimensions exampleStore
          (Handler.dimensionsOf F64.zero F64.zero (.fin 1) (.fin 2))).2.1 =
            (exampleStore.ListByDimensions F64.zero F64.zero c e).2.1 ∧
        ReportsAs .ErrVehiclesNotFoundByCriteria
          (exampleStore.ListByDimensions F64.zero F64.zero c e).2.2
          (mapService.ListByDimensions exampleStore
            (Handler.dimensionsOf F64.zero F64.zero (.fin 1) (.fin 2))).2.2) ∧
    (Handler.ListByDimensions exampleParseFloat mapHandler exampleStore "" "1-2").map
      (fun x => x.2.map (fun y => y.status)) = some (some StatusNotFound) ∧
    (mapService.ListByDimensions exampleStore
      (AList.insert "max_width" (F64.fin 2) (AList.insert "min_width" (F64.fin 1) ∅))).2.1.map
      AList.keys = some [1, 2] ∧
    (Handler.ListByDimensions exampleParseFloat mapHandler exampleStore "" "").map
      (fun x => x.2.map (fun y => y.status)) = some (some StatusNotFound) :=
  ⟨rfl,
    ((dimension_handler_passes_all_bounds exampleParseFloat exampleStore).1 "" "1-2" _
      rfl).2.2.1 rfl,
    by decide, by decide, by decide⟩

end VehicleStore
